import Mathlib

/-!
# Atlantis: step pipeline and apply-eligibility gate

A shallow embedding of parts of the Atlantis server:

* `server/core/runtime/minimum_version_step_runner_delegate.go` (the minimum-version gate),
* `server/events/apply_requirement_handler.go` (the apply-eligibility gate),
* the steps runner of `server/core/runtime`, whose tests are in
  `server/core/runtime/steps_runner_test.go`,
* the apply step runner of `server/core/runtime`, whose tests are in
  `server/core/runtime/apply_step_runner_test.go`,
* the working-directory lock and `server/events/pre_workflow_hooks_command_runner.go`,
* `server/events/command/project_result.go` and `server/core/config/raw/workflow.go`,
* `server/neptune/gateway/event/check_suite_handler.go`,
  `server/neptune/gateway/event/pull_request_handler.go` and
  `server/vcs/provider/github/converter/push_event.go`.

Conventions of the embedding.

* A Go pointer or interface value that may be nil is an `Option`; a nil dereference is the
  result `none` of the function that performs it.
* A Go `(string, error)` result is a `RunResult`; the nil error is `none`.
* A collaborator with effects (a step runner) is a function of its arguments and of a world
  state `σ`, returning its result and the next world state.  Functions that call collaborators
  also return the list of calls they made, in order.
* A Go `map[string]string` is an association list with at most one entry per key.
-/

namespace Atlantis

/-! ## Go values shared by the components -/

/-- Go `error` values: a base error with a message, or an error wrapped by
`errors.Wrap(cause, msg)` of `github.com/pkg/errors`. -/
inductive GoError where
  | new (msg : String)
  | wrap (cause : GoError) (msg : String)
  deriving DecidableEq, Repr

/-- The method `Error()`: a wrapped error prints as `msg: cause`. -/
def GoError.Error : GoError → String
  | .new msg => msg
  | .wrap cause msg => msg ++ ": " ++ cause.Error

/-- The function `errors.Wrap`: nil stays nil, any other error is wrapped with the message. -/
def errorsWrap (err : Option GoError) (msg : String) : Option GoError :=
  match err with
  | none => none
  | some e => some (GoError.wrap e msg)

/-- A `context.Context` value; only its identity matters here. -/
structure Context where
  id : Nat
  deriving DecidableEq, Repr

/-- A logger (`ProjectContext.Log`); only its identity matters here. -/
structure Logger where
  id : Nat
  deriving DecidableEq, Repr

/-- The type `models.Repo`, with the fields the embedded code reads. -/
structure Repo where
  FullName : String
  DefaultBranch : String
  deriving DecidableEq, Repr

/-- A Go `map[string]string`, as an association list with at most one entry per key. -/
abbrev EnvMap := List (String × String)

/-- The assignment `envs[k] = v`: any earlier entry for `k` is replaced. -/
def EnvMap.set (m : EnvMap) (k v : String) : EnvMap :=
  (k, v) :: m.filter (fun p => p.1 != k)

/-- The lookup `envs[k]`, with `none` for an absent key. -/
def EnvMap.get (m : EnvMap) (k : String) : Option String :=
  m.lookup k

/-- The type `models.ApprovalStatus`, with the field the embedded code reads. -/
structure ApprovalStatus where
  IsApproved : Bool
  deriving DecidableEq, Repr

/-- The type `models.PullReqStatus`, with the fields the embedded code reads. -/
structure PullReqStatus where
  ApprovalStatus : ApprovalStatus
  Mergeable : Bool
  SQLocked : Bool
  deriving DecidableEq, Repr

/-- The type `models.ProjectPlanStatus`: its declaration is not among the sources, so the
constructors are the constants that `command/project_result.go` names. -/
inductive ProjectPlanStatus where
  | ErroredPlanStatus
  | PlannedPlanStatus
  | ErroredPolicyCheckStatus
  | PassedPolicyCheckStatus
  | ErroredApplyStatus
  | AppliedPlanStatus
  deriving DecidableEq, Repr

/-- The kinds of step of a workflow: the tagged variant of the data model
(Init, Plan, Show, PolicyCheck, Version, Apply, Env, Run). -/
inductive StepKind where
  | init
  | plan
  | show
  | policyCheck
  | version
  | apply
  | env
  | run
  deriving DecidableEq, Repr

/-- The type `valid.Step`, with the fields that `steps_runner_test.go` sets.  `StepName` is
the kind of the step, which the tests write as one of the names `init`, `plan`, `apply`,
`run`, `env`. -/
structure Step where
  StepName : StepKind
  ExtraArgs : List String
  RunCommand : String
  EnvVarName : String
  EnvVarValue : String
  deriving DecidableEq, Repr

/-- The type `command.ProjectContext`, with the fields the embedded code reads.  `V` is the
type of parsed versions (`version.Version` of `github.com/hashicorp/go-version`); a nil
`TerraformVersion` is `none`. -/
structure ProjectContext (V : Type) where
  Log : Logger
  RequestCtx : Context
  BaseRepo : Repo
  Workspace : String
  RepoRelDir : String
  ProjectName : String
  EscapedCommentArgs : List String
  TerraformVersion : Option V
  Steps : List Step
  ApplyRequirements : List String
  PullReqStatus : PullReqStatus
  ProjectPlanStatus : ProjectPlanStatus
  deriving DecidableEq, Repr

/-- A Go result `(string, error)`. -/
structure RunResult where
  out : String
  err : Option GoError
  deriving DecidableEq, Repr

/-- The interface `runtime.Runner`:
`Run(ctx, prjCtx, extraArgs, path, envs) (string, error)`, run in a world state. -/
abbrev Runner (V σ : Type) :=
  Context → ProjectContext V → List String → String → EnvMap → σ → RunResult × σ

/-- The arguments of one call of `Runner.Run`. -/
structure RunnerCall (V : Type) where
  ctx : Context
  prjCtx : ProjectContext V
  extraArgs : List String
  path : String
  envs : EnvMap
  deriving DecidableEq, Repr

/-! ## The version library -/

/-- The three functions of `github.com/hashicorp/go-version` that the gate calls, taken as a
parameter: `NewVersion` (parsing, which can fail), the method `LessThan` and the method
`String`. -/
structure VersionLib (V : Type) where
  NewVersion : String → Except GoError V
  LessThan : V → V → Bool
  String : V → String

/-- Plain dotted numeric versions such as `0.11.15`: an instance of the version library on
which the model can be run. -/
structure DottedVersion where
  segments : List Nat
  deriving DecidableEq, Repr

/-- Split a list of characters at every dot. -/
def splitDots : List Char → List (List Char)
  | [] => [[]]
  | c :: cs =>
    if c = '.' then [] :: splitDots cs
    else
      match splitDots cs with
      | [] => [[c]]
      | s :: ss => (c :: s) :: ss

/-- Parse a non-empty string of decimal digits. -/
def parseDigits (cs : List Char) : Option Nat :=
  if cs = [] then none
  else cs.foldl
    (fun acc c => acc.bind fun n => if c.isDigit then some (10 * n + (c.toNat - 48)) else none)
    (some 0)

/-- Compare segment lists, a missing segment counting as zero. -/
def segmentsLess : List Nat → List Nat → Bool
  | [], [] => false
  | [], b :: bs => if 0 < b then true else segmentsLess [] bs
  | _ :: _, [] => false
  | a :: as, b :: bs => if a < b then true else if b < a then false else segmentsLess as bs

/-- The version library of dotted numeric versions. -/
def dottedVersions : VersionLib DottedVersion where
  NewVersion := fun s =>
    match (splitDots s.data).mapM parseDigits with
    | some segs => .ok ⟨segs⟩
    | none => .error (GoError.new ("Malformed version: " ++ s))
  LessThan := fun v o => segmentsLess v.segments o.segments
  String := fun v => ".".intercalate (v.segments.map Nat.repr)

/-! ## The minimum-version gate (`minimum_version_step_runner_delegate.go`) -/

/-- The struct `MinimumVersionStepRunnerDelegate`; each field may be nil. -/
structure MinimumVersionStepRunnerDelegate (V σ : Type) where
  minimumVersion : Option V
  defaultTfVersion : Option V
  delegate : Option (Runner V σ)

/-- What one call of the gate did: the result it returned, the world state it left, and the
calls it made to the wrapped runner. -/
structure GateRun (V σ : Type) where
  result : RunResult
  world : σ
  delegateCalls : List (RunnerCall V)

/-- The constructor `NewMinimumVersionStepRunnerDelegate`: on a parse failure it returns the
zero struct and the wrapped parse error. -/
def NewMinimumVersionStepRunnerDelegate {V σ : Type} (L : VersionLib V)
    (minimumVersionStr : String) (defaultVersion : Option V) (delegate : Option (Runner V σ)) :
    MinimumVersionStepRunnerDelegate V σ × Option GoError :=
  match L.NewVersion minimumVersionStr with
  | .error err => (⟨none, none, none⟩, errorsWrap (some err) "initializing minimum version")
  | .ok minimumVersion => (⟨some minimumVersion, defaultVersion, delegate⟩, none)

/-- The effective version of `Run`: the project's `TerraformVersion` when it is non-nil, the
gate's default otherwise. -/
def MinimumVersionStepRunnerDelegate.tfVersion {V σ : Type}
    (r : MinimumVersionStepRunnerDelegate V σ) (prjCtx : ProjectContext V) : Option V :=
  match prjCtx.TerraformVersion with
  | some v => some v
  | none => r.defaultTfVersion

/-- The method `MinimumVersionStepRunnerDelegate.Run`.  The result is `none` when the call
dereferences nil: `LessThan` on a nil version, or `Run` on a nil delegate. -/
def MinimumVersionStepRunnerDelegate.Run {V σ : Type} (L : VersionLib V)
    (r : MinimumVersionStepRunnerDelegate V σ) (ctx : Context) (prjCtx : ProjectContext V)
    (extraArgs : List String) (path : String) (envs : EnvMap) (w : σ) : Option (GateRun V σ) :=
  match r.tfVersion prjCtx, r.minimumVersion with
  | some tfVersion, some minimumVersion =>
    if L.LessThan tfVersion minimumVersion then
      some
        { result :=
            { out := "Version: " ++ L.String tfVersion ++
                " is unsupported for this step. Minimum version is: " ++ L.String minimumVersion
              err := none }
          world := w
          delegateCalls := [] }
    else
      match r.delegate with
      | none => none
      | some delegate =>
        let res := delegate ctx prjCtx extraArgs path envs w
        some
          { result := res.1
            world := res.2
            delegateCalls := [⟨ctx, prjCtx, extraArgs, path, envs⟩] }
  | _, _ => none

/-! ## The apply-eligibility gate (`apply_requirement_handler.go`) -/

/-- The five requirement names that `ValidateProject` switches on.  The constants
(`raw.ApprovedApplyRequirement`, `valid.PoliciesPassedApplyReq`, `raw.MergeableApplyRequirement`,
`raw.UnDivergedApplyRequirement`, `raw.UnlockedApplyRequirement`) are declared outside the
sources at hand, so their values are a parameter. -/
structure ApplyReqNames where
  ApprovedApplyRequirement : String
  PoliciesPassedApplyReq : String
  MergeableApplyRequirement : String
  UnDivergedApplyRequirement : String
  UnlockedApplyRequirement : String
  deriving DecidableEq, Repr

/-- The five names are pairwise different, as the cases of a Go `switch` have to be. -/
def ApplyReqNames.Distinct (K : ApplyReqNames) : Prop :=
  [K.ApprovedApplyRequirement, K.PoliciesPassedApplyReq, K.MergeableApplyRequirement,
    K.UnDivergedApplyRequirement, K.UnlockedApplyRequirement].Nodup

instance (K : ApplyReqNames) : Decidable K.Distinct :=
  inferInstanceAs (Decidable (List.Nodup _))

/-- The requirement names as they are written in repository configuration
(`project_command_builder_internal_test.go` lists `approved` and `mergeable`). -/
def applyReqNames : ApplyReqNames where
  ApprovedApplyRequirement := "approved"
  PoliciesPassedApplyReq := "policies_passed"
  MergeableApplyRequirement := "mergeable"
  UnDivergedApplyRequirement := "undiverged"
  UnlockedApplyRequirement := "unlocked"

/-- The interface `WorkingDir`, with the one method `ValidateProject` calls.  `HasDiverged` is
a query: its answer is a function of the logger, the directory and the repository. -/
structure WorkingDir where
  HasDiverged : Logger → String → Repo → Bool

/-- The struct `AggregateApplyRequirements`. -/
structure AggregateApplyRequirements where
  WorkingDir : WorkingDir

/-- The arguments of one call of `WorkingDir.HasDiverged`. -/
structure HasDivergedCall where
  log : Logger
  repoDir : String
  baseRepo : Repo
  deriving DecidableEq, Repr

/-- What one call of `ValidateProject` did: the two values it returned and the calls of
`WorkingDir.HasDiverged` it made, in order. -/
structure Validation where
  failure : String
  err : Option GoError
  hasDivergedCalls : List HasDivergedCall
  deriving DecidableEq, Repr

/-- Add calls made earlier in front of the calls of a validation. -/
def Validation.after (calls : List HasDivergedCall) (v : Validation) : Validation :=
  { v with hasDivergedCalls := calls ++ v.hasDivergedCalls }

/-- The loop of `ValidateProject` over the requirements still to be examined. -/
def AggregateApplyRequirements.validateFrom {V : Type} (K : ApplyReqNames)
    (a : AggregateApplyRequirements) (repoDir : String) (ctx : ProjectContext V) :
    List String → Validation
  | [] => ⟨"", none, []⟩
  | req :: rest =>
    if req = K.ApprovedApplyRequirement then
      if !ctx.PullReqStatus.ApprovalStatus.IsApproved then
        ⟨"Pull request must be approved by at least one person other than the author before running apply.",
          none, []⟩
      else validateFrom K a repoDir ctx rest
    else if req = K.PoliciesPassedApplyReq then
      if ctx.ProjectPlanStatus != ProjectPlanStatus.PassedPolicyCheckStatus then
        ⟨"All policies must pass for project before running apply", none, []⟩
      else validateFrom K a repoDir ctx rest
    else if req = K.MergeableApplyRequirement then
      if !ctx.PullReqStatus.Mergeable then
        ⟨"Pull request must be mergeable before running apply.", none, []⟩
      else validateFrom K a repoDir ctx rest
    else if req = K.UnDivergedApplyRequirement then
      if a.WorkingDir.HasDiverged ctx.Log repoDir ctx.BaseRepo then
        ⟨"Default branch must be rebased onto pull request before running apply.", none,
          [⟨ctx.Log, repoDir, ctx.BaseRepo⟩]⟩
      else (validateFrom K a repoDir ctx rest).after [⟨ctx.Log, repoDir, ctx.BaseRepo⟩]
    else if req = K.UnlockedApplyRequirement then
      if ctx.PullReqStatus.SQLocked then
        ⟨"Pull request must be unlocked using the 🔓  emoji before running apply.", none, []⟩
      else validateFrom K a repoDir ctx rest
    else validateFrom K a repoDir ctx rest

/-- The method `AggregateApplyRequirements.ValidateProject`. -/
def AggregateApplyRequirements.ValidateProject {V : Type} (K : ApplyReqNames)
    (a : AggregateApplyRequirements) (repoDir : String) (ctx : ProjectContext V) : Validation :=
  a.validateFrom K repoDir ctx ctx.ApplyRequirements

/-- The reading of "requirement `req` passes": each of the five kinds passes on its own
status fact, and any other string passes. -/
def RequirementPasses {V : Type} (K : ApplyReqNames) (a : AggregateApplyRequirements)
    (repoDir : String) (ctx : ProjectContext V) (req : String) : Prop :=
  (req = K.ApprovedApplyRequirement → ctx.PullReqStatus.ApprovalStatus.IsApproved = true) ∧
  (req = K.PoliciesPassedApplyReq →
    ctx.ProjectPlanStatus = ProjectPlanStatus.PassedPolicyCheckStatus) ∧
  (req = K.MergeableApplyRequirement → ctx.PullReqStatus.Mergeable = true) ∧
  (req = K.UnDivergedApplyRequirement →
    a.WorkingDir.HasDiverged ctx.Log repoDir ctx.BaseRepo = false) ∧
  (req = K.UnlockedApplyRequirement → ctx.PullReqStatus.SQLocked = false)

/-! ## The steps runner and the env step runner

The files `steps_runner.go` and `env_step_runner.go` are not among the sources; their tests
(`steps_runner_test.go`) are.  The two runners are modelled from the specification, with the
interfaces the tests call. -/

/-- The interface of the run step runner, as `steps_runner_test.go` calls it:
`Run(ctx, prjCtx, cmd, path, envs) (string, error)`. -/
abbrev CustomRunner (V σ : Type) :=
  Context → ProjectContext V → String → String → EnvMap → σ → RunResult × σ

/-- The interface of the env step runner, as `steps_runner_test.go` calls it:
`Run(ctx, prjCtx, cmd, value, path, envs) (string, error)`. -/
abbrev EnvRunner (V σ : Type) :=
  Context → ProjectContext V → String → String → String → EnvMap → σ → RunResult × σ

/-- Remove one trailing newline, if there is one (Go `strings.TrimSuffix(s, "\n")`). -/
def trimOneNewline (s : String) : String :=
  if s.data.getLast? = some '\n' then ⟨s.data.dropLast⟩ else s

/-- Modelled from the spec: the struct `EnvStepRunner` of the missing `env_step_runner.go`,
which holds the run mechanism (`steps_runner_test.go` builds it from a `RunStepRunner`). -/
structure EnvStepRunner (V σ : Type) where
  RunStepRunner : CustomRunner V σ

/-- Modelled from the spec: the method `EnvStepRunner.Run` of the missing `env_step_runner.go`
(section 4.4).  A literal value that is present is returned verbatim; otherwise the run
mechanism is invoked with the current environment and working directory and its captured
output is returned with one trailing newline trimmed; an error of the run mechanism is
returned as it is, with no output. -/
def EnvStepRunner.Run {V σ : Type} (r : EnvStepRunner V σ) : EnvRunner V σ :=
  fun ctx prjCtx command value path envs w =>
    if value ≠ "" then (⟨value, none⟩, w)
    else
      let res := r.RunStepRunner ctx prjCtx command path envs w
      match res.1.err with
      | some err => (⟨"", some err⟩, res.2)
      | none => (⟨trimOneNewline res.1.out, none⟩, res.2)

/-- Modelled from the spec: the struct behind `runtime.NewStepsRunner` of the missing
`steps_runner.go`, one runner per step kind, in the order of the arguments that
`steps_runner_test.go` passes (init, plan, show, policy check, apply, version, run, env). -/
structure StepsRunner (V σ : Type) where
  InitStepRunner : Runner V σ
  PlanStepRunner : Runner V σ
  ShowStepRunner : Runner V σ
  PolicyCheckStepRunner : Runner V σ
  ApplyStepRunner : Runner V σ
  VersionStepRunner : Runner V σ
  RunStepRunner : CustomRunner V σ
  EnvStepRunner : EnvRunner V σ

/-- One invocation of a step runner by the steps runner: the step, the environment map passed,
the world state in which the runner was invoked, and what the runner returned. -/
structure StepCall (σ : Type) where
  step : Step
  envs : EnvMap
  world : σ
  result : RunResult
  deriving DecidableEq, Repr

/-- What one call of `StepsRunner.Run` did: the result it returned, the world state it left,
and the invocations of step runners it made, in order. -/
structure StepsRun (σ : Type) where
  result : RunResult
  world : σ
  calls : List (StepCall σ)
  deriving DecidableEq, Repr

/-- Modelled from the spec: the dispatch of the missing `steps_runner.go` (section 4.1), the
invocation of the individual runner matching the step kind with the current environment.  The
run runner receives the step's command, the env runner the step's command and literal value,
every other runner the step's extra arguments. -/
def StepsRunner.dispatch {V σ : Type} (r : StepsRunner V σ) (ctx : Context)
    (prjCtx : ProjectContext V) (absPath : String) (step : Step) (envs : EnvMap) (w : σ) :
    RunResult × σ :=
  match step.StepName with
  | .init => r.InitStepRunner ctx prjCtx step.ExtraArgs absPath envs w
  | .plan => r.PlanStepRunner ctx prjCtx step.ExtraArgs absPath envs w
  | .show => r.ShowStepRunner ctx prjCtx step.ExtraArgs absPath envs w
  | .policyCheck => r.PolicyCheckStepRunner ctx prjCtx step.ExtraArgs absPath envs w
  | .apply => r.ApplyStepRunner ctx prjCtx step.ExtraArgs absPath envs w
  | .version => r.VersionStepRunner ctx prjCtx step.ExtraArgs absPath envs w
  | .run => r.RunStepRunner ctx prjCtx step.RunCommand absPath envs w
  | .env => r.EnvStepRunner ctx prjCtx step.RunCommand step.EnvVarValue absPath envs w

/-- Modelled from the spec: the environment map after a successful step, in the loop of the
missing `steps_runner.go` (section 4.1): an env step writes the value its runner computed
into the map under the step's variable name, any other step leaves the map as it is. -/
def StepsRunner.nextEnvs (step : Step) (res : RunResult) (envs : EnvMap) : EnvMap :=
  if step.StepName = StepKind.env then envs.set step.EnvVarName res.out else envs

/-- Modelled from the spec: the outputs after a successful step, in the loop of the missing
`steps_runner.go` (section 4.1): an env step contributes no output text, any other step
appends its output when it is not empty. -/
def StepsRunner.nextOutputs (step : Step) (res : RunResult) (outputs : List String) :
    List String :=
  if step.StepName = StepKind.env then outputs
  else if res.out ≠ "" then outputs ++ [res.out]
  else outputs

/-- Modelled from the spec: the loop of `StepsRunner.Run` of the missing `steps_runner.go`
(section 4.1) over the steps still to be executed, with the environment map and the outputs
accumulated so far.  Each step is dispatched with the current environment map.  A failing
step aborts the sequence: its error is returned and the outputs accumulated so far are
discarded.  At the end the outputs are joined by a single newline. -/
def StepsRunner.runFrom {V σ : Type} (r : StepsRunner V σ) (ctx : Context)
    (prjCtx : ProjectContext V) (absPath : String) :
    List Step → EnvMap → List String → σ → StepsRun σ
  | [], _, outputs, w => ⟨⟨"\n".intercalate outputs, none⟩, w, []⟩
  | step :: rest, envs, outputs, w =>
    let res := r.dispatch ctx prjCtx absPath step envs w
    let call : StepCall σ := ⟨step, envs, w, res.1⟩
    match res.1.err with
    | some err => ⟨⟨"", some err⟩, res.2, [call]⟩
    | none =>
      let tail := runFrom r ctx prjCtx absPath rest (StepsRunner.nextEnvs step res.1 envs)
        (StepsRunner.nextOutputs step res.1 outputs) res.2
      ⟨tail.result, tail.world, call :: tail.calls⟩

/-- Modelled from the spec: the method `StepsRunner.Run(ctx, prjCtx, absPath)` of the missing
`steps_runner.go` (section 4.1): the loop over `prjCtx.Steps`, started with an empty
environment map and no outputs. -/
def StepsRunner.Run {V σ : Type} (r : StepsRunner V σ) (ctx : Context)
    (prjCtx : ProjectContext V) (absPath : String) (w : σ) : StepsRun σ :=
  r.runFrom ctx prjCtx absPath prjCtx.Steps [] [] w

/-- The bindings that the env steps among a list of invocations made: the variable name of the
step and the value its runner returned. -/
def envBindings {σ : Type} (calls : List (StepCall σ)) : List (String × String) :=
  (calls.filter (fun c => c.step.StepName = StepKind.env)).map
    (fun c => (c.step.EnvVarName, c.result.out))

/-- Apply a list of bindings, in order, to the empty environment map. -/
def applyBindings (bs : List (String × String)) : EnvMap :=
  bs.foldl (fun m b => m.set b.1 b.2) []

/-- The outputs that the steps runner joins: those of the invocations of non-env steps, in
order, without the empty ones. -/
def joinedOutputs {σ : Type} (calls : List (StepCall σ)) : List String :=
  ((calls.filter (fun c => c.step.StepName ≠ StepKind.env)).map (fun c => c.result.out)).filter
    (fun o => o ≠ "")

/-! ## Concrete inputs, taken from the tests -/

/-- The versions `0.11.15` and `0.12.0` of `minimum_version_step_runner_delegate_test.go`. -/
def tfVersion11 : DottedVersion := ⟨[0, 11, 15]⟩

/-- The version `0.12.0`. -/
def tfVersion12 : DottedVersion := ⟨[0, 12, 0]⟩

/-- The zero value `command.ProjectContext{}`, with a plan status that is not the passed one. -/
def emptyProject : ProjectContext DottedVersion where
  Log := ⟨0⟩
  RequestCtx := ⟨0⟩
  BaseRepo := ⟨"", ""⟩
  Workspace := ""
  RepoRelDir := ""
  ProjectName := ""
  EscapedCommentArgs := []
  TerraformVersion := none
  Steps := []
  ApplyRequirements := []
  PullReqStatus := ⟨⟨false⟩, false, false⟩
  ProjectPlanStatus := ProjectPlanStatus.ErroredPlanStatus

/-- The mock delegate of the gate's test: it returns a fixed output and no error; the world
state counts the calls. -/
def mockDelegate : Runner DottedVersion Nat :=
  fun _ _ _ _ _ w => (⟨"some valid output from delegate", none⟩, w + 1)

/-- The text an `echo` command prints: its argument, with one `$name` replaced by the value
of `name` in the environment (empty when unset). -/
def echoText (envs : EnvMap) (cs : List Char) : List Char :=
  match cs.span (fun c => c != '$') with
  | (lit, []) => lit
  | (lit, _ :: name) => lit ++ ((envs.get ⟨name⟩).getD "").data

/-- A run mechanism that executes `echo` commands and fails on every other command; the world
state counts the commands run. -/
def echoRunner : CustomRunner DottedVersion Nat :=
  fun _ _ cmd _ envs w =>
    if "echo ".data.isPrefixOf cmd.data then
      (⟨⟨echoText envs (cmd.data.drop 5) ++ ['\n']⟩, none⟩, w + 1)
    else (⟨"", some (GoError.new "exit status 127")⟩, w + 1)

/-- A steps runner of mocks returning the name of their step, with `echoRunner` as the run
mechanism of both the run steps and the env steps (the wiring of
`TestStepsRuinner_RunEnvSteps`). -/
def echoStepsRunner : StepsRunner DottedVersion Nat where
  InitStepRunner := fun _ _ _ _ _ w => (⟨"init", none⟩, w + 1)
  PlanStepRunner := fun _ _ _ _ _ w => (⟨"plan", none⟩, w + 1)
  ShowStepRunner := fun _ _ _ _ _ w => (⟨"show", none⟩, w + 1)
  PolicyCheckStepRunner := fun _ _ _ _ _ w => (⟨"policy_check", none⟩, w + 1)
  ApplyStepRunner := fun _ _ _ _ _ w => (⟨"apply", none⟩, w + 1)
  VersionStepRunner := fun _ _ _ _ _ w => (⟨"version", none⟩, w + 1)
  RunStepRunner := echoRunner
  EnvStepRunner := EnvStepRunner.Run ⟨echoRunner⟩

/-- A run step with the given command. -/
def runStep (cmd : String) : Step := ⟨StepKind.run, [], cmd, "", ""⟩

/-- An env step binding a name to a literal value. -/
def envValueStep (name value : String) : Step := ⟨StepKind.env, [], "", name, value⟩

/-- An env step binding a name to the output of a command. -/
def envCommandStep (name cmd : String) : Step := ⟨StepKind.env, [], cmd, name, ""⟩

/-- The project of `TestStepsRuinner_RunEnvSteps`, with its seven steps. -/
def envStepsProject : ProjectContext DottedVersion :=
  { emptyProject with
    Workspace := "default"
    RepoRelDir := "."
    Steps :=
      [runStep "echo var=$var",
        envValueStep "var" "value",
        runStep "echo var=$var",
        envCommandStep "dynamic_var" "echo dynamic_value",
        runStep "echo dynamic_var=$dynamic_var",
        envValueStep "dynamic_var" "overridden",
        runStep "echo dynamic_var=$dynamic_var"] }

/-- A project whose second step fails: an `echo`, then a command the run mechanism does not
know, then another `echo`. -/
def failingProject : ProjectContext DottedVersion :=
  { emptyProject with
    Steps := [runStep "echo first", runStep "false", runStep "echo third"] }


/-- A working directory that never reports divergence. -/
def neverDiverged : AggregateApplyRequirements := ⟨⟨fun _ _ _ => false⟩⟩

/-- A working directory that always reports divergence. -/
def alwaysDiverged : AggregateApplyRequirements := ⟨⟨fun _ _ _ => true⟩⟩

/-- A project with the given apply requirements on a pull request that is not approved, not
mergeable and not locked, and whose plan status is not the passed one. -/
def blockedProject (reqs : List String) : ProjectContext DottedVersion :=
  { emptyProject with ApplyRequirements := reqs }

/-- A project with the given apply requirements on a pull request that is approved, mergeable
and not locked, and whose policies passed. -/
def clearedProject (reqs : List String) : ProjectContext DottedVersion :=
  { emptyProject with
    ApplyRequirements := reqs
    PullReqStatus := ⟨⟨true⟩, true, false⟩
    ProjectPlanStatus := ProjectPlanStatus.PassedPolicyCheckStatus }

/-! ## The apply step runner

The file `apply_step_runner.go` is not among the sources; its tests
(`apply_step_runner_test.go`) are.  The runner is modelled from the specification
(section 4.2 and section 6), with the interfaces and the literal texts the tests use. -/

/-- The plan files on disk: the paths that exist, each with its contents. -/
abbrev FileSystem := List (String × String)

/-- Read a file (`os.ReadFile`); `none` when no file exists at the path, whether the
directory or the file is missing. -/
def FileSystem.readFile (fs : FileSystem) (path : String) : Option String :=
  fs.lookup path

/-- Delete a file (`os.Remove`). -/
def FileSystem.remove (fs : FileSystem) (path : String) : FileSystem :=
  fs.filter (fun e => e.1 != path)

/-- The type `models.VCSStatus`, with the three statuses of the data model. -/
inductive VCSStatus where
  | PendingVCSStatus
  | SuccessVCSStatus
  | FailedVCSStatus
  deriving DecidableEq, Repr

/-- One call of `VCSStatusUpdater.UpdateProject(ctx, prjCtx, command.Apply, status, runURL, "")`
by the apply step runner: the status and the run URL passed. -/
structure StatusUpdate where
  status : VCSStatus
  runURL : String
  deriving DecidableEq, Repr

/-- The arguments of one call of the subprocess executor
(`RunCommandWithVersion` or `RunCommandAsyncWithInput`):
`(ctx, prjCtx, path, args, envs, version, workspace)`. -/
structure ExecCall (V : Type) where
  ctx : Context
  prjCtx : ProjectContext V
  path : String
  args : List String
  envs : EnvMap
  version : Option V
  workspace : String
  deriving DecidableEq, Repr

/-- The type `helpers.Line` of the output stream: a line of text, or a terminal error. -/
structure Line where
  Line : String
  Err : Option GoError
  deriving DecidableEq, Repr

/-- The synchronous subprocess executor, `RunCommandWithVersion`, run in a world state. -/
abbrev TerraformExec (V σ : Type) := ExecCall V → σ → RunResult × σ

/-- The asynchronous subprocess executor, `RunCommandAsyncWithInput`: the lines the
subprocess streams until its output closes, in order. -/
abbrev AsyncTerraformExec (V σ : Type) := ExecCall V → σ → List Line × σ

/-- What the apply step runner uses of declarations outside the sources at hand.  The texts
of the remote-apply exchange that the specification leaves as known patterns: the run URL
found in a streamed line, if any; the plan text extracted, after normalization, from the
lines streamed up to the prompt; and the plan text recorded in a plan file after the remote
marker, after normalization.  And two functions of the Go standard library: `Join` is
`filepath.Join` of a directory and a file name, and `Quote` is the quoted form of a string,
`fmt.Sprintf("%q", s)`. -/
structure RemoteOps where
  runURL : String → Option String
  streamedPlan : List String → String
  recordedPlan : String → String
  Join : String → String → String
  Quote : String → String

/-- Modelled from the spec: the struct `ApplyStepRunner` of the missing
`apply_step_runner.go`, with the executors that `apply_step_runner_test.go` sets. -/
structure ApplyStepRunner (V σ : Type) where
  TerraformExecutor : TerraformExec V σ
  AsyncTFExec : AsyncTerraformExec V σ

/-- What one call of `ApplyStepRunner.Run` did: the result it returned, the files and the
world state it left, the calls of the synchronous and of the asynchronous executor, the tokens
it sent on the input sink and the status updates it emitted, each in order. -/
structure ApplyRun (V σ : Type) where
  result : RunResult
  files : FileSystem
  world : σ
  execCalls : List (ExecCall V)
  asyncCalls : List (ExecCall V)
  input : List String
  statusUpdates : List StatusUpdate

/-- Modelled from the spec: the plan file name of the missing `apply_step_runner.go`
(section 6): `<workspace>.tfplan` when no project name is set, else
`<projectName>-<workspace>.tfplan`. -/
def GetPlanFilename (workspace projName : String) : String :=
  if projName = "" then workspace ++ ".tfplan"
  else projName ++ "-" ++ workspace ++ ".tfplan"

/-- Modelled from the spec: the path of the plan file of a project, the plan file name
joined to the given directory, as `filepath.Join(path, planFileName)` in
`apply_step_runner_test.go`. -/
def planPath {V : Type} (P : RemoteOps) (prjCtx : ProjectContext V) (path : String) : String :=
  P.Join path (GetPlanFilename prjCtx.Workspace prjCtx.ProjectName)

/-- Modelled from the spec: one argument requests a target-scoped apply when it is `-target`
as a standalone flag or has the form `-target=value` (section 4.2). -/
def isTargetFlag (arg : String) : Bool :=
  arg == "-target" || "-target=".data.isPrefixOf arg.data

/-- Modelled from the spec: the scan of the missing `apply_step_runner.go` for a target flag,
over both the comment-supplied flags and the extra arguments (section 4.2). -/
def hasTargetFlag {V : Type} (prjCtx : ProjectContext V) (extraArgs : List String) : Bool :=
  (prjCtx.EscapedCommentArgs ++ extraArgs).any isTargetFlag

/-- The first line of the plan file of a remote plan (section 6). -/
def remoteOpsHeader : String := "Atlantis: this plan was created by remote ops"

/-- Modelled from the spec: a plan file is a remote plan when its first line is the remote
marker (section 6). -/
def IsRemotePlan (contents : String) : Bool :=
  contents.data.takeWhile (fun c => c != '\n') == remoteOpsHeader.data

/-- A list of characters occurs in another one. -/
def occursIn (pat : List Char) : List Char → Bool
  | [] => pat.isEmpty
  | c :: cs => pat.isPrefixOf (c :: cs) || occursIn pat cs

/-- Modelled from the spec: a streamed line is the interactive prompt when it holds
`Enter a value:` (section 4.2). -/
def isConfirmPrompt (line : String) : Bool :=
  occursIn "Enter a value:".data line.data

/-- The error of `apply_step_runner_test.go` for an apply with a target flag. -/
def targetNotAllowedErr : GoError :=
  GoError.new ("cannot run apply with -target because we are applying an already generated " ++
    "plan. Instead, run -target with atlantis plan")

/-- The error of `apply_step_runner_test.go` for a missing plan file, naming the relative
directory and the workspace, both in their quoted form. -/
def noPlanFoundErr {V : Type} (P : RemoteOps) (prjCtx : ProjectContext V) : GoError :=
  GoError.new ("no plan found at path " ++ P.Quote prjCtx.RepoRelDir ++ " and workspace " ++
    P.Quote prjCtx.Workspace ++ "–did you run plan?")

/-- The line of stars of the plan mismatch error. -/
def starsLine : String := "**************************************************"

/-- The error of `TestRun_RemoteApply_PlanChanged` for a plan that changed between plan and
apply, with the expected and the actual plan text side by side and the guidance to re-run
plan. -/
def planChangedErr (expected actual : String) : GoError :=
  GoError.new
    ("Plan generated during apply phase did not match plan generated during plan phase.\n" ++
      "Aborting apply.\n\nExpected Plan:\n\n" ++ expected ++ "\n" ++ starsLine ++
      "\n\nActual Plan:\n\n" ++ actual ++ "\n" ++ starsLine ++
      "\n\nThis likely occurred because someone applied a change to this state in-between\n" ++
      "your plan and apply commands.\nTo resolve, re-run plan.")

/-- The state of the consumer of the output stream of a remote apply: the text lines
consumed, the run URL once found, the status updates emitted, the tokens sent on the input
sink, whether the confirmation was sent, and the lines consumed after it. -/
structure RemoteState where
  lines : List String
  runURL : Option String
  statusUpdates : List StatusUpdate
  input : List String
  confirmed : Bool
  output : List String
  deriving DecidableEq, Repr

/-- Modelled from the spec: the bookkeeping of one text line by the consumer of the missing
`apply_step_runner.go` (section 4.2, steps 2, 3 and 5): the line is buffered, it is
aggregated into the output when the confirmation was sent, and the first run URL found is
recorded with a Pending status update carrying it. -/
def RemoteState.record (P : RemoteOps) (st : RemoteState) (line : String) : RemoteState :=
  let output := if st.confirmed then st.output ++ [line] else st.output
  match st.runURL, P.runURL line with
  | none, some url =>
    ⟨st.lines ++ [line], some url,
      st.statusUpdates ++ [⟨VCSStatus.PendingVCSStatus, url⟩], st.input, st.confirmed, output⟩
  | _, _ => ⟨st.lines ++ [line], st.runURL, st.statusUpdates, st.input, st.confirmed, output⟩

/-- Modelled from the spec: the confirmation token `yes` is sent on the input sink
(section 4.2, step 4). -/
def RemoteState.confirm (st : RemoteState) : RemoteState :=
  ⟨st.lines, st.runURL, st.statusUpdates, st.input ++ ["yes\n"], true, st.output⟩

/-- Modelled from the spec: the refusal token `no` is sent on the input sink
(section 4.2, step 4). -/
def RemoteState.refuse (st : RemoteState) : RemoteState :=
  ⟨st.lines, st.runURL, st.statusUpdates, st.input ++ ["no\n"], st.confirmed, st.output⟩

/-- The run URL and the status updates that fit a list of consumed lines: the first run URL
found in them, with one Pending update carrying it. -/
def urlView (P : RemoteOps) (lines : List String) : Option String × List StatusUpdate :=
  match lines.findSome? P.runURL with
  | some url => (some url, [⟨VCSStatus.PendingVCSStatus, url⟩])
  | none => (none, [])

/-- How the consumption of the output stream of a remote apply ended: the stream closed, a
terminal error arrived on the stream, or the plan did not match. -/
inductive RemoteEnd where
  | closed
  | streamErr (err : GoError)
  | planChanged (err : GoError)
  deriving DecidableEq, Repr

/-- Modelled from the spec: the consumer of the output stream of the missing
`apply_step_runner.go` (section 4.2, steps 2 to 5).  A terminal error on the stream ends the
consumption with that error.  At the interactive prompt the streamed plan text is compared
with the plan text recorded in the plan file: when they match the confirmation token is sent
and the remaining lines are drained, otherwise the refusal token is sent and the consumption
ends with the plan mismatch error. -/
def consumeRemote (P : RemoteOps) (planfile : String) :
    List Line → RemoteState → RemoteState × RemoteEnd
  | [], st => (st, RemoteEnd.closed)
  | l :: rest, st =>
    match l.Err with
    | some err => (st, RemoteEnd.streamErr err)
    | none =>
      let st1 := st.record P l.Line
      if !st1.confirmed && isConfirmPrompt l.Line then
        if P.streamedPlan st1.lines = P.recordedPlan planfile then
          consumeRemote P planfile rest st1.confirm
        else
          (st1.refuse,
            RemoteEnd.planChanged
              (planChangedErr (P.recordedPlan planfile) (P.streamedPlan st1.lines)))
      else consumeRemote P planfile rest st1

/-- Modelled from the spec: the method `ApplyStepRunner.Run` of the missing
`apply_step_runner.go` (section 4.2).  A missing plan file and a target flag are terminal
errors, before any subprocess is invoked.  In local mode the executor is invoked with
`apply -input=false <extra-args> <comment-args> "<planfile-path>"`, the project's version and
workspace, and its result is returned.  In remote mode the asynchronous executor is started
with `apply -input=false <extra-args> <comment-args>` (the arguments
`TestRun_RemoteApply_Success` expects), its stream is consumed, and a final status update is
emitted: Success with the run URL on clean completion, Failed otherwise; the lines drained
after the confirmation are the output, and a plan mismatch returns no output.  The plan file
is deleted when the apply returned no error, in both modes, as `TestRun_Success` and
`TestRun_RemoteApply_Success` assert. -/
def ApplyStepRunner.Run {V σ : Type} (P : RemoteOps) (a : ApplyStepRunner V σ) (ctx : Context)
    (prjCtx : ProjectContext V) (extraArgs : List String) (path : String) (envs : EnvMap)
    (fs : FileSystem) (w : σ) : ApplyRun V σ :=
  match fs.readFile (planPath P prjCtx path) with
  | none => ⟨⟨"", some (noPlanFoundErr P prjCtx)⟩, fs, w, [], [], [], []⟩
  | some contents =>
    if hasTargetFlag prjCtx extraArgs then
      ⟨⟨"", some targetNotAllowedErr⟩, fs, w, [], [], [], []⟩
    else if IsRemotePlan contents then
      let call : ExecCall V :=
        ⟨ctx, prjCtx, path, ["apply", "-input=false"] ++ extraArgs ++ prjCtx.EscapedCommentArgs,
          envs, prjCtx.TerraformVersion, prjCtx.Workspace⟩
      let stream := a.AsyncTFExec call w
      let done := consumeRemote P contents stream.1 ⟨[], none, [], [], false, []⟩
      let url := done.1.runURL.getD ""
      match done.2 with
      | RemoteEnd.closed =>
        ⟨⟨"\n".intercalate done.1.output, none⟩, fs.remove (planPath P prjCtx path), stream.2,
          [], [call], done.1.input,
          done.1.statusUpdates ++ [⟨VCSStatus.SuccessVCSStatus, url⟩]⟩
      | RemoteEnd.streamErr err =>
        ⟨⟨"\n".intercalate done.1.output, some err⟩, fs, stream.2, [], [call], done.1.input,
          done.1.statusUpdates ++ [⟨VCSStatus.FailedVCSStatus, url⟩]⟩
      | RemoteEnd.planChanged err =>
        ⟨⟨"", some err⟩, fs, stream.2, [], [call], done.1.input,
          done.1.statusUpdates ++ [⟨VCSStatus.FailedVCSStatus, url⟩]⟩
    else
      let call : ExecCall V :=
        ⟨ctx, prjCtx, path,
          ["apply", "-input=false"] ++ extraArgs ++ prjCtx.EscapedCommentArgs ++
            [P.Quote (planPath P prjCtx path)],
          envs, prjCtx.TerraformVersion, prjCtx.Workspace⟩
      let res := a.TerraformExecutor call w
      match res.1.err with
      | some _ => ⟨res.1, fs, res.2, [call], [], [], []⟩
      | none => ⟨res.1, fs.remove (planPath P prjCtx path), res.2, [call], [], [], []⟩

/-! ## The working-directory lock

The file with the locker (`NewDefaultWorkingDirLocker` of
`project_command_builder_internal_test.go`) is not among the sources; it is modelled from the
specification (section 3 and section 4.6). -/

/-- The key of a lock: repository full name, change-request number and workspace. -/
structure LockKey where
  repoFullName : String
  pullNum : Int
  workspace : String
  deriving DecidableEq, Repr

/-- The result of `TryLock`, a Go `(func(), error)`: the release function, which acts on the
state that holds the locks, and the error. -/
structure TryLockResult (σ : Type) where
  unlockFn : σ → σ
  err : Option GoError

/-- Modelled from the spec: the locker of the missing working-directory locker file, a
registry of the keys that are held (section 3). -/
structure DefaultWorkingDirLocker where
  locks : List LockKey
  deriving DecidableEq, Repr

/-- Modelled from the spec: the constructor `NewDefaultWorkingDirLocker`, with no key held. -/
def NewDefaultWorkingDirLocker : DefaultWorkingDirLocker := ⟨[]⟩

/-- Modelled from the spec: the release of a key, which takes it out of the registry
(section 4.6). -/
def DefaultWorkingDirLocker.unlock (d : DefaultWorkingDirLocker) (key : LockKey) :
    DefaultWorkingDirLocker :=
  ⟨d.locks.filter (fun k => k != key)⟩

/-- Modelled from the spec: the error of a `TryLock` on a key that is held (the lock
contention of section 7); the specification does not give its text. -/
def lockContentionErr (key : LockKey) : GoError :=
  GoError.new ("the " ++ key.workspace ++ " workspace is currently locked by another command")

/-- Modelled from the spec: the method `TryLock(repo, changeRequestNumber, workspace)` of the
missing working-directory locker file (section 4.6): it fails immediately when the key is
already held, and otherwise records the key as held and returns the function that releases
it. -/
def DefaultWorkingDirLocker.TryLock (d : DefaultWorkingDirLocker) (repoFullName : String)
    (pullNum : Int) (workspace : String) :
    TryLockResult DefaultWorkingDirLocker × DefaultWorkingDirLocker :=
  if (⟨repoFullName, pullNum, workspace⟩ : LockKey) ∈ d.locks then
    (⟨id, some (lockContentionErr ⟨repoFullName, pullNum, workspace⟩)⟩, d)
  else
    (⟨fun d' => d'.unlock ⟨repoFullName, pullNum, workspace⟩, none⟩,
      ⟨d.locks ++ [⟨repoFullName, pullNum, workspace⟩]⟩)

/-- The states of the registry that can be reached from the empty registry by calls of
`TryLock` and of release functions. -/
inductive DefaultWorkingDirLocker.Reachable : DefaultWorkingDirLocker → Prop where
  | init : Reachable NewDefaultWorkingDirLocker
  | tryLock (d : DefaultWorkingDirLocker) (repoFullName : String) (pullNum : Int)
      (workspace : String) : Reachable d → Reachable (d.TryLock repoFullName pullNum workspace).2
  | release (d : DefaultWorkingDirLocker) (key : LockKey) :
      Reachable d → Reachable (d.unlock key)

/-- The number of holders of a key in a state of the registry. -/
def DefaultWorkingDirLocker.holders (d : DefaultWorkingDirLocker) (key : LockKey) : Nat :=
  d.locks.count key

/-! ## Configuration types (`config/valid`, `config/raw`) -/

/-- A Go map with string keys, as an association list with at most one entry per key. -/
abbrev GoMap (α : Type) := List (String × α)

/-- The lookup `m[k]`, with `none` for an absent key. -/
def GoMap.get {α : Type} (m : GoMap α) (k : String) : Option α :=
  m.lookup k

/-- The assignment `m[k] = v`: any earlier entry for `k` is replaced. -/
def GoMap.set {α : Type} (m : GoMap α) (k : String) (v : α) : GoMap α :=
  (k, v) :: m.filter (fun p => p.1 != k)

/-- The keys of a map. -/
def GoMap.keys {α : Type} (m : GoMap α) : List String :=
  m.map (fun p => p.1)

/-- The type `valid.Stage`. -/
structure Stage where
  Steps : List Step
  deriving DecidableEq, Repr

/-- The type `valid.Workflow`. -/
structure ValidWorkflow where
  Name : String
  Apply : Stage
  Plan : Stage
  PolicyCheck : Stage
  deriving DecidableEq, Repr

/-- The type `raw.Stage` over raw steps of type `S`; a nil `Steps` is `none`. -/
structure RawStage (S : Type) where
  Steps : Option (List S)
  deriving DecidableEq, Repr

/-- The struct `raw.Workflow`; a nil stage is `none`. -/
structure RawWorkflow (S : Type) where
  Apply : Option (RawStage S)
  Plan : Option (RawStage S)
  PolicyCheck : Option (RawStage S)
  deriving DecidableEq, Repr

/-- The type `valid.PreWorkflowHook`, with the field `runHooks` reads. -/
structure PreWorkflowHook where
  RunCommand : String
  deriving DecidableEq, Repr

/-- The type `valid.Repo`, with what `RunPreHooks` uses of it: the method `IDMatches` and the
hooks. -/
structure ValidRepo where
  IDMatches : String → Bool
  PreWorkflowHooks : List PreWorkflowHook

/-- The type `valid.GlobalCfg`, with the fields the embedded code reads. -/
structure GlobalCfg where
  Repos : List ValidRepo
  Workflows : GoMap ValidWorkflow

/-! ## The pre-workflow hooks command runner (`pre_workflow_hooks_command_runner.go`) -/

/-- The type `models.User`. -/
structure User where
  Username : String
  deriving DecidableEq, Repr

/-- The type `models.PullRequest`, with the fields the embedded code reads. -/
structure PullRequest where
  BaseRepo : Repo
  Num : Int
  HeadRepo : Repo
  HeadBranch : String
  HeadCommit : String
  Author : String
  deriving DecidableEq, Repr

/-- The type `command.Context`, with the fields `RunPreHooks` reads. -/
structure CommandContext where
  Pull : PullRequest
  HeadRepo : Repo
  User : User
  Log : Logger
  deriving DecidableEq, Repr

/-- The type `models.PreWorkflowHookCommandContext`, as `RunPreHooks` builds it. -/
structure PreWorkflowHookCommandContext where
  BaseRepo : Repo
  HeadRepo : Repo
  Log : Logger
  Pull : PullRequest
  User : User
  deriving DecidableEq, Repr

/-- The interface `WorkingDirLocker`, with its method `TryLock`, run in a world state. -/
structure WorkingDirLocker (σ : Type) where
  TryLock : String → Int → String → σ → TryLockResult σ × σ

/-- The result of `WorkingDir.Clone`, a Go `(string, bool, error)`. -/
structure CloneResult where
  repoDir : String
  hasDiverged : Bool
  err : Option GoError
  deriving DecidableEq, Repr

/-- The interface `WorkingDir`, with the method `RunPreHooks` calls, run in a world state:
`Clone(log, headRepo, pull, workspace)`. -/
structure WorkingDirCloner (σ : Type) where
  Clone : Logger → Repo → PullRequest → String → σ → CloneResult × σ

/-- The interface `runtime.PreWorkflowHookRunner`:
`Run(ctx, cmdCtx, command, path) (string, error)`, run in a world state. -/
structure PreWorkflowHookRunner (σ : Type) where
  Run : Context → PreWorkflowHookCommandContext → String → String → σ → RunResult × σ

/-- The struct `DefaultPreWorkflowHooksCommandRunner`, with the fields `RunPreHooks` uses.
`DefaultWorkspace` and the method `ID` of `models.Repo` are declared outside the sources at
hand and are held here as well. -/
structure DefaultPreWorkflowHooksCommandRunner (σ : Type) where
  WorkingDirLocker : WorkingDirLocker σ
  WorkingDir : WorkingDirCloner σ
  GlobalCfg : GlobalCfg
  PreWorkflowHookRunner : PreWorkflowHookRunner σ
  DefaultWorkspace : String
  repoID : Repo → String

/-- What `RunPreHooks` does to its collaborators: a call of `TryLock`, a call of the release
function, a call of `Clone`, or a call of the hook runner, each with its arguments. -/
inductive PreHookEvent where
  | tryLock (repoFullName : String) (pullNum : Int) (workspace : String)
  | unlock
  | clone (log : Logger) (headRepo : Repo) (pull : PullRequest) (workspace : String)
  | runHook (ctx : Context) (cmdCtx : PreWorkflowHookCommandContext) (command : String)
      (repoDir : String)
  deriving DecidableEq, Repr

/-- The events that are work on the working directory: a clone or a hook run. -/
def PreHookEvent.isWork : PreHookEvent → Bool
  | PreHookEvent.clone _ _ _ _ => true
  | PreHookEvent.runHook _ _ _ _ => true
  | _ => false

/-- What one call of `RunPreHooks` or `runHooks` did: the error it returned, the world state
it left, and its calls of collaborators, in order. -/
structure PreHooksRun (σ : Type) where
  err : Option GoError
  world : σ
  events : List PreHookEvent

/-- The method `runHooks`: the hooks are run in order until one fails. -/
def DefaultPreWorkflowHooksCommandRunner.runHooks {σ : Type}
    (w : DefaultPreWorkflowHooksCommandRunner σ) (ctx : Context)
    (cmdCtx : PreWorkflowHookCommandContext) :
    List PreWorkflowHook → String → σ → PreHooksRun σ
  | [], _, s => ⟨none, s, []⟩
  | hook :: rest, repoDir, s =>
    let res := w.PreWorkflowHookRunner.Run ctx cmdCtx hook.RunCommand repoDir s
    match res.1.err with
    | some err => ⟨some err, res.2, [PreHookEvent.runHook ctx cmdCtx hook.RunCommand repoDir]⟩
    | none =>
      let tail := runHooks w ctx cmdCtx rest repoDir res.2
      ⟨tail.err, tail.world, PreHookEvent.runHook ctx cmdCtx hook.RunCommand repoDir :: tail.events⟩

/-- The hooks that `RunPreHooks` collects: those of every repo of the global configuration
that matches the ID of the base repo and has hooks, in order. -/
def DefaultPreWorkflowHooksCommandRunner.collectHooks {σ : Type}
    (w : DefaultPreWorkflowHooksCommandRunner σ) (baseRepo : Repo) :
    List ValidRepo → List PreWorkflowHook
  | [] => []
  | repo :: rest =>
    if repo.IDMatches (w.repoID baseRepo) && decide (repo.PreWorkflowHooks.length > 0) then
      repo.PreWorkflowHooks ++ collectHooks w baseRepo rest
    else collectHooks w baseRepo rest

/-- The method `RunPreHooks`.  The deferred call of the release function runs last, on every
return after a successful `TryLock`. -/
def DefaultPreWorkflowHooksCommandRunner.RunPreHooks {σ : Type}
    (w : DefaultPreWorkflowHooksCommandRunner σ) (ctx : Context) (cmdCtx : CommandContext)
    (s : σ) : PreHooksRun σ :=
  let pull := cmdCtx.Pull
  let baseRepo := pull.BaseRepo
  let headRepo := cmdCtx.HeadRepo
  let user := cmdCtx.User
  let log := cmdCtx.Log
  let preWorkflowHooks := w.collectHooks baseRepo w.GlobalCfg.Repos
  if preWorkflowHooks.length = 0 then ⟨none, s, []⟩
  else
    let locked := w.WorkingDirLocker.TryLock baseRepo.FullName pull.Num w.DefaultWorkspace s
    let lockEvent := PreHookEvent.tryLock baseRepo.FullName pull.Num w.DefaultWorkspace
    match locked.1.err with
    | some err => ⟨errorsWrap (some err) "locking working dir", locked.2, [lockEvent]⟩
    | none =>
      let cloned := w.WorkingDir.Clone log headRepo pull w.DefaultWorkspace locked.2
      let cloneEvent := PreHookEvent.clone log headRepo pull w.DefaultWorkspace
      match cloned.1.err with
      | some err =>
        ⟨errorsWrap (some err) "cloning repository", locked.1.unlockFn cloned.2,
          [lockEvent, cloneEvent, PreHookEvent.unlock]⟩
      | none =>
        let ran := w.runHooks ctx ⟨baseRepo, headRepo, log, pull, user⟩ preWorkflowHooks
          cloned.1.repoDir cloned.2
        match ran.err with
        | some err =>
          ⟨errorsWrap (some err) "running pre workflow hooks", locked.1.unlockFn ran.world,
            [lockEvent, cloneEvent] ++ ran.events ++ [PreHookEvent.unlock]⟩
        | none =>
          ⟨none, locked.1.unlockFn ran.world,
            [lockEvent, cloneEvent] ++ ran.events ++ [PreHookEvent.unlock]⟩

/-! ## Project results (`command/project_result.go`) -/

/-- The type `command.Name`: the three commands that `project_result.go` names, and the other
values of the type. -/
inductive CommandName where
  | Apply
  | Plan
  | PolicyCheck
  | other (n : Nat)
  deriving DecidableEq, Repr

/-- The type `models.PlanSuccess`, with the fields `markdown_renderer_test.go` sets. -/
structure PlanSuccess where
  TerraformOutput : String
  LockURL : String
  RePlanCmd : String
  ApplyCmd : String
  deriving DecidableEq, Repr

/-- The type `models.PolicyCheckSuccess`, with the fields `markdown_renderer_test.go` sets. -/
structure PolicyCheckSuccess where
  PolicyCheckOutput : String
  LockURL : String
  deriving DecidableEq, Repr

/-- The struct `command.ProjectResult`. -/
structure ProjectResult where
  Command : CommandName
  RepoRelDir : String
  Workspace : String
  Error : Option GoError
  Failure : String
  PlanSuccess : Option PlanSuccess
  PolicyCheckSuccess : Option PolicyCheckSuccess
  ApplySuccess : String
  VersionSuccess : String
  ProjectName : String
  StatusID : String
  JobID : String
  deriving DecidableEq, Repr

/-- The method `ProjectResult.VcsStatus`. -/
def ProjectResult.VcsStatus (p : ProjectResult) : VCSStatus :=
  if p.Error ≠ none then VCSStatus.FailedVCSStatus
  else if p.Failure ≠ "" then VCSStatus.FailedVCSStatus
  else VCSStatus.SuccessVCSStatus

/-- The method `ProjectResult.IsSuccessful`. -/
def ProjectResult.IsSuccessful (p : ProjectResult) : Bool :=
  p.PlanSuccess != none || p.PolicyCheckSuccess != none || p.ApplySuccess != ""

/-! ## Workflows (`config/raw/workflow.go`) -/

/-- What `workflow.go` uses of declarations outside the sources at hand: the method
`raw.Stage.ToValid` and the default stages `valid.DefaultApplyStage`,
`valid.DefaultPlanStage` and `valid.DefaultPolicyCheckStage`. -/
structure WorkflowDecls (S : Type) where
  stageToValid : RawStage S → Stage
  DefaultApplyStage : Stage
  DefaultPlanStage : Stage
  DefaultPolicyCheckStage : Stage

/-- The method `raw.Workflow.toValidStage`. -/
def RawWorkflow.toValidStage {S : Type} (D : WorkflowDecls S) (stage : Option (RawStage S))
    (defaultStage : Stage) : Stage :=
  match stage with
  | none => defaultStage
  | some st =>
    match st.Steps with
    | none => defaultStage
    | some _ => D.stageToValid st

/-- The method `raw.Workflow.ToValid`. -/
def RawWorkflow.ToValid {S : Type} (D : WorkflowDecls S) (w : RawWorkflow S) (name : String) :
    ValidWorkflow :=
  { Name := name
    Apply := RawWorkflow.toValidStage D w.Apply D.DefaultApplyStage
    Plan := RawWorkflow.toValidStage D w.Plan D.DefaultPlanStage
    PolicyCheck := RawWorkflow.toValidStage D w.PolicyCheck D.DefaultPolicyCheckStage }

/-- The first loop of `raw.Workflows.ToValid`: every raw workflow is converted and stored
under its key. -/
def Workflows.convertAll {S : Type} (D : WorkflowDecls S) :
    List (String × RawWorkflow S) → GoMap ValidWorkflow → GoMap ValidWorkflow
  | [], validWorkflows => validWorkflows
  | (k, v) :: rest, validWorkflows =>
    Workflows.convertAll D rest (validWorkflows.set k (v.ToValid D k))

/-- The second loop of `raw.Workflows.ToValid`: a default workflow is stored under its key
when the key is not present yet. -/
def Workflows.mergeDefaults :
    List (String × ValidWorkflow) → GoMap ValidWorkflow → GoMap ValidWorkflow
  | [], validWorkflows => validWorkflows
  | (k, v) :: rest, validWorkflows =>
    match validWorkflows.get k with
    | some _ => Workflows.mergeDefaults rest validWorkflows
    | none => Workflows.mergeDefaults rest (validWorkflows.set k v)

/-- The method `raw.Workflows.ToValid`.  The maps are ranged over in the order of their
lists. -/
def Workflows.ToValid {S : Type} (D : WorkflowDecls S) (w : GoMap (RawWorkflow S))
    (defaultCfg : GlobalCfg) : GoMap ValidWorkflow :=
  Workflows.mergeDefaults defaultCfg.Workflows (Workflows.convertAll D w [])

/-! ## Concrete inputs for the apply step runner, taken from its tests -/

/-- The mock executor of the apply tests: it returns `output` and no error; the world state
counts the calls. -/
def mockTerraform : TerraformExec DottedVersion Nat :=
  fun _ w => (⟨"output", none⟩, w + 1)

/-- An executor whose subprocess fails. -/
def failingTerraform : TerraformExec DottedVersion Nat :=
  fun _ w => (⟨"", some (GoError.new "exit status 1")⟩, w + 1)

/-- An asynchronous executor that streams the given lines. -/
def streamOf (lines : List Line) : AsyncTerraformExec DottedVersion Nat :=
  fun _ w => (lines, w + 1)

/-- The project of `TestRun_Success`. -/
def applyProject : ProjectContext DottedVersion :=
  { emptyProject with
    Workspace := "workspace"
    RepoRelDir := "."
    EscapedCommentArgs := ["comment", "args"] }

/-- The project of `TestRun_AppliesCorrectProjectPlan`. -/
def namedApplyProject : ProjectContext DottedVersion :=
  { emptyProject with
    Workspace := "default"
    RepoRelDir := "."
    ProjectName := "projectname"
    EscapedCommentArgs := ["comment", "args"] }

/-- The project of the first case of `TestRun_UsingTarget`. -/
def targetProject : ProjectContext DottedVersion :=
  { emptyProject with
    Workspace := "workspace"
    RepoRelDir := "."
    EscapedCommentArgs := ["-target", "mytarget"] }

/-- A directory with an empty plan file for the workspace `workspace`. -/
def localPlanFiles : FileSystem := [("/tmp/dir/workspace.tfplan", "")]

/-- Split a list of characters at every newline. -/
def splitLines : List Char → List (List Char)
  | [] => [[]]
  | c :: cs =>
    if c = '\n' then [] :: splitLines cs
    else
      match splitLines cs with
      | [] => [[c]]
      | s :: ss => (c :: s) :: ss

/-- The lines of a text, as the lines of an output stream without a terminal error
(the mock of `apply_step_runner_test.go` sends `strings.Split(LinesToSend, "\n")`). -/
def linesOf (text : String) : List Line :=
  (splitLines text.data).map (fun cs => ⟨⟨cs⟩, none⟩)

/-- Drop the empty lines at the start and at the end of a list of lines. -/
def trimBlankLines (ls : List String) : List String :=
  ((ls.dropWhile (fun l => l == "")).reverse.dropWhile (fun l => l == "")).reverse

/-- A line of dashes, the delimiter before the plan in the output of a remote apply. -/
def isDashes (l : String) : Bool :=
  !l.data.isEmpty && l.data.all (fun c => c == '-')

/-- Split a list of characters at every separator `/`. -/
def splitSeparators : List Char → List (List Char)
  | [] => [[]]
  | c :: cs =>
    if c = '/' then [] :: splitSeparators cs
    else
      match splitSeparators cs with
      | [] => [[c]]
      | s :: ss => (c :: s) :: ss

/-- One element of a path met by `filepath.Clean`, with the elements kept so far, the last one
first: an empty element and `.` are dropped, `..` removes the element before it, is dropped at
the root, and is kept at the start of a relative path. -/
def cleanElement (rooted : Bool) (kept : List (List Char)) (element : List Char) :
    List (List Char) :=
  if element = [] ∨ element = ['.'] then kept
  else if element = ['.', '.'] then
    match kept with
    | last :: before => if last = ['.', '.'] then element :: kept else before
    | [] => if rooted then [] else [element]
  else element :: kept

/-- The function `filepath.Clean` of the Go standard library, for paths with the separator
`/`: the shortest equivalent path, and `.` for the empty one. -/
def filepathClean (path : String) : String :=
  let rooted := path.data.head? == some '/'
  let body := "/".intercalate
    (((splitSeparators path.data).foldl (cleanElement rooted) []).reverse.map String.mk)
  if rooted then "/" ++ body else if body = "" then "." else body

/-- The function `filepath.Join` of the Go standard library, for two elements: empty elements
are ignored, the others are joined with the separator and the result is cleaned; two empty
elements give the empty string. -/
def filepathJoin (dir name : String) : String :=
  if dir = "" then (if name = "" then "" else filepathClean name)
  else if name = "" then filepathClean dir
  else filepathClean (dir ++ "/" ++ name)

/-- A hexadecimal digit. -/
def hexDigit (n : Nat) : Char :=
  "0123456789abcdef".data.getD n '0'

/-- One character of a string in its quoted form (`strconv.Quote`): the double quote and the
backslash are escaped with a backslash, the control characters have their Go escapes or the
form `\xNN`, and every other character stands for itself.  Characters outside ASCII are taken
to be printable. -/
def quoteChar (c : Char) : List Char :=
  if c.toNat = 34 then [Char.ofNat 92, Char.ofNat 34]
  else if c.toNat = 92 then [Char.ofNat 92, Char.ofNat 92]
  else if c.toNat = 7 then [Char.ofNat 92, 'a']
  else if c.toNat = 8 then [Char.ofNat 92, 'b']
  else if c.toNat = 12 then [Char.ofNat 92, 'f']
  else if c.toNat = 10 then [Char.ofNat 92, 'n']
  else if c.toNat = 13 then [Char.ofNat 92, 'r']
  else if c.toNat = 9 then [Char.ofNat 92, 't']
  else if c.toNat = 11 then [Char.ofNat 92, 'v']
  else if c.toNat < 32 ∨ c.toNat = 127 then
    [Char.ofNat 92, 'x', hexDigit (c.toNat / 16), hexDigit (c.toNat % 16)]
  else [c]

/-- The characters of a string in their quoted form, in order. -/
def quoteChars : List Char → List Char
  | [] => []
  | c :: cs => quoteChar c ++ quoteChars cs

/-- The quoted form of a string, `fmt.Sprintf("%q", s)` of the Go standard library: the
string between double quotes, with its characters escaped. -/
def strconvQuote (s : String) : String :=
  ⟨[Char.ofNat 34] ++ quoteChars s.data ++ [Char.ofNat 34]⟩

/-- An instance of the texts of the remote-apply exchange, fitting the fixtures of
`apply_step_runner_test.go`: the run URL is a line that starts with `https://` and holds
`/runs/run-`; the streamed plan is the text between the line of dashes and the question
`Do you want to perform these actions`, without the blank lines around it; the recorded plan
is the text after the first line of the plan file, without the blank lines around it. -/
def hostedRemoteOps : RemoteOps where
  runURL := fun line =>
    if "https://".data.isPrefixOf line.data && occursIn "/runs/run-".data line.data then
      some line
    else none
  streamedPlan := fun lines =>
    "\n".intercalate
      (trimBlankLines
        (((lines.dropWhile (fun l => !isDashes l)).drop 1).takeWhile
          (fun l => !"Do you want to perform these actions".data.isPrefixOf l.data)))
  recordedPlan := fun contents =>
    "\n".intercalate
      (trimBlankLines (((splitLines contents.data).drop 1).map (fun cs => ⟨cs⟩)))
  Join := filepathJoin
  Quote := strconvQuote

/-- An instance for the local-mode cases: no run URL and no plan text are read. -/
def localOps : RemoteOps :=
  ⟨fun _ => none, fun _ => "", fun _ => "", filepathJoin, strconvQuote⟩

/-- The plan text of the remote-apply tests (`planFileContents`). -/
def planFileContents : String :=
  "\nAn execution plan has been generated and is shown below.\n" ++
  "Resource actions are indicated with the following symbols:\n" ++
  "  - destroy\n\n" ++
  "Terraform will perform the following actions:\n\n" ++
  "  - null_resource.hi[1]\n\n\n" ++
  "Plan: 0 to add, 0 to change, 1 to destroy."

/-- The output of the subprocess up to the prompt (`preConfirmOutFmt`), around a plan text. -/
def preConfirmOut (plan : String) : String :=
  "\nRunning apply in the remote backend. Output will stream here. Pressing Ctrl-C\n" ++
  "will cancel the remote apply if its still pending. If the apply started it\n" ++
  "will stop streaming the logs, but will not stop the apply running remotely.\n\n" ++
  "Preparing the remote apply...\n\n" ++
  "To view this run in a browser, visit:\n" ++
  "https://app.terraform.io/app/lkysow-enterprises/atlantis-tfe-test-dir2/runs/run-PiDsRYKGcerTttV2\n\n" ++
  "Waiting for the plan to start...\n\n" ++
  "Terraform v0.11.11\n\n" ++
  "Configuring remote state backend...\n" ++
  "Initializing Terraform configuration...\n" ++
  "2019/02/27 21:50:44 [DEBUG] Using modified User-Agent: Terraform/0.11.11 TFE/d161c1b\n" ++
  "Refreshing Terraform state in-memory prior to plan...\n" ++
  "The refreshed state will be used to calculate this plan, but will not be\n" ++
  "persisted to local or remote state storage.\n\n" ++
  "null_resource.dir2[0]: Refreshing state... (ID: 8492616078576984857)\n\n" ++
  "------------------------------------------------------------------------\n" ++
  plan ++ "\n\n" ++
  "Do you want to perform these actions in workspace \"atlantis-tfe-test-dir2\"?\n" ++
  "  Terraform will perform the actions described above.\n" ++
  "  Only 'yes' will be accepted to approve.\n\n" ++
  "  Enter a value: "

/-- The output of the subprocess after the confirmation (`postConfirmOut`). -/
def postConfirmOut : String :=
  "\n\n2019/02/27 21:47:36 [DEBUG] Using modified User-Agent: Terraform/0.11.11 TFE/d161c1b\n" ++
  "null_resource.dir2[1]: Destroying... (ID: 8554368366766418126)\n" ++
  "null_resource.dir2[1]: Destruction complete after 0s\n\n" ++
  "Apply complete! Resources: 0 added, 0 changed, 1 destroyed.\n"

/-- The output of the subprocess after the refusal (`noConfirmationOut`). -/
def noConfirmationOut : String := "\n\nError: Apply discarded.\n"

/-- The run URL of the remote-apply tests. -/
def testRunURL : String :=
  "https://app.terraform.io/app/lkysow-enterprises/atlantis-tfe-test-dir2/runs/run-PiDsRYKGcerTttV2"

/-- The plan file of the remote-apply tests: the remote marker, then the plan text. -/
def remotePlanFile : String :=
  "Atlantis: this plan was created by remote ops\n" ++ planFileContents

/-- The directory of the remote-apply tests, with the plan file of a remote plan. -/
def remotePlanFiles : FileSystem := [("/tmp/dir/workspace.tfplan", remotePlanFile)]

/-- The project of the remote-apply tests. -/
def remoteApplyProject : ProjectContext DottedVersion :=
  { emptyProject with
    Workspace := "workspace"
    RepoRelDir := "."
    EscapedCommentArgs := ["comment", "args"]
    TerraformVersion := some ⟨[0, 11, 0]⟩ }

/-- The runner of `TestRun_RemoteApply_Success`, whose subprocess streams the expected
plan. -/
def remoteSuccessRunner : ApplyStepRunner DottedVersion Nat :=
  ⟨mockTerraform, streamOf (linesOf (preConfirmOut planFileContents ++ postConfirmOut))⟩

/-- The runner of `TestRun_RemoteApply_PlanChanged`, whose subprocess streams another plan
and ends with the error `exit status 1`. -/
def remoteChangedRunner : ApplyStepRunner DottedVersion Nat :=
  ⟨mockTerraform,
    streamOf (linesOf (preConfirmOut "not the expected plan!" ++ noConfirmationOut) ++
      [⟨"", some (GoError.new "exit status 1")⟩])⟩

/-! ## Concrete inputs for the lock, the pre-workflow hooks, project results and workflows -/

/-- The locker interface of the registry of held keys. -/
def registryLocker : WorkingDirLocker DefaultWorkingDirLocker :=
  ⟨fun repoFullName pullNum workspace d => d.TryLock repoFullName pullNum workspace⟩

/-- A pre-workflow hooks runner on the registry of held keys: every repo matches, three hooks
are configured, the clone succeeds, and the hook runner fails on the command `false`. -/
def preHooksRunner : DefaultPreWorkflowHooksCommandRunner DefaultWorkingDirLocker where
  WorkingDirLocker := registryLocker
  WorkingDir := ⟨fun _ _ _ _ d => (⟨"/repo", false, none⟩, d)⟩
  GlobalCfg := ⟨[⟨fun _ => true, [⟨"echo first"⟩, ⟨"false"⟩, ⟨"echo third"⟩]⟩], []⟩
  PreWorkflowHookRunner :=
    ⟨fun _ _ cmd _ d =>
      if cmd = "false" then (⟨"", some (GoError.new "exit status 1")⟩, d) else (⟨"", none⟩, d)⟩
  DefaultWorkspace := "default"
  repoID := fun r => "github.com/" ++ r.FullName

/-- The repository `owner/repo`, with the default branch `main`. -/
def ownerRepo : Repo := ⟨"owner/repo", "main"⟩

/-- Pull request 1 of `owner/repo`, from the branch `feature`. -/
def pullOne : PullRequest := ⟨ownerRepo, 1, ownerRepo, "feature", "1a2b3c", "author"⟩

/-- A command context for pull request 1 of `owner/repo`. -/
def preHooksContext : CommandContext :=
  ⟨pullOne, ownerRepo, ⟨"user"⟩, ⟨0⟩⟩

/-- The hook command context that `RunPreHooks` builds from `preHooksContext`. -/
def preHooksHookContext : PreWorkflowHookCommandContext :=
  ⟨ownerRepo, ownerRepo, ⟨0⟩, pullOne, ⟨"user"⟩⟩

/-- The result of a version command: no error, no failure, and the version output set. -/
def versionResult : ProjectResult where
  Command := CommandName.other 0
  RepoRelDir := "."
  Workspace := "default"
  Error := none
  Failure := ""
  PlanSuccess := none
  PolicyCheckSuccess := none
  ApplySuccess := ""
  VersionSuccess := "Terraform v0.12.0"
  ProjectName := ""
  StatusID := ""
  JobID := ""

/-- Workflow declarations for raw steps given by their names: a raw stage becomes the stage
of the steps with those names as commands of run steps, and each default stage is one run
step naming its stage. -/
def sampleWorkflowDecls : WorkflowDecls String where
  stageToValid := fun st => ⟨(st.Steps.getD []).map runStep⟩
  DefaultApplyStage := ⟨[runStep "apply"]⟩
  DefaultPlanStage := ⟨[runStep "plan"]⟩
  DefaultPolicyCheckStage := ⟨[runStep "policy_check"]⟩

/-- The repo-side workflows of the case "repo-side workflow override": a workflow `custom`
with empty plan and apply steps. -/
def repoWorkflows : GoMap (RawWorkflow String) :=
  [("custom", ⟨some ⟨some []⟩, some ⟨some []⟩, none⟩)]

/-- A global configuration with a server-side workflow `custom` and a workflow `default`. -/
def serverCfg : GlobalCfg :=
  ⟨[],
    [("custom", ⟨"custom", ⟨[runStep "apply"]⟩, ⟨[runStep "plan"]⟩, ⟨[runStep "policy_check"]⟩⟩),
      ("default", ⟨"default", ⟨[runStep "apply"]⟩, ⟨[runStep "plan"]⟩, ⟨[]⟩⟩)]⟩

/-! ## More of project results (`command/project_result.go`) -/

/-- The method `ProjectResult.PlanStatus`; `none` is the panic
`PlanStatus() missing a combination`. -/
def ProjectResult.PlanStatus (p : ProjectResult) : Option ProjectPlanStatus :=
  match p.Command with
  | CommandName.Plan =>
    if p.Error ≠ none then some ProjectPlanStatus.ErroredPlanStatus
    else if p.Failure ≠ "" then some ProjectPlanStatus.ErroredPlanStatus
    else some ProjectPlanStatus.PlannedPlanStatus
  | CommandName.PolicyCheck =>
    if p.Error ≠ none then some ProjectPlanStatus.ErroredPolicyCheckStatus
    else if p.Failure ≠ "" then some ProjectPlanStatus.ErroredPolicyCheckStatus
    else some ProjectPlanStatus.PassedPolicyCheckStatus
  | CommandName.Apply =>
    if p.Error ≠ none then some ProjectPlanStatus.ErroredApplyStatus
    else if p.Failure ≠ "" then some ProjectPlanStatus.ErroredApplyStatus
    else some ProjectPlanStatus.AppliedPlanStatus
  | CommandName.other _ => none

/-! ## Readings used to state properties of the apply-eligibility gate and of the hooks -/

/-- The reading of "the message of a failing requirement": for each of the five kinds the
message of that kind when its status fact fails, and nothing for a requirement that passes or
is not recognised. -/
def requirementFailure {V : Type} (K : ApplyReqNames) (a : AggregateApplyRequirements)
    (repoDir : String) (ctx : ProjectContext V) (req : String) : Option String :=
  if req = K.ApprovedApplyRequirement then
    if ctx.PullReqStatus.ApprovalStatus.IsApproved then none
    else some "Pull request must be approved by at least one person other than the author before running apply."
  else if req = K.PoliciesPassedApplyReq then
    if ctx.ProjectPlanStatus = ProjectPlanStatus.PassedPolicyCheckStatus then none
    else some "All policies must pass for project before running apply"
  else if req = K.MergeableApplyRequirement then
    if ctx.PullReqStatus.Mergeable then none
    else some "Pull request must be mergeable before running apply."
  else if req = K.UnDivergedApplyRequirement then
    if a.WorkingDir.HasDiverged ctx.Log repoDir ctx.BaseRepo then
      some "Default branch must be rebased onto pull request before running apply."
    else none
  else if req = K.UnlockedApplyRequirement then
    if ctx.PullReqStatus.SQLocked then
      some "Pull request must be unlocked using the 🔓  emoji before running apply."
    else none
  else none

/-- The requirements of a list up to and including the first failing one. -/
def evaluatedRequirements {V : Type} (K : ApplyReqNames) (a : AggregateApplyRequirements)
    (repoDir : String) (ctx : ProjectContext V) : List String → List String
  | [] => []
  | req :: rest =>
    match requirementFailure K a repoDir ctx req with
    | some _ => [req]
    | none => req :: evaluatedRequirements K a repoDir ctx rest

/-- A requirement string is one of the five names. -/
def ApplyReqNames.recognises (K : ApplyReqNames) (req : String) : Bool :=
  req == K.ApprovedApplyRequirement || req == K.PoliciesPassedApplyReq ||
    req == K.MergeableApplyRequirement || req == K.UnDivergedApplyRequirement ||
    req == K.UnlockedApplyRequirement

/-- The world state after running a list of hooks one after the other. -/
def DefaultPreWorkflowHooksCommandRunner.worldAfter {σ : Type}
    (w : DefaultPreWorkflowHooksCommandRunner σ) (ctx : Context)
    (cmdCtx : PreWorkflowHookCommandContext) (repoDir : String) :
    List PreWorkflowHook → σ → σ
  | [], s => s
  | hook :: rest, s =>
    worldAfter w ctx cmdCtx repoDir rest
      (w.PreWorkflowHookRunner.Run ctx cmdCtx hook.RunCommand repoDir s).2

/-- Every hook of a list succeeds when the hooks are run one after the other. -/
def DefaultPreWorkflowHooksCommandRunner.allSucceed {σ : Type}
    (w : DefaultPreWorkflowHooksCommandRunner σ) (ctx : Context)
    (cmdCtx : PreWorkflowHookCommandContext) (repoDir : String) :
    List PreWorkflowHook → σ → Prop
  | [], _ => True
  | hook :: rest, s =>
    (w.PreWorkflowHookRunner.Run ctx cmdCtx hook.RunCommand repoDir s).1.err = none ∧
      allSucceed w ctx cmdCtx repoDir rest
        (w.PreWorkflowHookRunner.Run ctx cmdCtx hook.RunCommand repoDir s).2

/-! ## The gateway handlers (`neptune/gateway/event`) -/

/-- Constants that the gateway handlers use and that are declared outside the sources at
hand: `ReRequestedActionType`, `workflows.ManualTrigger` and `feature.LegacyDeprecation`. -/
structure GatewayDecls where
  ReRequestedActionType : String
  ManualTrigger : String
  LegacyDeprecation : String

/-- The interface `CheckRunAction`, by what its method `GetType` returns. -/
structure CheckRunAction where
  GetType : String
  deriving DecidableEq, Repr

/-- The struct `CheckSuite`. -/
structure CheckSuite where
  Action : CheckRunAction
  HeadSha : String
  Repo : Repo
  Sender : User
  InstallationToken : Int
  Branch : String
  deriving DecidableEq, Repr

/-- The type `workflows.DeployTriggerInfo`, with the fields `handle` sets (`Type_` is the
field `Type`). -/
structure DeployTriggerInfo where
  Type_ : String
  Rerun : Bool
  deriving DecidableEq, Repr

/-- The type `deploy.RootDeployOptions`, with the fields `handle` sets. -/
structure RootDeployOptions where
  Repo : Repo
  Branch : String
  Revision : String
  Sender : User
  InstallationToken : Int
  TriggerInfo : DeployTriggerInfo
  deriving DecidableEq, Repr

/-- A function `func(ctx context.Context) error`, run in a world state. -/
abbrev Task (σ : Type) := Context → σ → Option GoError × σ

/-- The interface `scheduler`: `Schedule(ctx, f) error`, run in a world state; whether and
when it runs the task is up to the scheduler. -/
structure Scheduler (σ : Type) where
  Schedule : Context → Task σ → σ → Option GoError × σ

/-- The interface `rootDeployer`: `Deploy(ctx, options) error`, run in a world state. -/
structure RootDeployer (σ : Type) where
  Deploy : Context → RootDeployOptions → σ → Option GoError × σ

/-- The struct `CheckSuiteHandler`, without its logger. -/
structure CheckSuiteHandler (σ : Type) where
  Scheduler : Scheduler σ
  RootDeployer : RootDeployer σ

/-- What one call of `CheckSuiteHandler.Handle` did: the error it returned, the world state
it left, and the tasks it passed to the scheduler, in order. -/
structure CheckSuiteRun (σ : Type) where
  err : Option GoError
  world : σ
  scheduled : List (Task σ)

/-- The method `CheckSuiteHandler.handle`. -/
def CheckSuiteHandler.handle {σ : Type} (G : GatewayDecls) (h : CheckSuiteHandler σ)
    (ctx : Context) (event : CheckSuite) : σ → Option GoError × σ :=
  h.RootDeployer.Deploy ctx
    { Repo := event.Repo
      Branch := event.Branch
      Revision := event.HeadSha
      Sender := event.Sender
      InstallationToken := event.InstallationToken
      TriggerInfo := ⟨G.ManualTrigger, true⟩ }

/-- The method `CheckSuiteHandler.Handle`; the debug logging is left out. -/
def CheckSuiteHandler.Handle {σ : Type} (G : GatewayDecls) (h : CheckSuiteHandler σ)
    (ctx : Context) (event : CheckSuite) (w : σ) : CheckSuiteRun σ :=
  if event.Action.GetType ≠ G.ReRequestedActionType then ⟨none, w, []⟩
  else if event.Branch ≠ event.Repo.DefaultBranch then ⟨none, w, []⟩
  else
    ⟨(h.Scheduler.Schedule ctx (fun ctx' => h.handle G ctx' event) w).1,
      (h.Scheduler.Schedule ctx (fun ctx' => h.handle G ctx' event) w).2,
      [fun ctx' => h.handle G ctx' event]⟩

/-- The struct `PullRequest` of the gateway events, with the fields `handlePlatformMode`
reads. -/
structure PullRequestEvent where
  Pull : PullRequest
  User : User
  InstallationToken : Int
  deriving DecidableEq, Repr

/-- The type `feature.FeatureContext`, with the field `handlePlatformMode` sets. -/
structure FeatureContext where
  RepoName : String
  deriving DecidableEq, Repr

/-- The type `pr.ValidateEnvs`. -/
structure ValidateEnvs where
  Username : String
  PullNum : Int
  PullAuthor : String
  HeadCommit : String
  BaseBranchName : String
  deriving DecidableEq, Repr

/-- The type `pr.Request`. -/
structure PRRequest where
  Number : Int
  Revision : String
  Repo : Repo
  InstallationToken : Int
  Branch : String
  ValidateEnvs : List ValidateEnvs
  deriving DecidableEq, Repr

/-- The type `client.WorkflowRun`, by what its methods `GetID` and `GetRunID` return. -/
structure WorkflowRun where
  ID : String
  RunID : String
  deriving DecidableEq, Repr

/-- The interface `feature.Allocator`: `ShouldAllocate(name, featureCtx) (bool, error)`, run
in a world state. -/
structure Allocator (σ : Type) where
  ShouldAllocate : String → FeatureContext → σ → (Bool × Option GoError) × σ

/-- The interface `prSignaler` over roots of type `R` (`*valid.MergedProjectCfg`):
`SignalWithStartWorkflow(ctx, rootCfgs, prRequest) (client.WorkflowRun, error)`, run in a
world state. -/
structure PRSignaler (R σ : Type) where
  SignalWithStartWorkflow : Context → List R → PRRequest → σ →
    (WorkflowRun × Option GoError) × σ

/-- The struct `ModifiedPullHandler`, with the fields `handlePlatformMode` uses. -/
structure ModifiedPullHandler (R σ : Type) where
  Allocator : Allocator σ
  PRSignaler : PRSignaler R σ

/-- The arguments of one call of `PRSignaler.SignalWithStartWorkflow`. -/
structure SignalCall (R : Type) where
  ctx : Context
  rootCfgs : List R
  prRequest : PRRequest

/-- What one call of `handlePlatformMode` did: the error it returned, the world state it
left, and its calls of the allocator and of the signaler, in order. -/
structure PlatformModeRun (R σ : Type) where
  err : Option GoError
  world : σ
  allocatorCalls : List (String × FeatureContext)
  signalCalls : List (SignalCall R)

/-- The function `buildValidateEnvs`. -/
def buildValidateEnvs (event : PullRequestEvent) : List ValidateEnvs :=
  [{ Username := event.User.Username
     PullNum := event.Pull.Num
     PullAuthor := event.Pull.Author
     HeadCommit := event.Pull.HeadCommit
     BaseBranchName := event.Pull.HeadRepo.DefaultBranch }]

/-- The request that `handlePlatformMode` builds from the event. -/
def platformRequest (event : PullRequestEvent) : PRRequest :=
  { Number := event.Pull.Num
    Revision := event.Pull.HeadCommit
    Repo := event.Pull.HeadRepo
    InstallationToken := event.InstallationToken
    Branch := event.Pull.HeadBranch
    ValidateEnvs := buildValidateEnvs event }

/-- The method `ModifiedPullHandler.handlePlatformMode`; the logging is left out. -/
def ModifiedPullHandler.handlePlatformMode {R σ : Type} (G : GatewayDecls)
    (p : ModifiedPullHandler R σ) (ctx : Context) (event : PullRequestEvent) (roots : List R)
    (w : σ) : PlatformModeRun R σ :=
  if roots.length = 0 then ⟨none, w, [], []⟩
  else
    let allocated :=
      p.Allocator.ShouldAllocate G.LegacyDeprecation ⟨event.Pull.HeadRepo.FullName⟩ w
    let allocatorCall : String × FeatureContext :=
      (G.LegacyDeprecation, ⟨event.Pull.HeadRepo.FullName⟩)
    match allocated.1.2 with
    | some _ => ⟨none, allocated.2, [allocatorCall], []⟩
    | none =>
      if !allocated.1.1 then ⟨none, allocated.2, [allocatorCall], []⟩
      else
        let signaled :=
          p.PRSignaler.SignalWithStartWorkflow ctx roots (platformRequest event) allocated.2
        ⟨errorsWrap signaled.1.2 "signaling workflow", signaled.2, [allocatorCall],
          [⟨ctx, roots, platformRequest event⟩]⟩

/-! ## The push event converter (`vcs/provider/github/converter/push_event.go`) -/

/-- The type `github.PushEvent` over repositories of type `G` (`*github.PushRepository`), by
what the converter reads of it: the repository, and what the getters `GetRef`, `GetCreated`,
`GetDeleted`, `GetHeadCommit().GetID()` and `GetSender().GetLogin()` read; a nil `Ref`,
`Created` or `Deleted` is `none`. -/
structure GithubPushEvent (G : Type) where
  Repo : G
  Ref : Option String
  Created : Option Bool
  Deleted : Option Bool
  HeadCommitID : String
  SenderLogin : String

/-- The getter `GetRef`: the empty string for nil. -/
def GithubPushEvent.GetRef {G : Type} (e : GithubPushEvent G) : String := e.Ref.getD ""

/-- The getter `GetCreated`: false for nil. -/
def GithubPushEvent.GetCreated {G : Type} (e : GithubPushEvent G) : Bool := e.Created.getD false

/-- The getter `GetDeleted`: false for nil. -/
def GithubPushEvent.GetDeleted {G : Type} (e : GithubPushEvent G) : Bool := e.Deleted.getD false

/-- The type `event.PushAction`, with the three actions the converter names. -/
inductive PushAction where
  | UpdatedAction
  | CreatedAction
  | DeletedAction
  deriving DecidableEq, Repr

/-- The type `vcs.Ref` over ref types of type `T` (`vcs.RefType`); `Type_` is the field
`Type`. -/
structure VcsRef (T : Type) where
  Type_ : T
  Name : String

/-- The type `event.Push`. -/
structure Push (T : Type) where
  Repo : Repo
  Sha : String
  Action : PushAction
  Sender : User
  Ref : VcsRef T
  InstallationToken : Int

/-- The struct `PushEvent` with its `RepoConverter`, and what `Convert` uses of declarations
outside the sources at hand: the matches of `refRegex` on a string
(`refRegex.FindStringSubmatch`, whose groups `type` and `name` have the indices 1 and 2),
`vcs.FromGithubRefType` and `githubapp.GetInstallationIDFromEvent`. -/
structure PushEvent (G T : Type) where
  RepoConverter : G → Except GoError Repo
  FindStringSubmatch : String → List String
  FromGithubRefType : String → Except GoError T
  GetInstallationIDFromEvent : GithubPushEvent G → Int

/-- The method `PushEvent.Convert`. -/
def PushEvent.Convert {G T : Type} (p : PushEvent G T) (e : GithubPushEvent G) :
    Except GoError (Push T) :=
  match p.RepoConverter e.Repo with
  | Except.error err => Except.error (GoError.wrap err "converting repo")
  | Except.ok repo =>
    match p.FindStringSubmatch e.GetRef with
    | [_, t, name] =>
      match p.FromGithubRefType t with
      | Except.error err => Except.error (GoError.wrap err "getting ref type")
      | Except.ok refType =>
        let installationToken := p.GetInstallationIDFromEvent e
        let action := PushAction.UpdatedAction
        let action := if e.GetCreated then PushAction.CreatedAction else action
        let action := if e.GetDeleted then PushAction.DeletedAction else action
        Except.ok
          { Repo := repo
            Sha := e.HeadCommitID
            Action := action
            Sender := ⟨e.SenderLogin⟩
            Ref := ⟨refType, name⟩
            InstallationToken := installationToken }
    | _ => Except.error (GoError.new "unable to determine ref")

/-! ## Concrete inputs for the last components -/

/-- The constants of the gateway, with sample values. -/
def gatewayDecls : GatewayDecls := ⟨"rerequested", "manual", "legacy-deprecation"⟩

/-- A check suite handler whose scheduler runs the task at once and whose deployer records
the options it is given; the world state is the list of the recorded options. -/
def recordingCheckSuiteHandler : CheckSuiteHandler (List RootDeployOptions) :=
  ⟨⟨fun ctx task w => task ctx w⟩, ⟨fun _ options w => (none, w ++ [options])⟩⟩

/-- A re-requested check suite on the default branch of `owner/repo`. -/
def rerequestedSuite : CheckSuite :=
  ⟨⟨"rerequested"⟩, "1a2b3c", ownerRepo, ⟨"user"⟩, 42, "main"⟩

/-- A pull request handler whose allocator answers with the given result and whose signaler
fails on the pull request number 0; the world state counts the calls. -/
def samplePullHandler (answer : Bool × Option GoError) : ModifiedPullHandler String Nat :=
  ⟨⟨fun _ _ w => (answer, w + 1)⟩,
    ⟨fun _ _ req w =>
      if req.Number = 0 then ((⟨"", ""⟩, some (GoError.new "unavailable")), w + 1)
      else ((⟨"workflow", "run"⟩, none), w + 1)⟩⟩

/-- The gateway event for pull request 1 of `owner/repo`. -/
def pullOneEvent : PullRequestEvent := ⟨pullOne, ⟨"user"⟩, 42⟩

/-- A plan result with the given error and failure. -/
def planResult (err : Option GoError) (failure : String) : ProjectResult :=
  { versionResult with
    Command := CommandName.Plan
    Error := err
    Failure := failure
    VersionSuccess := "" }

/-- A push converter for events whose repository is given by its full name: the ref matches
are those of `refs/heads/main`, and the ref type is the matched type itself. -/
def samplePushConverter : PushEvent String String where
  RepoConverter := fun name =>
    if name = "" then Except.error (GoError.new "no repo") else Except.ok ⟨name, "main"⟩
  FindStringSubmatch := fun ref =>
    if ref = "refs/heads/main" then ["refs/heads/main", "heads", "main"] else []
  FromGithubRefType := fun t => Except.ok t
  GetInstallationIDFromEvent := fun _ => 42

/-- A push event on `refs/heads/main` that is marked both created and deleted. -/
def createdAndDeletedPush : GithubPushEvent String :=
  ⟨"owner/repo", some "refs/heads/main", some true, some true, "1a2b3c", "user"⟩


/-- A pre-workflow hooks runner without a hook for `owner/repo`: the only repo entry with
hooks matches another repo, and the entry that matches has no hook. -/
def noHooksRunner : DefaultPreWorkflowHooksCommandRunner DefaultWorkingDirLocker where
  WorkingDirLocker := registryLocker
  WorkingDir := ⟨fun _ _ _ _ d => (⟨"/repo", false, none⟩, d)⟩
  GlobalCfg :=
    ⟨[⟨fun id => id == "github.com/owner/other", [⟨"echo first"⟩]⟩, ⟨fun _ => true, []⟩], []⟩
  PreWorkflowHookRunner := ⟨fun _ _ _ _ d => (⟨"", none⟩, d)⟩
  DefaultWorkspace := "default"
  repoID := fun r => "github.com/" ++ r.FullName
/-! ## Theorems: the minimum-version gate -/

/-- C1: below the minimum the gate does not call the wrapped runner.  With `v` the project's
`TerraformVersion` when it is set and the gate's default version otherwise, and `m` the
gate's minimum version, if `v` is less than `m` then `Run` returns the message
`Version: <v> is unsupported for this step. Minimum version is: <m>` with a nil error, makes
no call to the wrapped runner and leaves the world state as it was. -/
theorem C1_below_minimum_is_message_without_call {V σ : Type} (L : VersionLib V)
    (r : MinimumVersionStepRunnerDelegate V σ) (ctx : Context) (prjCtx : ProjectContext V)
    (extraArgs : List String) (path : String) (envs : EnvMap) (w : σ) (v m : V)
    (hv : prjCtx.TerraformVersion = some v ∨
      (prjCtx.TerraformVersion = none ∧ r.defaultTfVersion = some v))
    (hm : r.minimumVersion = some m) (hlt : L.LessThan v m = true) :
    r.Run L ctx prjCtx extraArgs path envs w =
      some
        { result :=
            { out := "Version: " ++ L.String v ++
                " is unsupported for this step. Minimum version is: " ++ L.String m
              err := none }
          world := w
          delegateCalls := [] } := by
  have htf : r.tfVersion prjCtx = some v := by
    rcases hv with h | ⟨h, hd⟩
    · simp [MinimumVersionStepRunnerDelegate.tfVersion, h]
    · simp [MinimumVersionStepRunnerDelegate.tfVersion, h, hd]
  simp [MinimumVersionStepRunnerDelegate.Run, htf, hm, hlt]

/-- C1, at the input of the test "default version failure": default `0.11.15`, minimum
`0.12.0`, no project version. -/
theorem C1_below_minimum_witness :
    dottedVersions.LessThan tfVersion11 tfVersion12 = true ∧
    MinimumVersionStepRunnerDelegate.Run dottedVersions
        ⟨some tfVersion12, some tfVersion11, some mockDelegate⟩
        ⟨0⟩ emptyProject ["extra", "args"] "" [] 0 =
      some
        { result :=
            { out := "Version: " ++ dottedVersions.String tfVersion11 ++
                " is unsupported for this step. Minimum version is: " ++
                dottedVersions.String tfVersion12
              err := none }
          world := 0
          delegateCalls := [] } ∧
    (MinimumVersionStepRunnerDelegate.Run dottedVersions
        ⟨some tfVersion12, some tfVersion11, some mockDelegate⟩
        ⟨0⟩ emptyProject ["extra", "args"] "" [] 0).map (fun g => g.result) =
      some ⟨"Version: 0.11.15 is unsupported for this step. Minimum version is: 0.12.0", none⟩ :=
  ⟨by decide,
    C1_below_minimum_is_message_without_call dottedVersions
      ⟨some tfVersion12, some tfVersion11, some mockDelegate⟩ ⟨0⟩ emptyProject
      ["extra", "args"] "" [] 0 tfVersion11 tfVersion12 (Or.inr ⟨rfl, rfl⟩) rfl (by decide),
    by decide⟩

/-- C2: at or above the minimum the gate forwards.  With `v` the effective version (the
project's `TerraformVersion` when set, else the default) and `m` the minimum, if `v` is not
less than `m` then `Run` calls the wrapped runner exactly once, with the same context,
project context, extra arguments, path and environment map, and returns exactly the result
and the world state of that call.  The default version plays no part when the project
version is set. -/
theorem C2_at_or_above_minimum_forwards {V σ : Type} (L : VersionLib V)
    (r : MinimumVersionStepRunnerDelegate V σ) (ctx : Context) (prjCtx : ProjectContext V)
    (extraArgs : List String) (path : String) (envs : EnvMap) (w : σ) (v m : V)
    (delegate : Runner V σ)
    (hv : prjCtx.TerraformVersion = some v ∨
      (prjCtx.TerraformVersion = none ∧ r.defaultTfVersion = some v))
    (hm : r.minimumVersion = some m) (hge : L.LessThan v m = false)
    (hd : r.delegate = some delegate) :
    r.Run L ctx prjCtx extraArgs path envs w =
      some
        { result := (delegate ctx prjCtx extraArgs path envs w).1
          world := (delegate ctx prjCtx extraArgs path envs w).2
          delegateCalls := [⟨ctx, prjCtx, extraArgs, path, envs⟩] } := by
  have htf : r.tfVersion prjCtx = some v := by
    rcases hv with h | ⟨h, hd⟩
    · simp [MinimumVersionStepRunnerDelegate.tfVersion, h]
    · simp [MinimumVersionStepRunnerDelegate.tfVersion, h, hd]
  simp [MinimumVersionStepRunnerDelegate.Run, htf, hm, hge, hd]

/-- C2, at the input of the test "prjCtx version success": the project version `0.12.0`
equals the minimum and the default `0.11.15` is below it. -/
theorem C2_at_or_above_minimum_witness :
    dottedVersions.LessThan tfVersion12 tfVersion12 = false ∧
    dottedVersions.LessThan tfVersion11 tfVersion12 = true ∧
    MinimumVersionStepRunnerDelegate.Run dottedVersions
        ⟨some tfVersion12, some tfVersion11, some mockDelegate⟩
        ⟨0⟩ { emptyProject with TerraformVersion := some tfVersion12 } ["extra", "args"] "" [] 0 =
      some
        { result := ⟨"some valid output from delegate", none⟩
          world := 1
          delegateCalls :=
            [⟨⟨0⟩, { emptyProject with TerraformVersion := some tfVersion12 },
              ["extra", "args"], "", []⟩] } :=
  ⟨by decide, by decide,
    C2_at_or_above_minimum_forwards dottedVersions
      ⟨some tfVersion12, some tfVersion11, some mockDelegate⟩ ⟨0⟩
      { emptyProject with TerraformVersion := some tfVersion12 }
      ["extra", "args"] "" [] 0 tfVersion12 tfVersion12 mockDelegate (Or.inl rfl) rfl
      (by decide) rfl⟩

/-- C3: the constructor fails exactly on an unparsable minimum.  The error returned by
`NewMinimumVersionStepRunnerDelegate` is non-nil if and only if `NewVersion` rejects the
minimum version string; when the string parses to `m`, the error is nil and the runner holds
`m`, the given default version and the given wrapped runner. -/
theorem C3_constructor_error_iff_unparsable {V σ : Type} (L : VersionLib V)
    (minimumVersionStr : String) (defaultVersion : Option V) (delegate : Option (Runner V σ)) :
    ((NewMinimumVersionStepRunnerDelegate L minimumVersionStr defaultVersion delegate).2 ≠ none ↔
      ∃ err, L.NewVersion minimumVersionStr = Except.error err) ∧
    ∀ m, L.NewVersion minimumVersionStr = Except.ok m →
      NewMinimumVersionStepRunnerDelegate L minimumVersionStr defaultVersion delegate =
        (⟨some m, defaultVersion, delegate⟩, none) := by
  constructor
  · cases h : L.NewVersion minimumVersionStr <;>
      simp [NewMinimumVersionStepRunnerDelegate, h, errorsWrap]
  · intro m h
    simp [NewMinimumVersionStepRunnerDelegate, h]

/-- C3, at the minimum `0.12.0` of the tests, which parses. -/
theorem C3_constructor_witness :
    dottedVersions.NewVersion "0.12.0" = Except.ok tfVersion12 ∧
    NewMinimumVersionStepRunnerDelegate dottedVersions "0.12.0" (some tfVersion11)
        (some mockDelegate) =
      (⟨some tfVersion12, some tfVersion11, some mockDelegate⟩, none) :=
  ⟨rfl,
    (C3_constructor_error_iff_unparsable dottedVersions "0.12.0" (some tfVersion11)
      (some mockDelegate)).2 tfVersion12 rfl⟩

/-! ## Theorems: the apply-eligibility gate -/

/-- Adding earlier calls does not change the failure. -/
theorem after_failure (calls : List HasDivergedCall) (v : Validation) :
    (v.after calls).failure = v.failure := rfl

/-- Adding earlier calls does not change the error. -/
theorem after_err (calls : List HasDivergedCall) (v : Validation) :
    (v.after calls).err = v.err := rfl

/-- Adding earlier calls puts them in front. -/
theorem after_calls (calls : List HasDivergedCall) (v : Validation) :
    (v.after calls).hasDivergedCalls = calls ++ v.hasDivergedCalls := rfl

/-- The loop returns no failure exactly when every remaining requirement passes. -/
theorem validateFrom_failure_iff {V : Type} (K : ApplyReqNames) (hK : K.Distinct)
    (a : AggregateApplyRequirements) (repoDir : String) (ctx : ProjectContext V)
    (reqs : List String) :
    (a.validateFrom K repoDir ctx reqs).failure = "" ↔
      ∀ req ∈ reqs, RequirementPasses K a repoDir ctx req := by
  simp only [ApplyReqNames.Distinct, List.nodup_cons, List.mem_cons, List.mem_singleton,
    not_or, List.not_mem_nil, not_false_eq_true, List.nodup_nil, and_true] at hK
  obtain ⟨⟨h12, h13, h14, h15⟩, ⟨h23, h24, h25⟩, ⟨h34, h35⟩, h45⟩ := hK
  induction reqs with
  | nil => simp [AggregateApplyRequirements.validateFrom]
  | cons req rest ih =>
    rw [List.forall_mem_cons, ← ih, AggregateApplyRequirements.validateFrom]
    by_cases c1 : req = K.ApprovedApplyRequirement
    · subst c1
      cases hA : ctx.PullReqStatus.ApprovalStatus.IsApproved <;>
        simp [RequirementPasses, hA, h12, h13, h14, h15]
    · by_cases c2 : req = K.PoliciesPassedApplyReq
      · subst c2
        by_cases hP : ctx.ProjectPlanStatus = ProjectPlanStatus.PassedPolicyCheckStatus <;>
          simp [RequirementPasses, hP, Ne.symm h12, h23, h24, h25]
      · by_cases c3 : req = K.MergeableApplyRequirement
        · subst c3
          cases hM : ctx.PullReqStatus.Mergeable <;>
            simp [RequirementPasses, hM, Ne.symm h13, Ne.symm h23, h34, h35]
        · by_cases c4 : req = K.UnDivergedApplyRequirement
          · subst c4
            cases hD : a.WorkingDir.HasDiverged ctx.Log repoDir ctx.BaseRepo <;>
              simp [RequirementPasses, hD, Ne.symm h14, Ne.symm h24, Ne.symm h34, h45,
                after_failure]
          · by_cases c5 : req = K.UnlockedApplyRequirement
            · subst c5
              cases hS : ctx.PullReqStatus.SQLocked <;>
                simp [RequirementPasses, hS, Ne.symm h15, Ne.symm h25, Ne.symm h35,
                  Ne.symm h45]
            · simp [RequirementPasses, c1, c2, c3, c4, c5]


/-- The loop reads only the status facts of the requirements it is given. -/
theorem validateFrom_congr {V : Type} (K : ApplyReqNames)
    (a₁ a₂ : AggregateApplyRequirements) (repoDir : String) (ctx₁ ctx₂ : ProjectContext V)
    (hLog : ctx₁.Log = ctx₂.Log) (hRepo : ctx₁.BaseRepo = ctx₂.BaseRepo)
    (hWd : a₁.WorkingDir.HasDiverged ctx₁.Log repoDir ctx₁.BaseRepo =
      a₂.WorkingDir.HasDiverged ctx₁.Log repoDir ctx₁.BaseRepo)
    (reqs : List String)
    (hA : K.ApprovedApplyRequirement ∈ reqs →
      ctx₁.PullReqStatus.ApprovalStatus.IsApproved = ctx₂.PullReqStatus.ApprovalStatus.IsApproved)
    (hP : K.PoliciesPassedApplyReq ∈ reqs → ctx₁.ProjectPlanStatus = ctx₂.ProjectPlanStatus)
    (hM : K.MergeableApplyRequirement ∈ reqs →
      ctx₁.PullReqStatus.Mergeable = ctx₂.PullReqStatus.Mergeable)
    (hS : K.UnlockedApplyRequirement ∈ reqs →
      ctx₁.PullReqStatus.SQLocked = ctx₂.PullReqStatus.SQLocked) :
    a₁.validateFrom K repoDir ctx₁ reqs = a₂.validateFrom K repoDir ctx₂ reqs := by
  induction reqs with
  | nil => simp [AggregateApplyRequirements.validateFrom]
  | cons req rest ih =>
    have ih' := ih (fun h => hA (List.mem_cons_of_mem _ h)) (fun h => hP (List.mem_cons_of_mem _ h))
      (fun h => hM (List.mem_cons_of_mem _ h)) (fun h => hS (List.mem_cons_of_mem _ h))
    rw [AggregateApplyRequirements.validateFrom, AggregateApplyRequirements.validateFrom, ih']
    by_cases c1 : req = K.ApprovedApplyRequirement
    · rw [if_pos c1, if_pos c1, hA (by simp [c1])]
    · rw [if_neg c1, if_neg c1]
      by_cases c2 : req = K.PoliciesPassedApplyReq
      · rw [if_pos c2, if_pos c2, hP (by simp [c2])]
      · rw [if_neg c2, if_neg c2]
        by_cases c3 : req = K.MergeableApplyRequirement
        · rw [if_pos c3, if_pos c3, hM (by simp [c3])]
        · rw [if_neg c3, if_neg c3]
          by_cases c4 : req = K.UnDivergedApplyRequirement
          · rw [if_pos c4, if_pos c4, ← hLog, ← hRepo, hWd]
          · rw [if_neg c4, if_neg c4]
            by_cases c5 : req = K.UnlockedApplyRequirement
            · rw [if_pos c5, if_pos c5, hS (by simp [c5])]
            · rw [if_neg c5, if_neg c5]

/-- Every call of `HasDiverged` made by the loop has the arguments of the source. -/
theorem validateFrom_calls_args {V : Type} (K : ApplyReqNames)
    (a : AggregateApplyRequirements) (repoDir : String) (ctx : ProjectContext V)
    (reqs : List String) :
    ∀ c ∈ (a.validateFrom K repoDir ctx reqs).hasDivergedCalls,
      c = ⟨ctx.Log, repoDir, ctx.BaseRepo⟩ := by
  induction reqs with
  | nil => simp [AggregateApplyRequirements.validateFrom]
  | cons req rest ih =>
    rw [AggregateApplyRequirements.validateFrom]
    split_ifs
    all_goals first
      | exact ih
      | (intro c hc
         simp only [List.not_mem_nil] at hc
         done)
      | (intro c hc
         simp only [after_calls, List.mem_append, List.mem_singleton] at hc
         first
           | exact hc
           | (rcases hc with h | h
              · exact h
              · exact ih c h))

/-- Without the undiverged requirement the loop does not consult the working directory. -/
theorem validateFrom_without_undiverged {V : Type} (K : ApplyReqNames)
    (a : AggregateApplyRequirements) (repoDir : String) (ctx : ProjectContext V)
    (reqs : List String) (h : K.UnDivergedApplyRequirement ∉ reqs) :
    (a.validateFrom K repoDir ctx reqs).hasDivergedCalls = [] ∧
    ∀ (a' : AggregateApplyRequirements) (repoDir' : String),
      a'.validateFrom K repoDir' ctx reqs = a.validateFrom K repoDir ctx reqs := by
  induction reqs with
  | nil => simp [AggregateApplyRequirements.validateFrom]
  | cons req rest ih =>
    have hne : ¬ req = K.UnDivergedApplyRequirement := fun e => h (by simp [e])
    have ih' := ih (fun m => h (List.mem_cons_of_mem _ m))
    constructor
    · rw [AggregateApplyRequirements.validateFrom]
      split_ifs <;> simp_all
    · intro a' repoDir'
      rw [AggregateApplyRequirements.validateFrom, AggregateApplyRequirements.validateFrom,
        ih'.2 a' repoDir']
      simp only [if_neg hne]

/-- C4, evaluated where the code departs from it: with the requirements listed as mergeable,
then policies-passed, on a pull request that is not mergeable and whose policies did not pass
(no other requirement is configured), `ValidateProject` returns the mergeable failure and not
`All policies must pass for project before running apply`: the requirements are examined in
the order of the list, so the policies check does not come first. -/
theorem C4_mergeable_listed_first_hides_policies_failure :
    (blockedProject ["mergeable", "policies_passed"]).ProjectPlanStatus ≠
      ProjectPlanStatus.PassedPolicyCheckStatus ∧
    (blockedProject ["mergeable", "policies_passed"]).PullReqStatus.Mergeable = false ∧
    applyReqNames.PoliciesPassedApplyReq ∈
      (blockedProject ["mergeable", "policies_passed"]).ApplyRequirements ∧
    applyReqNames.MergeableApplyRequirement ∈
      (blockedProject ["mergeable", "policies_passed"]).ApplyRequirements ∧
    neverDiverged.ValidateProject applyReqNames "/repo"
        (blockedProject ["mergeable", "policies_passed"]) =
      ⟨"Pull request must be mergeable before running apply.", none, []⟩ ∧
    (neverDiverged.ValidateProject applyReqNames "/repo"
        (blockedProject ["mergeable", "policies_passed"])).failure ≠
      "All policies must pass for project before running apply" := by
  refine ⟨by decide, by decide, by decide, by decide, by decide, by decide⟩

/-- C5: `ValidateProject` returns the empty failure string if and only if every requirement
listed in `ctx.ApplyRequirements` passes, where approved passes iff the pull request is
approved, policies-passed iff the plan status is `PassedPolicyCheckStatus`, mergeable iff the
pull request is mergeable, undiverged iff `HasDiverged` answers false, and unlocked iff the
pull request is not SQ-locked; otherwise the failure is non-empty. -/
theorem C5_no_failure_iff_every_requirement_passes {V : Type} (K : ApplyReqNames)
    (hK : K.Distinct) (a : AggregateApplyRequirements) (repoDir : String)
    (ctx : ProjectContext V) :
    (a.ValidateProject K repoDir ctx).failure = "" ↔
      ∀ req ∈ ctx.ApplyRequirements, RequirementPasses K a repoDir ctx req :=
  validateFrom_failure_iff K hK a repoDir ctx ctx.ApplyRequirements

/-- C5, at a project that lists all five requirements and passes them all, and at one that
lists them and fails. -/
theorem C5_no_failure_witness :
    applyReqNames.Distinct ∧
    ((neverDiverged.ValidateProject applyReqNames "/repo"
        (clearedProject ["approved", "policies_passed", "mergeable", "undiverged",
          "unlocked"])).failure = "" ↔
      ∀ req ∈ (clearedProject ["approved", "policies_passed", "mergeable", "undiverged",
          "unlocked"]).ApplyRequirements,
        RequirementPasses applyReqNames neverDiverged "/repo"
          (clearedProject ["approved", "policies_passed", "mergeable", "undiverged",
            "unlocked"]) req) ∧
    (neverDiverged.ValidateProject applyReqNames "/repo"
        (clearedProject ["approved", "policies_passed", "mergeable", "undiverged",
          "unlocked"])).failure = "" ∧
    (alwaysDiverged.ValidateProject applyReqNames "/repo"
        (clearedProject ["approved", "policies_passed", "mergeable", "undiverged",
          "unlocked"])).failure ≠ "" :=
  ⟨by decide,
    C5_no_failure_iff_every_requirement_passes applyReqNames (by decide) neverDiverged "/repo"
      (clearedProject ["approved", "policies_passed", "mergeable", "undiverged", "unlocked"]),
    by decide, by decide⟩

/-- C6: unconfigured requirement kinds are skipped.  Two project contexts with the same
`ApplyRequirements`, logger and base repository, which agree on the status fact of every
requirement kind that occurs in the list (approval, plan status, mergeability, SQ lock), and
two working directories with the same answer, give the same result of `ValidateProject`; and
with an empty list the result is the empty failure whatever the statuses are. -/
theorem C6_unconfigured_requirements_are_skipped {V : Type} (K : ApplyReqNames)
    (a₁ a₂ : AggregateApplyRequirements) (repoDir : String) (ctx₁ ctx₂ : ProjectContext V)
    (hReqs : ctx₁.ApplyRequirements = ctx₂.ApplyRequirements)
    (hLog : ctx₁.Log = ctx₂.Log) (hRepo : ctx₁.BaseRepo = ctx₂.BaseRepo)
    (hWd : a₁.WorkingDir.HasDiverged ctx₁.Log repoDir ctx₁.BaseRepo =
      a₂.WorkingDir.HasDiverged ctx₁.Log repoDir ctx₁.BaseRepo)
    (hA : K.ApprovedApplyRequirement ∈ ctx₁.ApplyRequirements →
      ctx₁.PullReqStatus.ApprovalStatus.IsApproved = ctx₂.PullReqStatus.ApprovalStatus.IsApproved)
    (hP : K.PoliciesPassedApplyReq ∈ ctx₁.ApplyRequirements →
      ctx₁.ProjectPlanStatus = ctx₂.ProjectPlanStatus)
    (hM : K.MergeableApplyRequirement ∈ ctx₁.ApplyRequirements →
      ctx₁.PullReqStatus.Mergeable = ctx₂.PullReqStatus.Mergeable)
    (hS : K.UnlockedApplyRequirement ∈ ctx₁.ApplyRequirements →
      ctx₁.PullReqStatus.SQLocked = ctx₂.PullReqStatus.SQLocked) :
    a₁.ValidateProject K repoDir ctx₁ = a₂.ValidateProject K repoDir ctx₂ ∧
    ∀ (a : AggregateApplyRequirements) (dir : String) (ctx : ProjectContext V),
      ctx.ApplyRequirements = [] → a.ValidateProject K dir ctx = ⟨"", none, []⟩ := by
  constructor
  · unfold AggregateApplyRequirements.ValidateProject
    rw [← hReqs]
    exact validateFrom_congr K a₁ a₂ repoDir ctx₁ ctx₂ hLog hRepo hWd ctx₁.ApplyRequirements
      hA hP hM hS
  · intro a dir ctx h
    simp [AggregateApplyRequirements.ValidateProject, h,
      AggregateApplyRequirements.validateFrom]

/-- C6, at two projects that list only the approved requirement: both are approved, one is
mergeable, unlocked and passed its policies, the other is not mergeable and failed them. -/
theorem C6_unconfigured_requirements_witness :
    neverDiverged.ValidateProject applyReqNames "/repo" (clearedProject ["approved"]) =
      neverDiverged.ValidateProject applyReqNames "/repo"
        { clearedProject ["approved"] with
          PullReqStatus := ⟨⟨true⟩, false, true⟩
          ProjectPlanStatus := ProjectPlanStatus.ErroredPolicyCheckStatus } ∧
    ∀ (a : AggregateApplyRequirements) (dir : String) (ctx : ProjectContext DottedVersion),
      ctx.ApplyRequirements = [] →
        a.ValidateProject applyReqNames dir ctx = ⟨"", none, []⟩ :=
  C6_unconfigured_requirements_are_skipped applyReqNames neverDiverged neverDiverged "/repo"
    (clearedProject ["approved"])
    { clearedProject ["approved"] with
      PullReqStatus := ⟨⟨true⟩, false, true⟩
      ProjectPlanStatus := ProjectPlanStatus.ErroredPolicyCheckStatus }
    rfl rfl rfl rfl (fun _ => rfl) (by decide) (by decide) (by decide)

/-- C7: `ValidateProject` consults its collaborator only for the undiverged requirement.  If
the undiverged requirement does not occur in `ctx.ApplyRequirements`, `HasDiverged` is never
called and the result is the same for every working directory and every `repoDir`, so it is
a function of the project context alone; and every call of `HasDiverged` that is made has
the context's logger, the given `repoDir` and the context's `BaseRepo` as arguments. -/
theorem C7_only_undiverged_consults_working_dir {V : Type} (K : ApplyReqNames)
    (a : AggregateApplyRequirements) (repoDir : String) (ctx : ProjectContext V) :
    (K.UnDivergedApplyRequirement ∉ ctx.ApplyRequirements →
      (a.ValidateProject K repoDir ctx).hasDivergedCalls = [] ∧
      ∀ (a' : AggregateApplyRequirements) (repoDir' : String),
        a'.ValidateProject K repoDir' ctx = a.ValidateProject K repoDir ctx) ∧
    ∀ c ∈ (a.ValidateProject K repoDir ctx).hasDivergedCalls,
      c = ⟨ctx.Log, repoDir, ctx.BaseRepo⟩ :=
  ⟨fun h => validateFrom_without_undiverged K a repoDir ctx ctx.ApplyRequirements h,
    validateFrom_calls_args K a repoDir ctx ctx.ApplyRequirements⟩

/-- C7, at a project without the undiverged requirement, where no call is made, next to one
that lists it, where the one call has the arguments of the source. -/
theorem C7_only_undiverged_witness :
    applyReqNames.UnDivergedApplyRequirement ∉
      (clearedProject ["approved", "mergeable"]).ApplyRequirements ∧
    ((alwaysDiverged.ValidateProject applyReqNames "/repo"
        (clearedProject ["approved", "mergeable"])).hasDivergedCalls = [] ∧
      ∀ (a' : AggregateApplyRequirements) (repoDir' : String),
        a'.ValidateProject applyReqNames repoDir' (clearedProject ["approved", "mergeable"]) =
          alwaysDiverged.ValidateProject applyReqNames "/repo"
            (clearedProject ["approved", "mergeable"])) ∧
    (neverDiverged.ValidateProject applyReqNames "/repo"
        (clearedProject ["approved", "undiverged"])).hasDivergedCalls =
      [⟨⟨0⟩, "/repo", ⟨"", ""⟩⟩] :=
  ⟨by decide,
    (C7_only_undiverged_consults_working_dir applyReqNames alwaysDiverged "/repo"
      (clearedProject ["approved", "mergeable"])).1 (by decide),
    by decide⟩

/-! ## Theorems: the steps runner -/

/-- The loop on no steps joins the outputs accumulated so far. -/
theorem runFrom_nil {V σ : Type} (r : StepsRunner V σ) (ctx : Context)
    (prjCtx : ProjectContext V) (absPath : String) (envs : EnvMap) (outputs : List String)
    (w : σ) :
    r.runFrom ctx prjCtx absPath [] envs outputs w =
      ⟨⟨"\n".intercalate outputs, none⟩, w, []⟩ := rfl

/-- The loop on a failing first step stops there. -/
theorem runFrom_cons_err {V σ : Type} (r : StepsRunner V σ) (ctx : Context)
    (prjCtx : ProjectContext V) (absPath : String) (step : Step) (rest : List Step)
    (envs : EnvMap) (outputs : List String) (w : σ) (e : GoError)
    (h : (r.dispatch ctx prjCtx absPath step envs w).1.err = some e) :
    r.runFrom ctx prjCtx absPath (step :: rest) envs outputs w =
      ⟨⟨"", some e⟩, (r.dispatch ctx prjCtx absPath step envs w).2,
        [⟨step, envs, w, (r.dispatch ctx prjCtx absPath step envs w).1⟩]⟩ := by
  rw [StepsRunner.runFrom]
  simp only [h]

/-- The loop after a first step that succeeds continues with the rest. -/
theorem runFrom_cons_ok {V σ : Type} (r : StepsRunner V σ) (ctx : Context)
    (prjCtx : ProjectContext V) (absPath : String) (step : Step) (rest : List Step)
    (envs : EnvMap) (outputs : List String) (w : σ)
    (h : (r.dispatch ctx prjCtx absPath step envs w).1.err = none) :
    r.runFrom ctx prjCtx absPath (step :: rest) envs outputs w =
      ⟨(r.runFrom ctx prjCtx absPath rest
          (StepsRunner.nextEnvs step (r.dispatch ctx prjCtx absPath step envs w).1 envs)
          (StepsRunner.nextOutputs step (r.dispatch ctx prjCtx absPath step envs w).1 outputs)
          (r.dispatch ctx prjCtx absPath step envs w).2).result,
        (r.runFrom ctx prjCtx absPath rest
          (StepsRunner.nextEnvs step (r.dispatch ctx prjCtx absPath step envs w).1 envs)
          (StepsRunner.nextOutputs step (r.dispatch ctx prjCtx absPath step envs w).1 outputs)
          (r.dispatch ctx prjCtx absPath step envs w).2).world,
        ⟨step, envs, w, (r.dispatch ctx prjCtx absPath step envs w).1⟩ ::
          (r.runFrom ctx prjCtx absPath rest
            (StepsRunner.nextEnvs step (r.dispatch ctx prjCtx absPath step envs w).1 envs)
            (StepsRunner.nextOutputs step (r.dispatch ctx prjCtx absPath step envs w).1 outputs)
            (r.dispatch ctx prjCtx absPath step envs w).2).calls⟩ := by
  rw [StepsRunner.runFrom]
  simp only [h]

/-- The joined outputs of a list of invocations, one invocation at a time. -/
theorem joinedOutputs_cons {σ : Type} (c : StepCall σ) (cs : List (StepCall σ)) :
    joinedOutputs (c :: cs) = StepsRunner.nextOutputs c.step c.result [] ++ joinedOutputs cs := by
  unfold joinedOutputs StepsRunner.nextOutputs
  by_cases h1 : c.step.StepName = StepKind.env
  · simp [List.filter_cons, h1]
  · by_cases h2 : c.result.out = ""
    · simp [List.filter_cons, h1, h2]
    · simp [List.filter_cons, h1, h2]

/-- The outputs after a step are the outputs before it followed by what the step adds. -/
theorem nextOutputs_append (step : Step) (res : RunResult) (outputs : List String) :
    StepsRunner.nextOutputs step res outputs =
      outputs ++ StepsRunner.nextOutputs step res [] := by
  unfold StepsRunner.nextOutputs
  split_ifs <;> simp

/-- The bindings of a list of invocations, one invocation at a time. -/
theorem foldl_envBindings_cons {σ : Type} (c : StepCall σ) (cs : List (StepCall σ))
    (envs : EnvMap) :
    (envBindings (c :: cs)).foldl (fun m b => m.set b.1 b.2) envs =
      (envBindings cs).foldl (fun m b => m.set b.1 b.2)
        (StepsRunner.nextEnvs c.step c.result envs) := by
  unfold envBindings StepsRunner.nextEnvs
  by_cases h1 : c.step.StepName = StepKind.env
  · simp [List.filter_cons, h1]
  · simp [List.filter_cons, h1]

/-- When every invocation made by the loop succeeded, the loop invoked every step and
returned the accumulated outputs followed by the joined outputs of its invocations. -/
theorem runFrom_all_succeed {V σ : Type} (r : StepsRunner V σ) (ctx : Context)
    (prjCtx : ProjectContext V) (absPath : String) (steps : List Step) :
    ∀ (envs : EnvMap) (outputs : List String) (w : σ),
      (∀ c ∈ (r.runFrom ctx prjCtx absPath steps envs outputs w).calls, c.result.err = none) →
      (r.runFrom ctx prjCtx absPath steps envs outputs w).calls.map (fun c => c.step) = steps ∧
      (r.runFrom ctx prjCtx absPath steps envs outputs w).result.err = none ∧
      (r.runFrom ctx prjCtx absPath steps envs outputs w).result.out =
        "\n".intercalate
          (outputs ++ joinedOutputs (r.runFrom ctx prjCtx absPath steps envs outputs w).calls) := by
  induction steps with
  | nil => intro envs outputs w _; simp [runFrom_nil, joinedOutputs]
  | cons step rest ih =>
    intro envs outputs w hok
    cases herr : (r.dispatch ctx prjCtx absPath step envs w).1.err with
    | some e =>
      rw [runFrom_cons_err r ctx prjCtx absPath step rest envs outputs w e herr] at hok
      have := hok _ (List.mem_singleton.mpr rfl)
      simp [herr] at this
    | none =>
      rw [runFrom_cons_ok r ctx prjCtx absPath step rest envs outputs w herr] at hok ⊢
      have ih' := ih _ _ _ (fun c hc => hok c (List.mem_cons_of_mem _ hc))
      refine ⟨?_, ih'.2.1, ?_⟩
      · simp [ih'.1]
      · simp only [ih'.2.2, joinedOutputs_cons]
        rw [nextOutputs_append, List.append_assoc]

/-- The steps of the invocations made by the loop are an initial segment of the steps. -/
theorem runFrom_calls_steps {V σ : Type} (r : StepsRunner V σ) (ctx : Context)
    (prjCtx : ProjectContext V) (absPath : String) (steps : List Step) :
    ∀ (envs : EnvMap) (outputs : List String) (w : σ),
      (r.runFrom ctx prjCtx absPath steps envs outputs w).calls.map (fun c => c.step) =
        steps.take (r.runFrom ctx prjCtx absPath steps envs outputs w).calls.length := by
  induction steps with
  | nil => intro envs outputs w; simp [runFrom_nil]
  | cons step rest ih =>
    intro envs outputs w
    cases herr : (r.dispatch ctx prjCtx absPath step envs w).1.err with
    | some e => rw [runFrom_cons_err r ctx prjCtx absPath step rest envs outputs w e herr]; simp
    | none =>
      rw [runFrom_cons_ok r ctx prjCtx absPath step rest envs outputs w herr]
      simpa using ih _ _ _

/-- Every invocation recorded by the loop holds the result of dispatching its step with the
recorded environment map in the recorded world state. -/
theorem runFrom_calls_result {V σ : Type} (r : StepsRunner V σ) (ctx : Context)
    (prjCtx : ProjectContext V) (absPath : String) (steps : List Step) :
    ∀ (envs : EnvMap) (outputs : List String) (w : σ),
      ∀ c ∈ (r.runFrom ctx prjCtx absPath steps envs outputs w).calls,
        c.result = (r.dispatch ctx prjCtx absPath c.step c.envs c.world).1 := by
  induction steps with
  | nil => intro envs outputs w; simp [runFrom_nil]
  | cons step rest ih =>
    intro envs outputs w
    cases herr : (r.dispatch ctx prjCtx absPath step envs w).1.err with
    | some e => rw [runFrom_cons_err r ctx prjCtx absPath step rest envs outputs w e herr]; simp
    | none =>
      rw [runFrom_cons_ok r ctx prjCtx absPath step rest envs outputs w herr]
      intro c hc
      rcases List.mem_cons.mp hc with h | h
      · rw [h]
      · exact ih _ _ _ c h

/-- The environment map of every invocation made by the loop is the initial map with the
bindings of the earlier env invocations applied in order. -/
theorem runFrom_calls_envs {V σ : Type} (r : StepsRunner V σ) (ctx : Context)
    (prjCtx : ProjectContext V) (absPath : String) (steps : List Step) :
    ∀ (envs : EnvMap) (outputs : List String) (w : σ) (pre : List (StepCall σ))
      (c : StepCall σ) (post : List (StepCall σ)),
      (r.runFrom ctx prjCtx absPath steps envs outputs w).calls = pre ++ c :: post →
      c.envs = (envBindings pre).foldl (fun m b => m.set b.1 b.2) envs := by
  induction steps with
  | nil => intro envs outputs w pre c post h; simp [runFrom_nil] at h
  | cons step rest ih =>
    intro envs outputs w pre c post h
    cases herr : (r.dispatch ctx prjCtx absPath step envs w).1.err with
    | some e =>
      rw [runFrom_cons_err r ctx prjCtx absPath step rest envs outputs w e herr] at h
      cases pre with
      | nil =>
        simp only [List.nil_append, List.cons.injEq] at h
        rw [← h.1]; simp [envBindings]
      | cons p pre' => simp at h
    | none =>
      rw [runFrom_cons_ok r ctx prjCtx absPath step rest envs outputs w herr] at h
      cases pre with
      | nil =>
        simp only [List.nil_append, List.cons.injEq] at h
        rw [← h.1]; simp [envBindings]
      | cons p pre' =>
        simp only [List.cons_append, List.cons.injEq] at h
        rw [foldl_envBindings_cons, ← h.1]
        exact ih _ _ _ pre' c post h.2

/-- When some invocation made by the loop failed, it is the last one: every earlier one
succeeded, and the loop returned that error with no output and the world state the failing
invocation left. -/
theorem runFrom_failure {V σ : Type} (r : StepsRunner V σ) (ctx : Context)
    (prjCtx : ProjectContext V) (absPath : String) (steps : List Step) :
    ∀ (envs : EnvMap) (outputs : List String) (w : σ),
      (∃ c ∈ (r.runFrom ctx prjCtx absPath steps envs outputs w).calls, c.result.err ≠ none) →
      ∃ (pre : List (StepCall σ)) (c : StepCall σ) (e : GoError),
        (r.runFrom ctx prjCtx absPath steps envs outputs w).calls = pre ++ [c] ∧
        (∀ p ∈ pre, p.result.err = none) ∧
        c.result.err = some e ∧
        (r.runFrom ctx prjCtx absPath steps envs outputs w).result = ⟨"", some e⟩ ∧
        (r.runFrom ctx prjCtx absPath steps envs outputs w).world =
          (r.dispatch ctx prjCtx absPath c.step c.envs c.world).2 := by
  induction steps with
  | nil => intro envs outputs w h; simp [runFrom_nil] at h
  | cons step rest ih =>
    intro envs outputs w h
    cases herr : (r.dispatch ctx prjCtx absPath step envs w).1.err with
    | some e =>
      rw [runFrom_cons_err r ctx prjCtx absPath step rest envs outputs w e herr]
      exact ⟨[], _, e, rfl, by simp, herr, rfl, rfl⟩
    | none =>
      rw [runFrom_cons_ok r ctx prjCtx absPath step rest envs outputs w herr] at h ⊢
      obtain ⟨c, hc, hne⟩ := h
      rcases List.mem_cons.mp hc with h1 | h1
      · rw [h1] at hne; exact absurd herr hne
      · obtain ⟨pre, c', e, hcalls, hpre, hc', hres, hw⟩ := ih _ _ _ ⟨c, h1, hne⟩
        refine ⟨⟨step, envs, w, (r.dispatch ctx prjCtx absPath step envs w).1⟩ :: pre, c', e,
          ?_, ?_, hc', hres, hw⟩
        · simp [hcalls]
        · intro p hp
          rcases List.mem_cons.mp hp with h2 | h2
          · rw [h2]; exact herr
          · exact hpre p h2

/-- A key just set is found with the value set. -/
theorem EnvMap.get_set_self (m : EnvMap) (k v : String) : (m.set k v).get k = some v := by
  simp [EnvMap.set, EnvMap.get, List.lookup]

/-- Setting a key does not change what is found under another key. -/
theorem EnvMap.get_set_other (m : EnvMap) (k v k' : String) (h : k' ≠ k) :
    (m.set k v).get k' = m.get k' := by
  have hk : (k' == k) = false := by simpa using h
  simp only [EnvMap.set, EnvMap.get, List.lookup, hk]
  induction m with
  | nil => rfl
  | cons p ps ih =>
    by_cases hp : p.1 = k
    · have hk2 : (k' == p.1) = false := by simpa [hp] using h
      simp [List.filter_cons, hp, List.lookup, hk2, hk, ih]
    · by_cases hq : k' = p.1
      · simp [List.filter_cons, hp, List.lookup, hq]
      · have hk2 : (k' == p.1) = false := by simpa using hq
        simp [List.filter_cons, hp, List.lookup, hk2, ih]

/-- Trimming removes the newline that was appended last. -/
theorem trimOneNewline_append_newline (s : String) : trimOneNewline (s ++ "\n") = s := by
  have h : (s ++ "\n").data = s.data ++ ['\n'] := by simp [String.data_append]
  simp [trimOneNewline, h]

/-- C8: when all steps succeed, the output of `StepsRunner.Run` is the outputs of the non-env
steps, in sequence order, with the empty outputs dropped, joined by a single newline.  If
every invocation made by `Run` returned a nil error, then `Run` invoked the runners of all
the steps of the project in order, each recorded result is what the matching runner returned,
the error of `Run` is nil, and its output is the newline-joined list of the non-empty outputs
of the invocations of non-env steps; env steps contribute nothing. -/
theorem C8_output_joins_non_env_outputs {V σ : Type} (r : StepsRunner V σ) (ctx : Context)
    (prjCtx : ProjectContext V) (absPath : String) (w : σ)
    (hok : ∀ c ∈ (r.Run ctx prjCtx absPath w).calls, c.result.err = none) :
    (r.Run ctx prjCtx absPath w).calls.map (fun c => c.step) = prjCtx.Steps ∧
    (∀ c ∈ (r.Run ctx prjCtx absPath w).calls,
      c.result = (r.dispatch ctx prjCtx absPath c.step c.envs c.world).1) ∧
    (r.Run ctx prjCtx absPath w).result.err = none ∧
    (r.Run ctx prjCtx absPath w).result.out =
      "\n".intercalate (joinedOutputs (r.Run ctx prjCtx absPath w).calls) := by
  have h := runFrom_all_succeed r ctx prjCtx absPath prjCtx.Steps [] [] w hok
  refine ⟨h.1, runFrom_calls_result r ctx prjCtx absPath prjCtx.Steps [] [] w, h.2.1, ?_⟩
  simpa [StepsRunner.Run] using h.2.2

/-- C8, at the seven steps of `TestStepsRuinner_RunEnvSteps`: four `echo` run steps
interleaved with three env steps give the output the test expects. -/
theorem C8_output_witness :
    (∀ c ∈ (echoStepsRunner.Run ⟨0⟩ envStepsProject "/repo" 0).calls, c.result.err = none) ∧
    ((echoStepsRunner.Run ⟨0⟩ envStepsProject "/repo" 0).calls.map (fun c => c.step) =
        envStepsProject.Steps ∧
      (∀ c ∈ (echoStepsRunner.Run ⟨0⟩ envStepsProject "/repo" 0).calls,
        c.result = (echoStepsRunner.dispatch ⟨0⟩ envStepsProject "/repo" c.step c.envs
          c.world).1) ∧
      (echoStepsRunner.Run ⟨0⟩ envStepsProject "/repo" 0).result.err = none ∧
      (echoStepsRunner.Run ⟨0⟩ envStepsProject "/repo" 0).result.out =
        "\n".intercalate (joinedOutputs (echoStepsRunner.Run ⟨0⟩ envStepsProject "/repo" 0).calls)) ∧
    joinedOutputs (echoStepsRunner.Run ⟨0⟩ envStepsProject "/repo" 0).calls =
      ["var=\n", "var=value\n", "dynamic_var=dynamic_value\n", "dynamic_var=overridden\n"] ∧
    (echoStepsRunner.Run ⟨0⟩ envStepsProject "/repo" 0).result.out =
      "var=\n\nvar=value\n\ndynamic_var=dynamic_value\n\ndynamic_var=overridden\n" :=
  ⟨by decide,
    C8_output_joins_non_env_outputs echoStepsRunner ⟨0⟩ envStepsProject "/repo" 0 (by decide),
    by decide, by decide⟩

/-- C9: `StepsRunner.Run` threads one environment map, initially empty, through the steps.
The invocations follow the steps in order; each invocation receives exactly the map obtained
by applying, in order, the bindings of the env steps invoked before it (so a later binding of
a name overrides an earlier one and a step placed before an env step does not see its
binding), and its recorded result is what the matching runner returned.  With the env step
runner of the spec, an env step with a literal value binds the variable to that literal
unmodified, and an env step with a command binds it to the captured output of the command
with exactly one trailing newline removed. -/
theorem C9_environment_is_threaded {V σ : Type} (r : StepsRunner V σ)
    (er : EnvStepRunner V σ) (ctx : Context) (prjCtx : ProjectContext V) (absPath : String)
    (w : σ) (hEnv : r.EnvStepRunner = er.Run) :
    (r.Run ctx prjCtx absPath w).calls.map (fun c => c.step) =
      prjCtx.Steps.take (r.Run ctx prjCtx absPath w).calls.length ∧
    (∀ (pre : List (StepCall σ)) (c : StepCall σ) (post : List (StepCall σ)),
      (r.Run ctx prjCtx absPath w).calls = pre ++ c :: post →
        c.envs = applyBindings (envBindings pre) ∧
        c.result = (r.dispatch ctx prjCtx absPath c.step c.envs c.world).1 ∧
        (c.step.StepName = StepKind.env → c.step.EnvVarValue ≠ "" →
          c.result = ⟨c.step.EnvVarValue, none⟩) ∧
        (c.step.StepName = StepKind.env → c.step.EnvVarValue = "" →
          ∀ out : String,
            (er.RunStepRunner ctx prjCtx c.step.RunCommand absPath c.envs c.world).1 =
              ⟨out, none⟩ →
            c.result = ⟨trimOneNewline out, none⟩)) ∧
    (∀ (m : EnvMap) (k v : String),
      (m.set k v).get k = some v ∧ ∀ k', k' ≠ k → (m.set k v).get k' = m.get k') ∧
    (∀ s : String, trimOneNewline (s ++ "\n") = s) ∧
    (∀ s : String, s.data.getLast? ≠ some '\n' → trimOneNewline s = s) := by
  refine ⟨runFrom_calls_steps r ctx prjCtx absPath prjCtx.Steps [] [] w, ?_, ?_,
    trimOneNewline_append_newline, ?_⟩
  · intro pre c post hcalls
    have hmem : c ∈ (r.Run ctx prjCtx absPath w).calls := by rw [hcalls]; simp
    have hres := runFrom_calls_result r ctx prjCtx absPath prjCtx.Steps [] [] w c hmem
    refine ⟨runFrom_calls_envs r ctx prjCtx absPath prjCtx.Steps [] [] w pre c post hcalls,
      hres, ?_, ?_⟩
    · intro hk hv
      rw [hres]
      simp [StepsRunner.dispatch, hk, hEnv, EnvStepRunner.Run, hv]
    · intro hk hv out hout
      rw [hres]
      simp [StepsRunner.dispatch, hk, hEnv, EnvStepRunner.Run, hv, hout]
  · intro m k v
    exact ⟨EnvMap.get_set_self m k v, fun k' h => EnvMap.get_set_other m k v k' h⟩
  · intro s hs
    simp [trimOneNewline, hs]

/-- C9, at the seven steps of `TestStepsRuinner_RunEnvSteps`, with the environment maps that
the seven invocations received. -/
theorem C9_environment_witness :
    echoStepsRunner.EnvStepRunner = EnvStepRunner.Run ⟨echoRunner⟩ ∧
    (echoStepsRunner.Run ⟨0⟩ envStepsProject "/repo" 0).calls.map (fun c => c.envs) =
      [[], [], [("var", "value")], [("var", "value")],
        [("dynamic_var", "dynamic_value"), ("var", "value")],
        [("dynamic_var", "dynamic_value"), ("var", "value")],
        [("dynamic_var", "overridden"), ("var", "value")]] ∧
    ∀ (pre : List (StepCall Nat)) (c : StepCall Nat) (post : List (StepCall Nat)),
      (echoStepsRunner.Run ⟨0⟩ envStepsProject "/repo" 0).calls = pre ++ c :: post →
        c.envs = applyBindings (envBindings pre) :=
  ⟨rfl, by decide, fun pre c post h =>
    ((C9_environment_is_threaded echoStepsRunner ⟨echoRunner⟩ ⟨0⟩ envStepsProject "/repo" 0
      rfl).2.1 pre c post h).1⟩

/-- C10: a failing step stops `StepsRunner.Run`.  If some invocation made by `Run` returned
an error, then it is the last invocation: every invocation before it succeeded, the
invocations are those of the steps up to and including the failing one, so no later step
runner is invoked, and `Run` returns the error of that step unchanged, with an empty output
that holds none of the outputs of the earlier steps, in the world state the failing step
left. -/
theorem C10_first_failure_stops_the_run {V σ : Type} (r : StepsRunner V σ) (ctx : Context)
    (prjCtx : ProjectContext V) (absPath : String) (w : σ)
    (hfail : ∃ c ∈ (r.Run ctx prjCtx absPath w).calls, c.result.err ≠ none) :
    ∃ (pre : List (StepCall σ)) (c : StepCall σ) (e : GoError),
      (r.Run ctx prjCtx absPath w).calls = pre ++ [c] ∧
      (∀ p ∈ pre, p.result.err = none) ∧
      c.result = (r.dispatch ctx prjCtx absPath c.step c.envs c.world).1 ∧
      c.result.err = some e ∧
      (pre ++ [c]).map (fun c => c.step) = prjCtx.Steps.take (pre.length + 1) ∧
      (r.Run ctx prjCtx absPath w).result = ⟨"", some e⟩ ∧
      (r.Run ctx prjCtx absPath w).world =
        (r.dispatch ctx prjCtx absPath c.step c.envs c.world).2 := by
  obtain ⟨pre, c, e, hcalls, hpre, hc, hres, hw⟩ :=
    runFrom_failure r ctx prjCtx absPath prjCtx.Steps [] [] w hfail
  have hsteps := runFrom_calls_steps r ctx prjCtx absPath prjCtx.Steps [] [] w
  have hmem : c ∈ (r.runFrom ctx prjCtx absPath prjCtx.Steps [] [] w).calls := by
    rw [hcalls]; simp
  refine ⟨pre, c, e, hcalls, hpre,
    runFrom_calls_result r ctx prjCtx absPath prjCtx.Steps [] [] w c hmem, hc, ?_, hres, hw⟩
  rw [hcalls] at hsteps
  simpa using hsteps

/-- C10, at a project of three run steps whose second step fails: two invocations are made,
and the output `first` of the first step is not returned. -/
theorem C10_first_failure_witness :
    (∃ c ∈ (echoStepsRunner.Run ⟨0⟩ failingProject "/repo" 0).calls, c.result.err ≠ none) ∧
    (∃ (pre : List (StepCall Nat)) (c : StepCall Nat) (e : GoError),
      (echoStepsRunner.Run ⟨0⟩ failingProject "/repo" 0).calls = pre ++ [c] ∧
      (∀ p ∈ pre, p.result.err = none) ∧
      c.result = (echoStepsRunner.dispatch ⟨0⟩ failingProject "/repo" c.step c.envs c.world).1 ∧
      c.result.err = some e ∧
      (pre ++ [c]).map (fun c => c.step) = failingProject.Steps.take (pre.length + 1) ∧
      (echoStepsRunner.Run ⟨0⟩ failingProject "/repo" 0).result = ⟨"", some e⟩ ∧
      (echoStepsRunner.Run ⟨0⟩ failingProject "/repo" 0).world =
        (echoStepsRunner.dispatch ⟨0⟩ failingProject "/repo" c.step c.envs c.world).2) ∧
    (echoStepsRunner.Run ⟨0⟩ failingProject "/repo" 0).calls.map (fun c => c.result) =
      [⟨"first\n", none⟩, ⟨"", some (GoError.new "exit status 127")⟩] ∧
    (echoStepsRunner.Run ⟨0⟩ failingProject "/repo" 0).result =
      ⟨"", some (GoError.new "exit status 127")⟩ :=
  ⟨by decide,
    C10_first_failure_stops_the_run echoStepsRunner ⟨0⟩ failingProject "/repo" 0 (by decide),
    by decide, by decide⟩


/-! ## Theorems: the apply step runner -/

/-- A list starts with another one exactly when it is that list followed by a rest. -/
theorem isPrefixOf_eq_true_iff (p l : List Char) :
    p.isPrefixOf l = true ↔ ∃ t, l = p ++ t := by
  induction p generalizing l with
  | nil => simp
  | cons a p ih =>
    cases l with
    | nil => simp
    | cons b l =>
      simp only [List.isPrefixOf, Bool.and_eq_true, beq_iff_eq, ih, List.cons_append,
        List.cons.injEq]
      constructor
      · rintro ⟨hab, t, ht⟩
        exact ⟨t, hab.symm, ht⟩
      · rintro ⟨t, hab, ht⟩
        exact ⟨hab.symm, t, ht⟩

/-- An argument is a target flag exactly when it is `-target` or `-target=` followed by a
value. -/
theorem isTargetFlag_iff (arg : String) :
    isTargetFlag arg = true ↔ arg = "-target" ∨ ∃ value : String, arg = "-target=" ++ value := by
  unfold isTargetFlag
  rw [Bool.or_eq_true, beq_iff_eq, isPrefixOf_eq_true_iff]
  constructor
  · rintro (h | ⟨t, ht⟩)
    · exact Or.inl h
    · refine Or.inr ⟨⟨t⟩, ?_⟩
      apply String.ext
      rw [ht, String.data_append]
  · rintro (h | ⟨value, hv⟩)
    · exact Or.inl h
    · refine Or.inr ⟨value.data, ?_⟩
      rw [hv, String.data_append]

/-- The scan finds a target flag exactly when some comment or extra argument is one. -/
theorem hasTargetFlag_iff {V : Type} (prjCtx : ProjectContext V) (extraArgs : List String) :
    hasTargetFlag prjCtx extraArgs = true ↔
      ∃ arg ∈ prjCtx.EscapedCommentArgs ++ extraArgs,
        arg = "-target" ∨ ∃ value : String, arg = "-target=" ++ value := by
  unfold hasTargetFlag
  rw [List.any_eq_true]
  constructor
  · rintro ⟨arg, hmem, h⟩
    exact ⟨arg, hmem, (isTargetFlag_iff arg).mp h⟩
  · rintro ⟨arg, hmem, h⟩
    exact ⟨arg, hmem, (isTargetFlag_iff arg).mpr h⟩

/-- A file that was removed is not found. -/
theorem readFile_remove (fs : FileSystem) (path : String) :
    (fs.remove path).readFile path = none := by
  unfold FileSystem.remove FileSystem.readFile
  induction fs with
  | nil => rfl
  | cons e es ih =>
    by_cases h : e.1 = path
    · simp [List.filter_cons, h, ih]
    · have h2 : (path == e.1) = false := by
        rw [beq_eq_false_iff_ne]
        exact fun hh => h hh.symm
      simp [List.filter_cons, h, List.lookup, h2, ih]

/-- C11: with an existing plan file, `ApplyStepRunner.Run` fails with the target error and an
empty output, without invoking any subprocess, if and only if some element of the comment
arguments or of the extra arguments is exactly `-target` or has the form `-target=<value>`;
`-targethahagotcha` and `-targeted=weird` are not target flags. -/
theorem C11_target_flag_fails_before_any_subprocess {V σ : Type} (P : RemoteOps)
    (a : ApplyStepRunner V σ) (ctx : Context) (prjCtx : ProjectContext V)
    (extraArgs : List String) (path : String) (envs : EnvMap) (fs : FileSystem) (w : σ)
    (contents : String) (hfile : fs.readFile (planPath P prjCtx path) = some contents) :
    (((a.Run P ctx prjCtx extraArgs path envs fs w).result = ⟨"", some targetNotAllowedErr⟩ ∧
        (a.Run P ctx prjCtx extraArgs path envs fs w).execCalls = [] ∧
        (a.Run P ctx prjCtx extraArgs path envs fs w).asyncCalls = []) ↔
      ∃ arg ∈ prjCtx.EscapedCommentArgs ++ extraArgs,
        arg = "-target" ∨ ∃ value : String, arg = "-target=" ++ value) ∧
    targetNotAllowedErr.Error =
      "cannot run apply with -target because we are applying an already generated plan. Instead, run -target with atlantis plan" ∧
    isTargetFlag "-targethahagotcha" = false ∧
    isTargetFlag "-targeted=weird" = false := by
  refine ⟨?_, by decide, by decide, by decide⟩
  rw [← hasTargetFlag_iff]
  unfold ApplyStepRunner.Run
  simp only [hfile]
  cases ht : hasTargetFlag prjCtx extraArgs with
  | true => simp
  | false =>
    cases hr : IsRemotePlan contents with
    | true =>
      simp only [Bool.false_eq_true, if_false, if_true]
      split <;> simp
    | false =>
      simp only [Bool.false_eq_true, if_false]
      split <;> simp

/-- C11, at the first case of `TestRun_UsingTarget`: the comment flags `-target mytarget`
with a plan file in place. -/
theorem C11_target_flag_witness :
    localPlanFiles.readFile (planPath localOps targetProject "/tmp/dir") = some "" ∧
    (ApplyStepRunner.Run localOps ⟨mockTerraform, streamOf []⟩
        ⟨0⟩ targetProject [] "/tmp/dir" [] localPlanFiles 0).result =
      ⟨"", some targetNotAllowedErr⟩ :=
  ⟨by decide,
    (((C11_target_flag_fails_before_any_subprocess localOps
      ⟨mockTerraform, streamOf []⟩ ⟨0⟩ targetProject [] "/tmp/dir" [] localPlanFiles 0 ""
      (by decide)).1).mpr ⟨"-target", by decide, Or.inl rfl⟩).1⟩

/-- The instances of `filepath.Join` and of the quoted form, at a directory with a trailing
separator, at a path that has to be cleaned, and at strings with a double quote, a backslash
and a newline. -/
theorem filepathJoin_strconvQuote_examples :
    filepathJoin "/tmp/dir/" "workspace.tfplan" = "/tmp/dir/workspace.tfplan" ∧
    filepathJoin "/tmp/./dir//sub/.." "workspace.tfplan" = "/tmp/dir/workspace.tfplan" ∧
    filepathJoin "" "" = "" ∧
    strconvQuote "/tmp/dir/workspace.tfplan" = "\"/tmp/dir/workspace.tfplan\"" ∧
    strconvQuote "my \"dir\"" = "\"my \\\"dir\\\"\"" ∧
    strconvQuote "a\\b\n" = "\"a\\\\b\\n\"" := by
  decide

/-- C12: for every project context, if no plan file exists at the path computed for it
(`<workspace>.tfplan` when no project name is set, otherwise
`<projectName>-<workspace>.tfplan`, joined to the given directory), whether because the
directory or the file is missing, then `ApplyStepRunner.Run` fails with the error
`no plan found at path <RepoRelDir> and workspace <Workspace>–did you run plan?`, in which the
two names stand in their quoted form, with an empty output, invokes no subprocess, sends no
input, emits no status update and leaves the files and the world state as they were.  For
names whose quoted form is the name between double quotes, the error reads
`no plan found at path "<RepoRelDir>" and workspace "<Workspace>"–did you run plan?`. -/
theorem C12_missing_plan_file_fails {V σ : Type} (P : RemoteOps) (a : ApplyStepRunner V σ)
    (ctx : Context) (prjCtx : ProjectContext V) (extraArgs : List String) (path : String)
    (envs : EnvMap) (fs : FileSystem) (w : σ)
    (hnone : fs.readFile
      (P.Join path
        (if prjCtx.ProjectName = "" then prjCtx.Workspace ++ ".tfplan"
          else prjCtx.ProjectName ++ "-" ++ prjCtx.Workspace ++ ".tfplan")) = none) :
    (a.Run P ctx prjCtx extraArgs path envs fs w).result.out = "" ∧
    (∃ err, (a.Run P ctx prjCtx extraArgs path envs fs w).result.err = some err ∧
      err.Error = "no plan found at path " ++ P.Quote prjCtx.RepoRelDir ++
        " and workspace " ++ P.Quote prjCtx.Workspace ++ "–did you run plan?" ∧
      (P.Quote prjCtx.RepoRelDir = "\"" ++ prjCtx.RepoRelDir ++ "\"" →
        P.Quote prjCtx.Workspace = "\"" ++ prjCtx.Workspace ++ "\"" →
        err.Error = "no plan found at path \"" ++ prjCtx.RepoRelDir ++
          "\" and workspace \"" ++ prjCtx.Workspace ++ "\"–did you run plan?")) ∧
    (a.Run P ctx prjCtx extraArgs path envs fs w).execCalls = [] ∧
    (a.Run P ctx prjCtx extraArgs path envs fs w).asyncCalls = [] ∧
    (a.Run P ctx prjCtx extraArgs path envs fs w).input = [] ∧
    (a.Run P ctx prjCtx extraArgs path envs fs w).statusUpdates = [] ∧
    (a.Run P ctx prjCtx extraArgs path envs fs w).files = fs ∧
    (a.Run P ctx prjCtx extraArgs path envs fs w).world = w := by
  have h : fs.readFile (planPath P prjCtx path) = none := hnone
  have hrun : a.Run P ctx prjCtx extraArgs path envs fs w =
      ⟨⟨"", some (noPlanFoundErr P prjCtx)⟩, fs, w, [], [], [], []⟩ := by
    unfold ApplyStepRunner.Run
    simp only [h]
  rw [hrun]
  refine ⟨rfl, ⟨_, rfl, rfl, ?_⟩, rfl, rfl, rfl, rfl, rfl, rfl⟩
  intro hq1 hq2
  have e1 : "no plan found at path \"" = "no plan found at path " ++ "\"" := by decide
  have e2 : "\" and workspace \"" = "\"" ++ (" and workspace " ++ "\"") := by decide
  have e3 : "\"–did you run plan?" = "\"" ++ "–did you run plan?" := by decide
  rw [e1, e2, e3]
  simp only [noPlanFoundErr, GoError.Error, hq1, hq2, String.append_assoc]

/-- C12, at the input of `TestRun_NoDir`: no file at all, relative directory `.` and
workspace `workspace`. -/
theorem C12_missing_plan_file_witness :
    FileSystem.readFile []
      (localOps.Join "/nonexistent/path"
        (if applyProject.ProjectName = "" then applyProject.Workspace ++ ".tfplan"
          else applyProject.ProjectName ++ "-" ++ applyProject.Workspace ++ ".tfplan")) = none ∧
    (ApplyStepRunner.Run localOps ⟨mockTerraform, streamOf []⟩
        ⟨0⟩ applyProject [] "/nonexistent/path" [] [] 0).execCalls = [] ∧
    ((ApplyStepRunner.Run localOps ⟨mockTerraform, streamOf []⟩
        ⟨0⟩ applyProject [] "/nonexistent/path" [] [] 0).result.err.map GoError.Error) =
      some "no plan found at path \".\" and workspace \"workspace\"–did you run plan?" :=
  ⟨by decide,
    (C12_missing_plan_file_fails localOps
      ⟨mockTerraform, streamOf []⟩ ⟨0⟩ applyProject [] "/nonexistent/path" [] [] 0
      (by decide)).2.2.1,
    by decide⟩

/-- C13: in local mode (a plan file without the remote marker and no target flag),
`ApplyStepRunner.Run` invokes the executor exactly once, with the argument list
`["apply", "-input=false"] ++ extraArgs ++ commentArgs ++ [quoted plan-file path]` (the
quoted form `fmt.Sprintf("%q", planPath)` of the joined path, as `TestRun_Success` expects), the
project's configured version (nil when unset) and the project's workspace, it invokes no
asynchronous subprocess, it returns the result of the executor, and afterwards no plan file
exists at the path if and only if the executor returned no error. -/
theorem C13_local_apply_runs_once_and_deletes_on_success {V σ : Type} (P : RemoteOps)
    (a : ApplyStepRunner V σ) (ctx : Context) (prjCtx : ProjectContext V)
    (extraArgs : List String) (path : String) (envs : EnvMap) (fs : FileSystem) (w : σ)
    (contents : String) (hfile : fs.readFile (planPath P prjCtx path) = some contents)
    (hlocal : IsRemotePlan contents = false)
    (hnt : hasTargetFlag prjCtx extraArgs = false) :
    (a.Run P ctx prjCtx extraArgs path envs fs w).execCalls =
      [⟨ctx, prjCtx, path,
        ["apply", "-input=false"] ++ extraArgs ++ prjCtx.EscapedCommentArgs ++
          [P.Quote (planPath P prjCtx path)],
        envs, prjCtx.TerraformVersion, prjCtx.Workspace⟩] ∧
    (a.Run P ctx prjCtx extraArgs path envs fs w).asyncCalls = [] ∧
    (a.Run P ctx prjCtx extraArgs path envs fs w).result =
      (a.TerraformExecutor
        ⟨ctx, prjCtx, path,
          ["apply", "-input=false"] ++ extraArgs ++ prjCtx.EscapedCommentArgs ++
            [P.Quote (planPath P prjCtx path)],
          envs, prjCtx.TerraformVersion, prjCtx.Workspace⟩ w).1 ∧
    (a.Run P ctx prjCtx extraArgs path envs fs w).world =
      (a.TerraformExecutor
        ⟨ctx, prjCtx, path,
          ["apply", "-input=false"] ++ extraArgs ++ prjCtx.EscapedCommentArgs ++
            [P.Quote (planPath P prjCtx path)],
          envs, prjCtx.TerraformVersion, prjCtx.Workspace⟩ w).2 ∧
    ((a.Run P ctx prjCtx extraArgs path envs fs w).files.readFile (planPath P prjCtx path) = none ↔
      (a.Run P ctx prjCtx extraArgs path envs fs w).result.err = none) := by
  unfold ApplyStepRunner.Run
  simp only [hfile, hnt, hlocal, Bool.false_eq_true, if_false]
  split
  · rename_i e he
    refine ⟨rfl, rfl, rfl, rfl, ?_⟩
    dsimp only
    rw [he, hfile]
    simp
  · rename_i he
    refine ⟨rfl, rfl, rfl, rfl, ?_⟩
    dsimp only
    rw [he, readFile_remove]
    simp

/-- C13, at the input of `TestRun_Success`, next to the same input with a failing
subprocess, where the plan file stays. -/
theorem C13_local_apply_witness :
    localPlanFiles.readFile (planPath localOps applyProject "/tmp/dir") = some "" ∧
    IsRemotePlan "" = false ∧
    hasTargetFlag applyProject ["extra", "args"] = false ∧
    (ApplyStepRunner.Run localOps ⟨mockTerraform, streamOf []⟩
        ⟨0⟩ applyProject ["extra", "args"] "/tmp/dir" [] localPlanFiles 0).execCalls =
      [⟨⟨0⟩, applyProject, "/tmp/dir",
        ["apply", "-input=false"] ++ ["extra", "args"] ++ applyProject.EscapedCommentArgs ++
          [localOps.Quote (planPath localOps applyProject "/tmp/dir")],
        [], applyProject.TerraformVersion, applyProject.Workspace⟩] ∧
    (ApplyStepRunner.Run localOps ⟨mockTerraform, streamOf []⟩
        ⟨0⟩ applyProject ["extra", "args"] "/tmp/dir" [] localPlanFiles 0).execCalls.map
        (fun c => c.args) =
      [["apply", "-input=false", "extra", "args", "comment", "args",
        "\"/tmp/dir/workspace.tfplan\""]] ∧
    (ApplyStepRunner.Run localOps ⟨mockTerraform, streamOf []⟩
        ⟨0⟩ applyProject ["extra", "args"] "/tmp/dir" [] localPlanFiles 0).result =
      ⟨"output", none⟩ ∧
    (ApplyStepRunner.Run localOps ⟨mockTerraform, streamOf []⟩
        ⟨0⟩ applyProject ["extra", "args"] "/tmp/dir" [] localPlanFiles 0).files = [] ∧
    (ApplyStepRunner.Run localOps
        ⟨failingTerraform, streamOf []⟩
        ⟨0⟩ applyProject ["extra", "args"] "/tmp/dir" [] localPlanFiles 0).files =
      localPlanFiles :=
  ⟨by decide, by decide, by decide,
    (C13_local_apply_runs_once_and_deletes_on_success
      localOps ⟨mockTerraform, streamOf []⟩ ⟨0⟩ applyProject
      ["extra", "args"] "/tmp/dir" [] localPlanFiles 0 "" (by decide) (by decide)
      (by decide)).1,
    by decide, by decide, by decide, by decide⟩

/-- Recording a line leaves the tokens sent as they were. -/
theorem record_input (P : RemoteOps) (st : RemoteState) (line : String) :
    (st.record P line).input = st.input := by
  obtain ⟨lines, url, ups, input, conf, out⟩ := st
  unfold RemoteState.record
  cases url <;> cases conf <;> cases P.runURL line <;> rfl

/-- Recording a line leaves the confirmation flag as it was. -/
theorem record_confirmed (P : RemoteOps) (st : RemoteState) (line : String) :
    (st.record P line).confirmed = st.confirmed := by
  obtain ⟨lines, url, ups, input, conf, out⟩ := st
  unfold RemoteState.record
  cases url <;> cases conf <;> cases P.runURL line <;> rfl

/-- Recording a line buffers it. -/
theorem record_lines (P : RemoteOps) (st : RemoteState) (line : String) :
    (st.record P line).lines = st.lines ++ [line] := by
  obtain ⟨lines, url, ups, input, conf, out⟩ := st
  unfold RemoteState.record
  cases url <;> cases conf <;> cases P.runURL line <;> rfl

/-- Recording a line adds it to the output once the confirmation was sent. -/
theorem record_output (P : RemoteOps) (st : RemoteState) (line : String) :
    (st.record P line).output = if st.confirmed then st.output ++ [line] else st.output := by
  obtain ⟨lines, url, ups, input, conf, out⟩ := st
  unfold RemoteState.record
  cases url <;> cases conf <;> cases P.runURL line <;> rfl

/-- The first hit in a list followed by one more element. -/
theorem findSome_append_singleton {α β : Type} (f : α → Option β) (l : List α) (x : α) :
    (l ++ [x]).findSome? f = match l.findSome? f with
      | some b => some b
      | none => f x := by
  induction l with
  | nil => simp [List.findSome?]; cases f x <;> rfl
  | cons a l ih =>
    simp only [List.cons_append, List.findSome?]
    cases f a with
    | some b => rfl
    | none => simpa using ih

/-- Recording a line keeps the run URL and the status updates fitting the consumed lines. -/
theorem record_urlView (P : RemoteOps) (st : RemoteState) (line : String)
    (h : (st.runURL, st.statusUpdates) = urlView P st.lines) :
    ((st.record P line).runURL, (st.record P line).statusUpdates) =
      urlView P (st.record P line).lines := by
  rw [record_lines]
  unfold urlView at h ⊢
  rw [findSome_append_singleton]
  unfold RemoteState.record
  cases hf : st.lines.findSome? P.runURL with
  | some u =>
    rw [hf] at h
    simp only [Prod.mk.injEq] at h
    simp [h.1, h.2]
  | none =>
    rw [hf] at h
    simp only [Prod.mk.injEq] at h
    cases hu : P.runURL line with
    | some u => simp [h.1, h.2, hu]
    | none => simp [h.1, h.2, hu]

/-- The consumer keeps the run URL and the status updates fitting the consumed lines. -/
theorem consumeRemote_urlView (P : RemoteOps) (planfile : String) (stream : List Line) :
    ∀ st : RemoteState, (st.runURL, st.statusUpdates) = urlView P st.lines →
      ((consumeRemote P planfile stream st).1.runURL,
        (consumeRemote P planfile stream st).1.statusUpdates) =
        urlView P (consumeRemote P planfile stream st).1.lines := by
  induction stream with
  | nil => intro st h; exact h
  | cons l rest ih =>
    intro st h
    unfold consumeRemote
    cases hl : l.Err with
    | some e => exact h
    | none =>
      have h1 := record_urlView P st l.Line h
      simp only
      split_ifs
      · exact ih _ h1
      · exact h1
      · exact ih _ h1

/-- Lines without a terminal error that do not bring the consumer to its decision are
recorded one after the other: either the confirmation was already sent, or none of them is
the prompt. -/
theorem consumeRemote_append (P : RemoteOps) (planfile : String) (pre : List Line)
    (rest : List Line) :
    ∀ st : RemoteState, (∀ l ∈ pre, l.Err = none) →
      (st.confirmed = true ∨ ∀ l ∈ pre, isConfirmPrompt l.Line = false) →
      consumeRemote P planfile (pre ++ rest) st =
        consumeRemote P planfile rest ((pre.map (fun l => l.Line)).foldl (RemoteState.record P) st) := by
  induction pre with
  | nil => intro st _ _; rfl
  | cons l pre ih =>
    intro st herr hc
    have hl : l.Err = none := herr l (List.mem_cons_self _ _)
    have hskip : (!(st.record P l.Line).confirmed && isConfirmPrompt l.Line) = false := by
      rw [record_confirmed]
      rcases hc with h | h
      · simp [h]
      · simp [h l (List.mem_cons_self _ _)]
    rw [List.cons_append, consumeRemote]
    simp only [hl, hskip, Bool.false_eq_true, if_false, List.map_cons, List.foldl_cons]
    apply ih
    · exact fun x hx => herr x (List.mem_cons_of_mem _ hx)
    · rcases hc with h | h
      · left; rw [record_confirmed]; exact h
      · right; exact fun x hx => h x (List.mem_cons_of_mem _ hx)

/-- Recording lines leaves the tokens sent as they were. -/
theorem foldl_record_input (P : RemoteOps) (texts : List String) :
    ∀ st : RemoteState, (texts.foldl (RemoteState.record P) st).input = st.input := by
  induction texts with
  | nil => intro st; rfl
  | cons t ts ih => intro st; rw [List.foldl_cons, ih, record_input]

/-- Recording lines leaves the confirmation flag as it was. -/
theorem foldl_record_confirmed (P : RemoteOps) (texts : List String) :
    ∀ st : RemoteState, (texts.foldl (RemoteState.record P) st).confirmed = st.confirmed := by
  induction texts with
  | nil => intro st; rfl
  | cons t ts ih => intro st; rw [List.foldl_cons, ih, record_confirmed]

/-- Recording lines buffers them in order. -/
theorem foldl_record_lines (P : RemoteOps) (texts : List String) :
    ∀ st : RemoteState, (texts.foldl (RemoteState.record P) st).lines = st.lines ++ texts := by
  induction texts with
  | nil => intro st; simp
  | cons t ts ih => intro st; rw [List.foldl_cons, ih, record_lines]; simp

/-- Recording lines adds them to the output once the confirmation was sent. -/
theorem foldl_record_output (P : RemoteOps) (texts : List String) :
    ∀ st : RemoteState, (texts.foldl (RemoteState.record P) st).output =
      if st.confirmed then st.output ++ texts else st.output := by
  induction texts with
  | nil => intro st; simp
  | cons t ts ih =>
    intro st
    rw [List.foldl_cons, ih, record_confirmed, record_output]
    cases st.confirmed <;> simp

/-- The consumer on a stream without a terminal error whose first prompt comes with a
matching plan: the confirmation is the one token sent, the stream is consumed to its end,
and the output is the lines after the prompt. -/
theorem consumeRemote_matching (P : RemoteOps) (planfile : String) (pre : List Line)
    (prompt : Line) (post : List Line)
    (hnoerr : ∀ l ∈ pre ++ prompt :: post, l.Err = none)
    (hpre : ∀ l ∈ pre, isConfirmPrompt l.Line = false)
    (hprompt : isConfirmPrompt prompt.Line = true)
    (hmatch : P.streamedPlan (pre.map (fun l => l.Line) ++ [prompt.Line]) =
      P.recordedPlan planfile) :
    (consumeRemote P planfile (pre ++ prompt :: post) ⟨[], none, [], [], false, []⟩).2 =
      RemoteEnd.closed ∧
    (consumeRemote P planfile (pre ++ prompt :: post) ⟨[], none, [], [], false, []⟩).1.input =
      ["yes\n"] ∧
    (consumeRemote P planfile (pre ++ prompt :: post) ⟨[], none, [], [], false, []⟩).1.output =
      post.map (fun l => l.Line) ∧
    (consumeRemote P planfile (pre ++ prompt :: post) ⟨[], none, [], [], false, []⟩).1.lines =
      (pre ++ prompt :: post).map (fun l => l.Line) := by
  have hpreErr : ∀ l ∈ pre, l.Err = none := fun l hl => hnoerr l (by simp [hl])
  have hpromptErr : prompt.Err = none := hnoerr prompt (by simp)
  have hpostErr : ∀ l ∈ post, l.Err = none := fun l hl => hnoerr l (by simp [hl])
  rw [consumeRemote_append P planfile pre (prompt :: post) _ hpreErr (Or.inr hpre)]
  rw [consumeRemote]
  have hconf : ((List.foldl (RemoteState.record P) ⟨[], none, [], [], false, []⟩
      (pre.map (fun l => l.Line))).record P prompt.Line).confirmed = false := by
    rw [record_confirmed, foldl_record_confirmed]
  have hlines : ((List.foldl (RemoteState.record P) ⟨[], none, [], [], false, []⟩
      (pre.map (fun l => l.Line))).record P prompt.Line).lines =
      pre.map (fun l => l.Line) ++ [prompt.Line] := by
    rw [record_lines, foldl_record_lines]; simp
  have hinput : ((List.foldl (RemoteState.record P) ⟨[], none, [], [], false, []⟩
      (pre.map (fun l => l.Line))).record P prompt.Line).input = [] := by
    rw [record_input, foldl_record_input]
  have hout : ((List.foldl (RemoteState.record P) ⟨[], none, [], [], false, []⟩
      (pre.map (fun l => l.Line))).record P prompt.Line).output = [] := by
    rw [record_output, foldl_record_confirmed, foldl_record_output]; simp
  generalize (List.foldl (RemoteState.record P) ⟨[], none, [], [], false, []⟩
      (pre.map (fun l => l.Line))).record P prompt.Line = s1 at hconf hlines hinput hout ⊢
  simp only [hpromptErr, hconf, hprompt, hlines, hmatch, Bool.not_false, Bool.and_self, if_true]
  have hrest := consumeRemote_append P planfile post [] s1.confirm hpostErr (Or.inl rfl)
  rw [List.append_nil] at hrest
  rw [hrest]
  simp [consumeRemote, foldl_record_input, foldl_record_output, foldl_record_lines,
    RemoteState.confirm, hinput, hout, hlines]

/-- The consumer on a stream whose first prompt comes with a plan that does not match: the
refusal is the one token sent and the consumption ends with the plan mismatch error. -/
theorem consumeRemote_changed (P : RemoteOps) (planfile : String) (pre : List Line)
    (prompt : Line) (post : List Line)
    (hnoerr : ∀ l ∈ pre, l.Err = none) (hpromptErr : prompt.Err = none)
    (hpre : ∀ l ∈ pre, isConfirmPrompt l.Line = false)
    (hprompt : isConfirmPrompt prompt.Line = true)
    (hdiff : P.streamedPlan (pre.map (fun l => l.Line) ++ [prompt.Line]) ≠
      P.recordedPlan planfile) :
    (consumeRemote P planfile (pre ++ prompt :: post) ⟨[], none, [], [], false, []⟩).2 =
      RemoteEnd.planChanged
        (planChangedErr (P.recordedPlan planfile)
          (P.streamedPlan (pre.map (fun l => l.Line) ++ [prompt.Line]))) ∧
    (consumeRemote P planfile (pre ++ prompt :: post) ⟨[], none, [], [], false, []⟩).1.input =
      ["no\n"] := by
  rw [consumeRemote_append P planfile pre (prompt :: post) _ hnoerr (Or.inr hpre)]
  rw [consumeRemote]
  have hconf : ((List.foldl (RemoteState.record P) ⟨[], none, [], [], false, []⟩
      (pre.map (fun l => l.Line))).record P prompt.Line).confirmed = false := by
    rw [record_confirmed, foldl_record_confirmed]
  have hlines : ((List.foldl (RemoteState.record P) ⟨[], none, [], [], false, []⟩
      (pre.map (fun l => l.Line))).record P prompt.Line).lines =
      pre.map (fun l => l.Line) ++ [prompt.Line] := by
    rw [record_lines, foldl_record_lines]; simp
  have hinput : ((List.foldl (RemoteState.record P) ⟨[], none, [], [], false, []⟩
      (pre.map (fun l => l.Line))).record P prompt.Line).input = [] := by
    rw [record_input, foldl_record_input]
  generalize (List.foldl (RemoteState.record P) ⟨[], none, [], [], false, []⟩
      (pre.map (fun l => l.Line))).record P prompt.Line = s1 at hconf hlines hinput ⊢
  simp [hpromptErr, hconf, hprompt, hlines, hdiff, RemoteState.refuse, hinput]

set_option maxRecDepth 1000000

/-- C14, as stated, fails at the input of `TestRun_RemoteApply_Success`: the plan file is a
remote plan, the plan text streamed up to the prompt equals the recorded plan text, the
token sent is `yes` and no error is returned, but afterwards no plan file exists at the
path, so the plan file is not preserved. -/
theorem C14_remote_success_deletes_plan_file_counterexample :
    remotePlanFiles.readFile (planPath hostedRemoteOps remoteApplyProject "/tmp/dir") = some remotePlanFile ∧
    IsRemotePlan remotePlanFile = true ∧
    hostedRemoteOps.streamedPlan
        ((linesOf (preConfirmOut planFileContents)).map (fun l => l.Line)) =
      hostedRemoteOps.recordedPlan remotePlanFile ∧
    (ApplyStepRunner.Run hostedRemoteOps remoteSuccessRunner ⟨0⟩ remoteApplyProject
        ["extra", "args"] "/tmp/dir" [] remotePlanFiles 0).input = ["yes\n"] ∧
    (ApplyStepRunner.Run hostedRemoteOps remoteSuccessRunner ⟨0⟩ remoteApplyProject
        ["extra", "args"] "/tmp/dir" [] remotePlanFiles 0).result.err = none ∧
    (ApplyStepRunner.Run hostedRemoteOps remoteSuccessRunner ⟨0⟩ remoteApplyProject
        ["extra", "args"] "/tmp/dir" [] remotePlanFiles 0).files.readFile
        (planPath hostedRemoteOps remoteApplyProject "/tmp/dir") = none := by
  refine ⟨by decide, by decide, by decide, by decide, by decide, by decide⟩

/-- C14, amended: in remote mode (a plan file whose first line is the remote marker, no
target flag), if the output stream carries no terminal error, its first prompt comes with a
streamed plan text equal to the recorded plan text, and `url` is the first run URL found in
the stream, then the asynchronous executor is started once with
`["apply", "-input=false"] ++ extraArgs ++ commentArgs`, the one token sent on the input sink
is `yes` followed by a newline, `Run` returns no error with the lines streamed after the
prompt, joined by newlines, as its output, exactly a Pending and then a Success status update
carrying `url` are emitted, and the plan file is deleted. -/
theorem C14_remote_apply_matching_plan_confirms {V σ : Type} (P : RemoteOps)
    (a : ApplyStepRunner V σ) (ctx : Context) (prjCtx : ProjectContext V)
    (extraArgs : List String) (path : String) (envs : EnvMap) (fs : FileSystem) (w : σ)
    (contents : String) (pre : List Line) (prompt : Line) (post : List Line) (url : String)
    (hfile : fs.readFile (planPath P prjCtx path) = some contents)
    (hremote : IsRemotePlan contents = true)
    (hnt : hasTargetFlag prjCtx extraArgs = false)
    (hstream : (a.AsyncTFExec
      ⟨ctx, prjCtx, path, ["apply", "-input=false"] ++ extraArgs ++ prjCtx.EscapedCommentArgs,
        envs, prjCtx.TerraformVersion, prjCtx.Workspace⟩ w).1 = pre ++ prompt :: post)
    (hnoerr : ∀ l ∈ pre ++ prompt :: post, l.Err = none)
    (hpre : ∀ l ∈ pre, isConfirmPrompt l.Line = false)
    (hprompt : isConfirmPrompt prompt.Line = true)
    (hmatch : P.streamedPlan (pre.map (fun l => l.Line) ++ [prompt.Line]) =
      P.recordedPlan contents)
    (hurl : ((pre ++ prompt :: post).map (fun l => l.Line)).findSome? P.runURL = some url) :
    (a.Run P ctx prjCtx extraArgs path envs fs w).asyncCalls =
      [⟨ctx, prjCtx, path, ["apply", "-input=false"] ++ extraArgs ++ prjCtx.EscapedCommentArgs,
        envs, prjCtx.TerraformVersion, prjCtx.Workspace⟩] ∧
    (a.Run P ctx prjCtx extraArgs path envs fs w).execCalls = [] ∧
    (a.Run P ctx prjCtx extraArgs path envs fs w).input = ["yes\n"] ∧
    (a.Run P ctx prjCtx extraArgs path envs fs w).result =
      ⟨"\n".intercalate (post.map (fun l => l.Line)), none⟩ ∧
    (a.Run P ctx prjCtx extraArgs path envs fs w).statusUpdates =
      [⟨VCSStatus.PendingVCSStatus, url⟩, ⟨VCSStatus.SuccessVCSStatus, url⟩] ∧
    (a.Run P ctx prjCtx extraArgs path envs fs w).files.readFile (planPath P prjCtx path) =
      none := by
  obtain ⟨hend, hinput, hout, hlines⟩ :=
    consumeRemote_matching P contents pre prompt post hnoerr hpre hprompt hmatch
  have hview := consumeRemote_urlView P contents (pre ++ prompt :: post)
    ⟨[], none, [], [], false, []⟩ rfl
  rw [hlines] at hview
  unfold urlView at hview
  rw [hurl] at hview
  simp only [Prod.mk.injEq] at hview
  unfold ApplyStepRunner.Run
  simp only [hfile, hnt, hremote, Bool.false_eq_true, if_false, if_true, hstream, hend, hinput,
    hout, hview.1, hview.2, readFile_remove]
  simp

/-- C14, amended, at the input of `TestRun_RemoteApply_Success`, with the output and the
status updates the test expects. -/
theorem C14_remote_apply_matching_plan_witness :
    (ApplyStepRunner.Run hostedRemoteOps remoteSuccessRunner ⟨0⟩ remoteApplyProject
        ["extra", "args"] "/tmp/dir" [] remotePlanFiles 0).statusUpdates =
      [⟨VCSStatus.PendingVCSStatus, testRunURL⟩, ⟨VCSStatus.SuccessVCSStatus, testRunURL⟩] ∧
    (ApplyStepRunner.Run hostedRemoteOps remoteSuccessRunner ⟨0⟩ remoteApplyProject
        ["extra", "args"] "/tmp/dir" [] remotePlanFiles 0).result =
      ⟨"\n2019/02/27 21:47:36 [DEBUG] Using modified User-Agent: Terraform/0.11.11 TFE/d161c1b\nnull_resource.dir2[1]: Destroying... (ID: 8554368366766418126)\nnull_resource.dir2[1]: Destruction complete after 0s\n\nApply complete! Resources: 0 added, 0 changed, 1 destroyed.\n",
        none⟩ ∧
    (ApplyStepRunner.Run hostedRemoteOps remoteSuccessRunner ⟨0⟩ remoteApplyProject
        ["extra", "args"] "/tmp/dir" [] remotePlanFiles 0).asyncCalls.map (fun c => c.args) =
      [["apply", "-input=false", "extra", "args", "comment", "args"]] :=
  ⟨(C14_remote_apply_matching_plan_confirms hostedRemoteOps remoteSuccessRunner ⟨0⟩
      remoteApplyProject ["extra", "args"] "/tmp/dir" [] remotePlanFiles 0 remotePlanFile
      ((linesOf (preConfirmOut planFileContents)).dropLast)
      ⟨"  Enter a value: ", none⟩
      ((linesOf postConfirmOut).drop 1)
      testRunURL
      (by decide) (by decide) (by decide) (by decide) (by decide) (by decide) (by decide)
      (by decide) (by decide)).2.2.2.2.1,
    by decide, by decide⟩

/-- C15: in remote mode (a plan file whose first line is the remote marker, no target flag),
if the first prompt of the output stream comes with a streamed plan text that differs from
the recorded plan text, then the one token sent on the input sink is `no` followed by a
newline, `Run` returns an empty output and the plan mismatch error, whose message holds the
expected (recorded) plan text and the actual (streamed) plan text, each above a line of
stars, and ends with the guidance to re-run plan, and the plan file is still there with its
contents. -/
theorem C15_remote_apply_changed_plan_refuses {V σ : Type} (P : RemoteOps)
    (a : ApplyStepRunner V σ) (ctx : Context) (prjCtx : ProjectContext V)
    (extraArgs : List String) (path : String) (envs : EnvMap) (fs : FileSystem) (w : σ)
    (contents : String) (pre : List Line) (prompt : Line) (post : List Line)
    (hfile : fs.readFile (planPath P prjCtx path) = some contents)
    (hremote : IsRemotePlan contents = true)
    (hnt : hasTargetFlag prjCtx extraArgs = false)
    (hstream : (a.AsyncTFExec
      ⟨ctx, prjCtx, path, ["apply", "-input=false"] ++ extraArgs ++ prjCtx.EscapedCommentArgs,
        envs, prjCtx.TerraformVersion, prjCtx.Workspace⟩ w).1 = pre ++ prompt :: post)
    (hnoerr : ∀ l ∈ pre, l.Err = none) (hpromptErr : prompt.Err = none)
    (hpre : ∀ l ∈ pre, isConfirmPrompt l.Line = false)
    (hprompt : isConfirmPrompt prompt.Line = true)
    (hdiff : P.streamedPlan (pre.map (fun l => l.Line) ++ [prompt.Line]) ≠
      P.recordedPlan contents) :
    (a.Run P ctx prjCtx extraArgs path envs fs w).input = ["no\n"] ∧
    (a.Run P ctx prjCtx extraArgs path envs fs w).result.out = "" ∧
    (∃ err, (a.Run P ctx prjCtx extraArgs path envs fs w).result.err = some err ∧
      err.Error =
        "Plan generated during apply phase did not match plan generated during plan phase.\n" ++
          "Aborting apply.\n\nExpected Plan:\n\n" ++ P.recordedPlan contents ++ "\n" ++
          "**************************************************" ++
          "\n\nActual Plan:\n\n" ++
          P.streamedPlan (pre.map (fun l => l.Line) ++ [prompt.Line]) ++ "\n" ++
          "**************************************************" ++
          "\n\nThis likely occurred because someone applied a change to this state in-between\n" ++
          "your plan and apply commands.\nTo resolve, re-run plan.") ∧
    (a.Run P ctx prjCtx extraArgs path envs fs w).files = fs ∧
    (a.Run P ctx prjCtx extraArgs path envs fs w).files.readFile (planPath P prjCtx path) =
      some contents := by
  obtain ⟨hend, hinput⟩ :=
    consumeRemote_changed P contents pre prompt post hnoerr hpromptErr hpre hprompt hdiff
  unfold ApplyStepRunner.Run
  simp only [hfile, hnt, hremote, Bool.false_eq_true, if_false, if_true, hstream, hend, hinput]
  exact ⟨trivial, trivial, ⟨_, rfl, rfl⟩, trivial, trivial⟩

/-- C15, at the input of `TestRun_RemoteApply_PlanChanged`, with the error message the test
expects. -/
theorem C15_remote_apply_changed_plan_witness :
    (ApplyStepRunner.Run hostedRemoteOps remoteChangedRunner ⟨0⟩ remoteApplyProject
        ["extra", "args"] "/tmp/dir" [] remotePlanFiles 0).input = ["no\n"] ∧
    (ApplyStepRunner.Run hostedRemoteOps remoteChangedRunner ⟨0⟩ remoteApplyProject
        ["extra", "args"] "/tmp/dir" [] remotePlanFiles 0).files = remotePlanFiles ∧
    (ApplyStepRunner.Run hostedRemoteOps remoteChangedRunner ⟨0⟩ remoteApplyProject
        ["extra", "args"] "/tmp/dir" [] remotePlanFiles 0).result.out = "" ∧
    (ApplyStepRunner.Run hostedRemoteOps remoteChangedRunner ⟨0⟩ remoteApplyProject
        ["extra", "args"] "/tmp/dir" [] remotePlanFiles 0).result.err.map GoError.Error =
      some "Plan generated during apply phase did not match plan generated during plan phase.\nAborting apply.\n\nExpected Plan:\n\nAn execution plan has been generated and is shown below.\nResource actions are indicated with the following symbols:\n  - destroy\n\nTerraform will perform the following actions:\n\n  - null_resource.hi[1]\n\n\nPlan: 0 to add, 0 to change, 1 to destroy.\n**************************************************\n\nActual Plan:\n\nnot the expected plan!\n**************************************************\n\nThis likely occurred because someone applied a change to this state in-between\nyour plan and apply commands.\nTo resolve, re-run plan." :=
  ⟨(C15_remote_apply_changed_plan_refuses hostedRemoteOps remoteChangedRunner ⟨0⟩
      remoteApplyProject ["extra", "args"] "/tmp/dir" [] remotePlanFiles 0 remotePlanFile
      ((linesOf (preConfirmOut "not the expected plan!")).dropLast)
      ⟨"  Enter a value: ", none⟩
      ((linesOf noConfirmationOut).drop 1 ++ [⟨"", some (GoError.new "exit status 1")⟩])
      (by decide) (by decide) (by decide) (by decide) (by decide) (by decide) (by decide)
      (by decide) (by decide)).1,
    by decide, by decide, by decide⟩

/-! ## Theorems: the working-directory lock and the pre-workflow hooks -/

/-- In every reachable state of the registry no key is recorded twice. -/
theorem reachable_nodup (d : DefaultWorkingDirLocker) (hd : d.Reachable) : d.locks.Nodup := by
  induction hd with
  | init => exact List.nodup_nil
  | tryLock d repoFullName pullNum workspace _ ih =>
    unfold DefaultWorkingDirLocker.TryLock
    split_ifs with h
    · exact ih
    · exact List.Nodup.append ih (List.nodup_singleton _) (by simpa using h)
  | release d key _ ih =>
    exact List.Nodup.filter _ ih

/-- C16: in every reachable state of the lock registry each key (repository full name,
change-request number, workspace) has at most one holder; a `TryLock` on a key that is held
fails and leaves the registry as it is; a `TryLock` on a key that is not held succeeds and
records the key as held, and after a call of the release function it returned, in whatever
state, a `TryLock` on the key succeeds again; and neither `TryLock` nor the release function
of one key changes whether a different key is held. -/
theorem C16_at_most_one_holder_per_key (d : DefaultWorkingDirLocker) (hd : d.Reachable) :
    (∀ key : LockKey, d.holders key ≤ 1) ∧
    (∀ (repoFullName : String) (pullNum : Int) (workspace : String),
      (⟨repoFullName, pullNum, workspace⟩ : LockKey) ∈ d.locks →
        (d.TryLock repoFullName pullNum workspace).1.err ≠ none ∧
        (d.TryLock repoFullName pullNum workspace).2 = d) ∧
    (∀ (repoFullName : String) (pullNum : Int) (workspace : String),
      (⟨repoFullName, pullNum, workspace⟩ : LockKey) ∉ d.locks →
        (d.TryLock repoFullName pullNum workspace).1.err = none ∧
        (d.TryLock repoFullName pullNum workspace).2.holders
          ⟨repoFullName, pullNum, workspace⟩ = 1 ∧
        ∀ d' : DefaultWorkingDirLocker,
          (((d.TryLock repoFullName pullNum workspace).1.unlockFn d').TryLock repoFullName
            pullNum workspace).1.err = none) ∧
    (∀ (repoFullName : String) (pullNum : Int) (workspace : String) (other : LockKey),
      other ≠ ⟨repoFullName, pullNum, workspace⟩ →
        (other ∈ (d.TryLock repoFullName pullNum workspace).2.locks ↔ other ∈ d.locks) ∧
        ∀ d' : DefaultWorkingDirLocker,
          (other ∈ ((d.TryLock repoFullName pullNum workspace).1.unlockFn d').locks ↔
            other ∈ d'.locks)) := by
  have hnd := reachable_nodup d hd
  refine ⟨?_, ?_, ?_, ?_⟩
  · intro key
    exact List.nodup_iff_count_le_one.mp hnd key
  · intro r p ws h
    simp [DefaultWorkingDirLocker.TryLock, h]
  · intro r p ws h
    refine ⟨by simp [DefaultWorkingDirLocker.TryLock, h], ?_, ?_⟩
    · simp [DefaultWorkingDirLocker.TryLock, h, DefaultWorkingDirLocker.holders,
        List.count_eq_zero_of_not_mem h]
    · intro d'
      simp [DefaultWorkingDirLocker.TryLock, h, DefaultWorkingDirLocker.unlock]
  · intro r p ws other hne
    constructor
    · unfold DefaultWorkingDirLocker.TryLock
      split_ifs with h
      · exact Iff.rfl
      · simp [hne]
    · intro d'
      unfold DefaultWorkingDirLocker.TryLock
      split_ifs with h
      · exact Iff.rfl
      · simp [DefaultWorkingDirLocker.unlock, hne]

/-- C16, at the registry reached by one `TryLock` from the empty registry: the key is held
once, a second `TryLock` on it fails, and a `TryLock` on it after the release succeeds. -/
theorem C16_at_most_one_holder_witness :
    (NewDefaultWorkingDirLocker.TryLock "owner/repo" 1 "default").2.Reachable ∧
    (∀ key : LockKey,
      (NewDefaultWorkingDirLocker.TryLock "owner/repo" 1 "default").2.holders key ≤ 1) ∧
    ((NewDefaultWorkingDirLocker.TryLock "owner/repo" 1 "default").2.TryLock "owner/repo" 1
      "default").1.err ≠ none ∧
    (((NewDefaultWorkingDirLocker.TryLock "owner/repo" 1 "default").1.unlockFn
      (NewDefaultWorkingDirLocker.TryLock "owner/repo" 1 "default").2).TryLock "owner/repo" 1
      "default").1.err = none :=
  ⟨DefaultWorkingDirLocker.Reachable.tryLock _ _ _ _ DefaultWorkingDirLocker.Reachable.init,
    (C16_at_most_one_holder_per_key _
      (DefaultWorkingDirLocker.Reachable.tryLock _ "owner/repo" 1 "default"
        DefaultWorkingDirLocker.Reachable.init)).1,
    by decide, by decide⟩

/-- The loop of `runHooks` on a failing first hook stops there. -/
theorem runHooks_cons_err {σ : Type} (w : DefaultPreWorkflowHooksCommandRunner σ)
    (ctx : Context) (cmdCtx : PreWorkflowHookCommandContext) (hook : PreWorkflowHook)
    (rest : List PreWorkflowHook) (repoDir : String) (s : σ) (e : GoError)
    (h : (w.PreWorkflowHookRunner.Run ctx cmdCtx hook.RunCommand repoDir s).1.err = some e) :
    w.runHooks ctx cmdCtx (hook :: rest) repoDir s =
      ⟨some e, (w.PreWorkflowHookRunner.Run ctx cmdCtx hook.RunCommand repoDir s).2,
        [PreHookEvent.runHook ctx cmdCtx hook.RunCommand repoDir]⟩ := by
  rw [DefaultPreWorkflowHooksCommandRunner.runHooks]
  simp only [h]

/-- The loop of `runHooks` after a first hook that succeeds continues with the rest. -/
theorem runHooks_cons_ok {σ : Type} (w : DefaultPreWorkflowHooksCommandRunner σ)
    (ctx : Context) (cmdCtx : PreWorkflowHookCommandContext) (hook : PreWorkflowHook)
    (rest : List PreWorkflowHook) (repoDir : String) (s : σ)
    (h : (w.PreWorkflowHookRunner.Run ctx cmdCtx hook.RunCommand repoDir s).1.err = none) :
    w.runHooks ctx cmdCtx (hook :: rest) repoDir s =
      ⟨(w.runHooks ctx cmdCtx rest repoDir
          (w.PreWorkflowHookRunner.Run ctx cmdCtx hook.RunCommand repoDir s).2).err,
        (w.runHooks ctx cmdCtx rest repoDir
          (w.PreWorkflowHookRunner.Run ctx cmdCtx hook.RunCommand repoDir s).2).world,
        PreHookEvent.runHook ctx cmdCtx hook.RunCommand repoDir ::
          (w.runHooks ctx cmdCtx rest repoDir
            (w.PreWorkflowHookRunner.Run ctx cmdCtx hook.RunCommand repoDir s).2).events⟩ := by
  rw [DefaultPreWorkflowHooksCommandRunner.runHooks]
  simp only [h]

/-- Every call of a collaborator made by `runHooks` is a hook run. -/
theorem runHooks_events_work {σ : Type} (w : DefaultPreWorkflowHooksCommandRunner σ)
    (ctx : Context) (cmdCtx : PreWorkflowHookCommandContext) (hooks : List PreWorkflowHook)
    (repoDir : String) :
    ∀ s : σ, ∀ e ∈ (w.runHooks ctx cmdCtx hooks repoDir s).events, e.isWork = true := by
  induction hooks with
  | nil => intro s e he; simp [DefaultPreWorkflowHooksCommandRunner.runHooks] at he
  | cons hook rest ih =>
    intro s e he
    cases herr : (w.PreWorkflowHookRunner.Run ctx cmdCtx hook.RunCommand repoDir s).1.err with
    | some err =>
      rw [runHooks_cons_err w ctx cmdCtx hook rest repoDir s err herr] at he
      simp only [List.mem_singleton] at he
      rw [he]; rfl
    | none =>
      rw [runHooks_cons_ok w ctx cmdCtx hook rest repoDir s herr] at he
      rcases List.mem_cons.mp he with h | h
      · rw [h]; rfl
      · exact ih _ e h

/-- C17: `RunPreHooks` releases the working-directory lock on every exit path.  When hooks
are configured and `TryLock(baseRepo.FullName, pull.Num, DefaultWorkspace)` succeeds, the
calls of `RunPreHooks` are that `TryLock`, then clones and hook runs only, then one call of
the release function as the last call, whether cloning fails, a hook fails or all hooks
succeed: the release function is called exactly once, on the world state the work left, and
the clone and every hook run lie between the `TryLock` and the release. -/
theorem C17_lock_released_once_on_every_exit {σ : Type}
    (w : DefaultPreWorkflowHooksCommandRunner σ) (ctx : Context) (cmdCtx : CommandContext)
    (s : σ)
    (hhooks : w.collectHooks cmdCtx.Pull.BaseRepo w.GlobalCfg.Repos ≠ [])
    (hlock : (w.WorkingDirLocker.TryLock cmdCtx.Pull.BaseRepo.FullName cmdCtx.Pull.Num
      w.DefaultWorkspace s).1.err = none) :
    ∃ (body : List PreHookEvent) (s' : σ),
      (w.RunPreHooks ctx cmdCtx s).events =
        PreHookEvent.tryLock cmdCtx.Pull.BaseRepo.FullName cmdCtx.Pull.Num w.DefaultWorkspace ::
          body ++ [PreHookEvent.unlock] ∧
      (∀ e ∈ body, e.isWork = true) ∧
      (w.RunPreHooks ctx cmdCtx s).events.count PreHookEvent.unlock = 1 ∧
      (w.RunPreHooks ctx cmdCtx s).world =
        (w.WorkingDirLocker.TryLock cmdCtx.Pull.BaseRepo.FullName cmdCtx.Pull.Num
          w.DefaultWorkspace s).1.unlockFn s' := by
  have hlen : ¬ (w.collectHooks cmdCtx.Pull.BaseRepo w.GlobalCfg.Repos).length = 0 := by
    simpa using hhooks
  have hcount : ∀ body : List PreHookEvent, (∀ e ∈ body, e.isWork = true) →
      (PreHookEvent.tryLock cmdCtx.Pull.BaseRepo.FullName cmdCtx.Pull.Num w.DefaultWorkspace ::
        body ++ [PreHookEvent.unlock]).count PreHookEvent.unlock = 1 := by
    intro body hbody
    have h0 : body.count PreHookEvent.unlock = 0 := by
      apply List.count_eq_zero_of_not_mem
      intro hmem
      have := hbody _ hmem
      simp [PreHookEvent.isWork] at this
    simp [List.count_cons, List.count_append, h0]
  have hshape : ∀ (body : List PreHookEvent) (s' : σ), (∀ e ∈ body, e.isWork = true) →
      (w.RunPreHooks ctx cmdCtx s).events =
        PreHookEvent.tryLock cmdCtx.Pull.BaseRepo.FullName cmdCtx.Pull.Num w.DefaultWorkspace ::
          body ++ [PreHookEvent.unlock] →
      (w.RunPreHooks ctx cmdCtx s).world =
        (w.WorkingDirLocker.TryLock cmdCtx.Pull.BaseRepo.FullName cmdCtx.Pull.Num
          w.DefaultWorkspace s).1.unlockFn s' →
      ∃ (body : List PreHookEvent) (s' : σ),
        (w.RunPreHooks ctx cmdCtx s).events =
          PreHookEvent.tryLock cmdCtx.Pull.BaseRepo.FullName cmdCtx.Pull.Num w.DefaultWorkspace ::
            body ++ [PreHookEvent.unlock] ∧
        (∀ e ∈ body, e.isWork = true) ∧
        (w.RunPreHooks ctx cmdCtx s).events.count PreHookEvent.unlock = 1 ∧
        (w.RunPreHooks ctx cmdCtx s).world =
          (w.WorkingDirLocker.TryLock cmdCtx.Pull.BaseRepo.FullName cmdCtx.Pull.Num
            w.DefaultWorkspace s).1.unlockFn s' := by
    intro body s' hbody hev hw
    exact ⟨body, s', hev, hbody, by rw [hev]; exact hcount body hbody, hw⟩
  cases hc : (w.WorkingDir.Clone cmdCtx.Log cmdCtx.HeadRepo cmdCtx.Pull w.DefaultWorkspace
      (w.WorkingDirLocker.TryLock cmdCtx.Pull.BaseRepo.FullName cmdCtx.Pull.Num
        w.DefaultWorkspace s).2).1.err with
  | some cloneErr =>
    apply hshape [PreHookEvent.clone cmdCtx.Log cmdCtx.HeadRepo cmdCtx.Pull w.DefaultWorkspace]
      ((w.WorkingDir.Clone cmdCtx.Log cmdCtx.HeadRepo cmdCtx.Pull w.DefaultWorkspace
        (w.WorkingDirLocker.TryLock cmdCtx.Pull.BaseRepo.FullName cmdCtx.Pull.Num
          w.DefaultWorkspace s).2).2)
    · intro e he
      simp only [List.mem_singleton] at he
      rw [he]; rfl
    · unfold DefaultPreWorkflowHooksCommandRunner.RunPreHooks
      simp only [hlen, if_false, hlock, hc]
      rfl
    · unfold DefaultPreWorkflowHooksCommandRunner.RunPreHooks
      simp only [hlen, if_false, hlock, hc]
  | none =>
    have hbody : ∀ e ∈ PreHookEvent.clone cmdCtx.Log cmdCtx.HeadRepo cmdCtx.Pull
          w.DefaultWorkspace ::
        (w.runHooks ctx
          ⟨cmdCtx.Pull.BaseRepo, cmdCtx.HeadRepo, cmdCtx.Log, cmdCtx.Pull, cmdCtx.User⟩
          (w.collectHooks cmdCtx.Pull.BaseRepo w.GlobalCfg.Repos)
          (w.WorkingDir.Clone cmdCtx.Log cmdCtx.HeadRepo cmdCtx.Pull w.DefaultWorkspace
            (w.WorkingDirLocker.TryLock cmdCtx.Pull.BaseRepo.FullName cmdCtx.Pull.Num
              w.DefaultWorkspace s).2).1.repoDir
          (w.WorkingDir.Clone cmdCtx.Log cmdCtx.HeadRepo cmdCtx.Pull w.DefaultWorkspace
            (w.WorkingDirLocker.TryLock cmdCtx.Pull.BaseRepo.FullName cmdCtx.Pull.Num
              w.DefaultWorkspace s).2).2).events, e.isWork = true := by
      intro e he
      rcases List.mem_cons.mp he with h | h
      · rw [h]; rfl
      · exact runHooks_events_work w ctx _ _ _ _ e h
    apply hshape _
      ((w.runHooks ctx
          ⟨cmdCtx.Pull.BaseRepo, cmdCtx.HeadRepo, cmdCtx.Log, cmdCtx.Pull, cmdCtx.User⟩
          (w.collectHooks cmdCtx.Pull.BaseRepo w.GlobalCfg.Repos)
          (w.WorkingDir.Clone cmdCtx.Log cmdCtx.HeadRepo cmdCtx.Pull w.DefaultWorkspace
            (w.WorkingDirLocker.TryLock cmdCtx.Pull.BaseRepo.FullName cmdCtx.Pull.Num
              w.DefaultWorkspace s).2).1.repoDir
          (w.WorkingDir.Clone cmdCtx.Log cmdCtx.HeadRepo cmdCtx.Pull w.DefaultWorkspace
            (w.WorkingDirLocker.TryLock cmdCtx.Pull.BaseRepo.FullName cmdCtx.Pull.Num
              w.DefaultWorkspace s).2).2).world) hbody
    · unfold DefaultPreWorkflowHooksCommandRunner.RunPreHooks
      simp only [hlen, if_false, hlock, hc]
      split <;> simp
    · unfold DefaultPreWorkflowHooksCommandRunner.RunPreHooks
      simp only [hlen, if_false, hlock, hc]
      split <;> rfl

/-- C17, at a run whose second hook fails, from the empty registry: the lock is taken, the
repository is cloned, two hooks are run, the lock is released, and no key is held
afterwards. -/
theorem C17_lock_released_witness :
    preHooksRunner.collectHooks preHooksContext.Pull.BaseRepo preHooksRunner.GlobalCfg.Repos ≠
      [] ∧
    (∃ (body : List PreHookEvent) (s' : DefaultWorkingDirLocker),
      (preHooksRunner.RunPreHooks ⟨0⟩ preHooksContext NewDefaultWorkingDirLocker).events =
        PreHookEvent.tryLock preHooksContext.Pull.BaseRepo.FullName preHooksContext.Pull.Num
          preHooksRunner.DefaultWorkspace :: body ++ [PreHookEvent.unlock] ∧
      (∀ e ∈ body, e.isWork = true) ∧
      (preHooksRunner.RunPreHooks ⟨0⟩ preHooksContext NewDefaultWorkingDirLocker).events.count
        PreHookEvent.unlock = 1 ∧
      (preHooksRunner.RunPreHooks ⟨0⟩ preHooksContext NewDefaultWorkingDirLocker).world =
        (preHooksRunner.WorkingDirLocker.TryLock preHooksContext.Pull.BaseRepo.FullName
          preHooksContext.Pull.Num preHooksRunner.DefaultWorkspace
          NewDefaultWorkingDirLocker).1.unlockFn s') ∧
    (preHooksRunner.RunPreHooks ⟨0⟩ preHooksContext NewDefaultWorkingDirLocker).events =
      [PreHookEvent.tryLock "owner/repo" 1 "default",
        PreHookEvent.clone ⟨0⟩ ownerRepo pullOne "default",
        PreHookEvent.runHook ⟨0⟩ preHooksHookContext "echo first" "/repo",
        PreHookEvent.runHook ⟨0⟩ preHooksHookContext "false" "/repo",
        PreHookEvent.unlock] ∧
    (preHooksRunner.RunPreHooks ⟨0⟩ preHooksContext NewDefaultWorkingDirLocker).world =
      NewDefaultWorkingDirLocker :=
  ⟨by decide,
    C17_lock_released_once_on_every_exit preHooksRunner ⟨0⟩ preHooksContext
      NewDefaultWorkingDirLocker (by decide) (by decide),
    by decide, by decide⟩

/-- C18: when at least one hook is configured and `TryLock` fails with an error, `RunPreHooks`
returns that error wrapped with `locking working dir`, its one call of a collaborator is the
one `TryLock`, so that it neither retries, nor clones, nor runs a hook, nor calls a release
function, and it leaves the world state that the `TryLock` left. -/
theorem C18_lock_failure_returns_at_once {σ : Type}
    (w : DefaultPreWorkflowHooksCommandRunner σ) (ctx : Context) (cmdCtx : CommandContext)
    (s : σ) (lockErr : GoError)
    (hhooks : w.collectHooks cmdCtx.Pull.BaseRepo w.GlobalCfg.Repos ≠ [])
    (hlock : (w.WorkingDirLocker.TryLock cmdCtx.Pull.BaseRepo.FullName cmdCtx.Pull.Num
      w.DefaultWorkspace s).1.err = some lockErr) :
    (w.RunPreHooks ctx cmdCtx s).err = some (GoError.wrap lockErr "locking working dir") ∧
    (GoError.wrap lockErr "locking working dir").Error =
      "locking working dir: " ++ lockErr.Error ∧
    (w.RunPreHooks ctx cmdCtx s).events =
      [PreHookEvent.tryLock cmdCtx.Pull.BaseRepo.FullName cmdCtx.Pull.Num w.DefaultWorkspace] ∧
    (w.RunPreHooks ctx cmdCtx s).world =
      (w.WorkingDirLocker.TryLock cmdCtx.Pull.BaseRepo.FullName cmdCtx.Pull.Num
        w.DefaultWorkspace s).2 := by
  have hlen : ¬ (w.collectHooks cmdCtx.Pull.BaseRepo w.GlobalCfg.Repos).length = 0 := by
    simpa using hhooks
  have hrun : w.RunPreHooks ctx cmdCtx s =
      ⟨some (GoError.wrap lockErr "locking working dir"),
        (w.WorkingDirLocker.TryLock cmdCtx.Pull.BaseRepo.FullName cmdCtx.Pull.Num
          w.DefaultWorkspace s).2,
        [PreHookEvent.tryLock cmdCtx.Pull.BaseRepo.FullName cmdCtx.Pull.Num
          w.DefaultWorkspace]⟩ := by
    unfold DefaultPreWorkflowHooksCommandRunner.RunPreHooks
    simp only [hlen, if_false, hlock, errorsWrap]
  rw [hrun]
  exact ⟨rfl, rfl, rfl, rfl⟩

/-- C18, at a registry in which the key of the pull request is already held. -/
theorem C18_lock_failure_witness :
    preHooksRunner.collectHooks preHooksContext.Pull.BaseRepo preHooksRunner.GlobalCfg.Repos ≠
      [] ∧
    (preHooksRunner.RunPreHooks ⟨0⟩ preHooksContext ⟨[⟨"owner/repo", 1, "default"⟩]⟩).err =
      some (GoError.wrap (lockContentionErr ⟨"owner/repo", 1, "default"⟩)
        "locking working dir") ∧
    (preHooksRunner.RunPreHooks ⟨0⟩ preHooksContext ⟨[⟨"owner/repo", 1, "default"⟩]⟩).events =
      [PreHookEvent.tryLock "owner/repo" 1 "default"] :=
  ⟨by decide,
    (C18_lock_failure_returns_at_once preHooksRunner ⟨0⟩ preHooksContext
      ⟨[⟨"owner/repo", 1, "default"⟩]⟩ (lockContentionErr ⟨"owner/repo", 1, "default"⟩)
      (by decide) (by decide)).1,
    by decide⟩

/-! ## Theorems: project results and workflows -/

/-- C19, evaluated where the code departs from it: the result of a version command has a nil
`Error` and an empty `Failure`, and its `VcsStatus` is the success status, but
`IsSuccessful` returns false for it, because the method looks only at `PlanSuccess`,
`PolicyCheckSuccess` and `ApplySuccess`. -/
theorem C19_version_result_without_errors_is_not_successful :
    versionResult.Error = none ∧
    versionResult.Failure = "" ∧
    versionResult.VcsStatus = VCSStatus.SuccessVCSStatus ∧
    versionResult.IsSuccessful = false := by
  refine ⟨by decide, by decide, by decide, by decide⟩

/-- A key just set is found with the value set. -/
theorem GoMap.lookup_after_set {α : Type} (m : GoMap α) (k : String) (v : α) :
    (m.set k v).get k = some v := by
  simp [GoMap.set, GoMap.get, List.lookup]

/-- Setting a key does not change what is found under another key. -/
theorem GoMap.lookup_after_set_other {α : Type} (m : GoMap α) (k : String) (v : α) (k' : String)
    (h : k' ≠ k) : (m.set k v).get k' = m.get k' := by
  have hk : (k' == k) = false := by simpa using h
  simp only [GoMap.set, GoMap.get, List.lookup, hk]
  induction m with
  | nil => rfl
  | cons p ps ih =>
    by_cases hp : p.1 = k
    · have hk2 : (k' == p.1) = false := by simpa [hp] using h
      simp [List.filter_cons, hp, List.lookup, hk2, hk, ih]
    · by_cases hq : k' = p.1
      · simp [List.filter_cons, hp, List.lookup, hq]
      · have hk2 : (k' == p.1) = false := by simpa using hq
        simp [List.filter_cons, hp, List.lookup, hk2, ih]

/-- A key that is not among the keys of a map is not found. -/
theorem GoMap.get_eq_none_of_not_mem_keys {α : Type} (m : GoMap α) (k : String)
    (h : k ∉ m.keys) : m.get k = none := by
  induction m with
  | nil => rfl
  | cons p ps ih =>
    simp only [GoMap.keys, List.map_cons, List.mem_cons, not_or] at h
    have hk : (k == p.1) = false := by simpa using h.1
    simp only [GoMap.get, List.lookup, hk]
    exact ih h.2

/-- After the first loop a key of the raw map holds the converted raw workflow, and any other
key holds what it held before. -/
theorem convertAll_get {S : Type} (D : WorkflowDecls S) (w : GoMap (RawWorkflow S)) :
    ∀ (acc : GoMap ValidWorkflow) (k : String), w.keys.Nodup →
      (Workflows.convertAll D w acc).get k =
        match w.get k with
        | some v => some (v.ToValid D k)
        | none => acc.get k := by
  induction w with
  | nil => intro acc k _; rfl
  | cons p rest ih =>
    intro acc k hnd
    obtain ⟨k0, v0⟩ := p
    simp only [GoMap.keys, List.map_cons, List.nodup_cons] at hnd
    rw [Workflows.convertAll, ih _ k hnd.2]
    by_cases hk : k = k0
    · subst hk
      have hnone : List.lookup k rest = none := GoMap.get_eq_none_of_not_mem_keys rest k hnd.1
      simp [hnone, GoMap.lookup_after_set, GoMap.get, List.lookup]
    · have hb : (k == k0) = false := by simpa using hk
      simp only [GoMap.lookup_after_set_other _ k0 _ k hk]
      simp only [GoMap.get, List.lookup, hb]

/-- After the second loop a key that was present holds what it held, and any other key holds
the default workflow of that name, if there is one. -/
theorem mergeDefaults_get (ds : GoMap ValidWorkflow) :
    ∀ (acc : GoMap ValidWorkflow) (k : String),
      (Workflows.mergeDefaults ds acc).get k =
        match acc.get k with
        | some v => some v
        | none => ds.get k := by
  induction ds with
  | nil => intro acc k; simp [Workflows.mergeDefaults, GoMap.get]; cases List.lookup k acc <;> rfl
  | cons p rest ih =>
    intro acc k
    obtain ⟨k0, v0⟩ := p
    rw [Workflows.mergeDefaults]
    cases h0 : acc.get k0 with
    | some x =>
      simp only [ih]
      by_cases hk : k = k0
      · subst hk; simp [h0]
      · have hb : (k == k0) = false := by simpa using hk
        simp only [GoMap.get, List.lookup, hb]
    | none =>
      simp only [ih]
      by_cases hk : k = k0
      · subst hk
        have h0' : List.lookup k acc = none := h0
        simp [GoMap.lookup_after_set, h0', GoMap.get, List.lookup]
      · have hb : (k == k0) = false := by simpa using hk
        rw [GoMap.lookup_after_set_other _ k0 _ k hk]
        simp only [GoMap.get, List.lookup, hb]

/-- C20: `raw.Workflows.ToValid` merges in the default workflows without overriding.  For a
raw workflow map `w` (one entry per key) and a global configuration `d`: a key is in the
result exactly when it is a key of `w` or of `d.Workflows`; every key `k` of `w` is mapped to
`w[k].ToValid(k)`, also when `d.Workflows` has `k`; and every key that only `d.Workflows` has
is mapped to `d.Workflows[k]` unchanged. -/
theorem C20_defaults_merged_without_overriding {S : Type} (D : WorkflowDecls S)
    (w : GoMap (RawWorkflow S)) (d : GlobalCfg) (hw : w.keys.Nodup) :
    (∀ k : String, (Workflows.ToValid D w d).get k ≠ none ↔
      (w.get k ≠ none ∨ d.Workflows.get k ≠ none)) ∧
    (∀ (k : String) (v : RawWorkflow S), w.get k = some v →
      (Workflows.ToValid D w d).get k = some (v.ToValid D k)) ∧
    (∀ (k : String) (v : ValidWorkflow), w.get k = none → d.Workflows.get k = some v →
      (Workflows.ToValid D w d).get k = some v) := by
  have hget : ∀ k : String, (Workflows.ToValid D w d).get k =
      match w.get k with
      | some v => some (v.ToValid D k)
      | none => d.Workflows.get k := by
    intro k
    unfold Workflows.ToValid
    rw [mergeDefaults_get, convertAll_get D w [] k hw]
    cases w.get k with
    | some v => rfl
    | none => rfl
  refine ⟨?_, ?_, ?_⟩
  · intro k
    rw [hget]
    cases w.get k <;> simp
  · intro k v hk
    rw [hget, hk]
  · intro k v hk hd
    rw [hget, hk, hd]

/-- C20, at the workflows of the case "repo-side workflow override": the repo-side workflow
`custom` wins over the server-side one of the same name, and the server-side workflow
`default` is merged in unchanged. -/
theorem C20_defaults_merged_witness :
    repoWorkflows.keys.Nodup ∧
    (Workflows.ToValid sampleWorkflowDecls repoWorkflows serverCfg).get "custom" =
      some ((⟨some ⟨some []⟩, some ⟨some []⟩, none⟩ : RawWorkflow String).ToValid
        sampleWorkflowDecls "custom") ∧
    (Workflows.ToValid sampleWorkflowDecls repoWorkflows serverCfg).get "custom" =
      some ⟨"custom", ⟨[]⟩, ⟨[]⟩, ⟨[runStep "policy_check"]⟩⟩ ∧
    (Workflows.ToValid sampleWorkflowDecls repoWorkflows serverCfg).get "default" =
      some ⟨"default", ⟨[runStep "apply"]⟩, ⟨[runStep "plan"]⟩, ⟨[]⟩⟩ :=
  ⟨by decide,
    (C20_defaults_merged_without_overriding sampleWorkflowDecls repoWorkflows serverCfg
      (by decide)).2.1 "custom" _ (by decide),
    by decide, by decide⟩

/-! ## Theorems: workflows, continued -/

/-- C21: `raw.Workflow.ToValid(name)` yields a workflow whose `Name` is `name` and whose
apply, plan and policy-check stages are decided each on its own raw stage: a stage that is
nil or whose `Steps` is nil becomes the default stage of its kind, and a stage with a non-nil
`Steps` list, the empty list included, becomes `stage.ToValid()`. -/
theorem C21_workflow_stages_decided_independently {S : Type} (D : WorkflowDecls S)
    (w : RawWorkflow S) (name : String) :
    (w.ToValid D name).Name = name ∧
    ((w.Apply = none ∨ ∃ st, w.Apply = some st ∧ st.Steps = none) →
      (w.ToValid D name).Apply = D.DefaultApplyStage) ∧
    (∀ (st : RawStage S) (steps : List S), w.Apply = some st → st.Steps = some steps →
      (w.ToValid D name).Apply = D.stageToValid st) ∧
    ((w.Plan = none ∨ ∃ st, w.Plan = some st ∧ st.Steps = none) →
      (w.ToValid D name).Plan = D.DefaultPlanStage) ∧
    (∀ (st : RawStage S) (steps : List S), w.Plan = some st → st.Steps = some steps →
      (w.ToValid D name).Plan = D.stageToValid st) ∧
    ((w.PolicyCheck = none ∨ ∃ st, w.PolicyCheck = some st ∧ st.Steps = none) →
      (w.ToValid D name).PolicyCheck = D.DefaultPolicyCheckStage) ∧
    (∀ (st : RawStage S) (steps : List S), w.PolicyCheck = some st → st.Steps = some steps →
      (w.ToValid D name).PolicyCheck = D.stageToValid st) := by
  refine ⟨rfl, ?_, ?_, ?_, ?_, ?_, ?_⟩
  · rintro (h | ⟨st, h, hs⟩) <;> simp [RawWorkflow.ToValid, RawWorkflow.toValidStage, h, *]
  · intro st steps h hs
    simp [RawWorkflow.ToValid, RawWorkflow.toValidStage, h, hs]
  · rintro (h | ⟨st, h, hs⟩) <;> simp [RawWorkflow.ToValid, RawWorkflow.toValidStage, h, *]
  · intro st steps h hs
    simp [RawWorkflow.ToValid, RawWorkflow.toValidStage, h, hs]
  · rintro (h | ⟨st, h, hs⟩) <;> simp [RawWorkflow.ToValid, RawWorkflow.toValidStage, h, *]
  · intro st steps h hs
    simp [RawWorkflow.ToValid, RawWorkflow.toValidStage, h, hs]

/-- C21, at the workflow `specific` of the case "specific repo": a plan stage with the step
`plan`, an apply stage with `steps: []` and no policy-check stage give the plan step, zero
apply steps and the default policy-check stage. -/
theorem C21_workflow_stages_witness :
    ((⟨some ⟨some []⟩, some ⟨some ["plan"]⟩, none⟩ : RawWorkflow String).ToValid
        sampleWorkflowDecls "specific").Apply =
      sampleWorkflowDecls.stageToValid ⟨some []⟩ ∧
    (⟨some ⟨some []⟩, some ⟨some ["plan"]⟩, none⟩ : RawWorkflow String).ToValid
        sampleWorkflowDecls "specific" =
      ⟨"specific", ⟨[]⟩, ⟨[runStep "plan"]⟩, ⟨[runStep "policy_check"]⟩⟩ ∧
    ((⟨none, some ⟨some ["plan"]⟩, none⟩ : RawWorkflow String).ToValid
        sampleWorkflowDecls "custom").Apply =
      sampleWorkflowDecls.DefaultApplyStage :=
  ⟨(C21_workflow_stages_decided_independently sampleWorkflowDecls
      ⟨some ⟨some []⟩, some ⟨some ["plan"]⟩, none⟩ "specific").2.2.1 ⟨some []⟩ [] rfl rfl,
    by decide, by decide⟩

/-! ## Theorems: the pre-workflow hooks, continued -/

/-- No hook is collected when no repo both matches and has hooks. -/
theorem collectHooks_eq_nil {σ : Type} (w : DefaultPreWorkflowHooksCommandRunner σ)
    (baseRepo : Repo) (repos : List ValidRepo)
    (h : ∀ repo ∈ repos,
      ¬ (repo.IDMatches (w.repoID baseRepo) = true ∧ repo.PreWorkflowHooks ≠ [])) :
    w.collectHooks baseRepo repos = [] := by
  induction repos with
  | nil => rfl
  | cons repo rest ih =>
    have hrest := ih (fun r hr => h r (List.mem_cons_of_mem _ hr))
    have hrepo := h repo (List.mem_cons_self _ _)
    rw [DefaultPreWorkflowHooksCommandRunner.collectHooks, hrest]
    by_cases hm : repo.IDMatches (w.repoID baseRepo) = true
    · have hnil : repo.PreWorkflowHooks = [] := by
        by_contra hne
        exact hrepo ⟨hm, hne⟩
      simp [hnil]
    · simp [hm]

/-- C22: `RunPreHooks` short-circuits when no pre-workflow hook is configured.  If no repo
entry of the global configuration both matches the ID of the base repo and has a non-empty
hook list, `RunPreHooks` returns nil, makes no call of `TryLock`, of `Clone`, of the hook
runner or of a release function, and leaves the world state as it was. -/
theorem C22_no_hooks_short_circuits {σ : Type} (w : DefaultPreWorkflowHooksCommandRunner σ)
    (ctx : Context) (cmdCtx : CommandContext) (s : σ)
    (hnone : ∀ repo ∈ w.GlobalCfg.Repos,
      ¬ (repo.IDMatches (w.repoID cmdCtx.Pull.BaseRepo) = true ∧ repo.PreWorkflowHooks ≠ [])) :
    (w.RunPreHooks ctx cmdCtx s).err = none ∧
    (w.RunPreHooks ctx cmdCtx s).events = [] ∧
    (w.RunPreHooks ctx cmdCtx s).world = s := by
  have hnil := collectHooks_eq_nil w cmdCtx.Pull.BaseRepo w.GlobalCfg.Repos hnone
  have hrun : w.RunPreHooks ctx cmdCtx s = ⟨none, s, []⟩ := by
    unfold DefaultPreWorkflowHooksCommandRunner.RunPreHooks
    simp only [hnil, List.length_nil, if_true]
  rw [hrun]
  exact ⟨rfl, rfl, rfl⟩

/-- C22, at a configuration whose only hooks belong to another repo: `RunPreHooks` for pull
request 1 of `owner/repo` returns nil without any call. -/
theorem C22_no_hooks_witness :
    (∀ repo ∈ noHooksRunner.GlobalCfg.Repos,
      ¬ (repo.IDMatches (noHooksRunner.repoID preHooksContext.Pull.BaseRepo) = true ∧
        repo.PreWorkflowHooks ≠ [])) ∧
    (noHooksRunner.RunPreHooks ⟨0⟩ preHooksContext NewDefaultWorkingDirLocker).err = none ∧
    (noHooksRunner.RunPreHooks ⟨0⟩ preHooksContext NewDefaultWorkingDirLocker).events = [] ∧
    (noHooksRunner.RunPreHooks ⟨0⟩ preHooksContext NewDefaultWorkingDirLocker).world =
      NewDefaultWorkingDirLocker :=
  ⟨by decide,
    C22_no_hooks_short_circuits noHooksRunner ⟨0⟩ preHooksContext NewDefaultWorkingDirLocker
      (by decide)⟩

/-- The loop of `runHooks` with a first failure: the hooks before it and the failing hook are
run, in order, and the error and the world state of the failing run are returned. -/
theorem runHooks_first_failure {σ : Type} (w : DefaultPreWorkflowHooksCommandRunner σ)
    (ctx : Context) (cmdCtx : PreWorkflowHookCommandContext) (repoDir : String)
    (pre : List PreWorkflowHook) (hook : PreWorkflowHook) (post : List PreWorkflowHook)
    (e : GoError) :
    ∀ s : σ, w.allSucceed ctx cmdCtx repoDir pre s →
      (w.PreWorkflowHookRunner.Run ctx cmdCtx hook.RunCommand repoDir
        (w.worldAfter ctx cmdCtx repoDir pre s)).1.err = some e →
      w.runHooks ctx cmdCtx (pre ++ hook :: post) repoDir s =
        ⟨some e,
          (w.PreWorkflowHookRunner.Run ctx cmdCtx hook.RunCommand repoDir
            (w.worldAfter ctx cmdCtx repoDir pre s)).2,
          (pre ++ [hook]).map (fun h => PreHookEvent.runHook ctx cmdCtx h.RunCommand repoDir)⟩ := by
  induction pre with
  | nil =>
    intro s _ herr
    exact runHooks_cons_err w ctx cmdCtx hook post repoDir s e herr
  | cons p pre ih =>
    intro s hall herr
    obtain ⟨hp, hrest⟩ := hall
    rw [List.cons_append, runHooks_cons_ok w ctx cmdCtx p (pre ++ hook :: post) repoDir s hp,
      ih _ hrest herr]
    rfl

/-- The loop of `runHooks` without a failure: every hook is run, in order, and nil is
returned. -/
theorem runHooks_all_succeed {σ : Type} (w : DefaultPreWorkflowHooksCommandRunner σ)
    (ctx : Context) (cmdCtx : PreWorkflowHookCommandContext) (repoDir : String)
    (hooks : List PreWorkflowHook) :
    ∀ s : σ, w.allSucceed ctx cmdCtx repoDir hooks s →
      w.runHooks ctx cmdCtx hooks repoDir s =
        ⟨none, w.worldAfter ctx cmdCtx repoDir hooks s,
          hooks.map (fun h => PreHookEvent.runHook ctx cmdCtx h.RunCommand repoDir)⟩ := by
  induction hooks with
  | nil => intro s _; rfl
  | cons p rest ih =>
    intro s hall
    obtain ⟨hp, hrest⟩ := hall
    rw [runHooks_cons_ok w ctx cmdCtx p rest repoDir s hp, ih _ hrest]
    rfl

/-- C28: `runHooks` runs the run commands of the hooks strictly in list order and stops at
the first failure.  If the hooks before a hook all succeed when run one after the other and
that hook fails with an error, then exactly those hooks and the failing one are run, each
once and in order, no later hook is run, and `runHooks` returns that error unchanged; if
every hook succeeds, every hook is run once, in order, and nil is returned; and when
`runHooks` returns an error after a successful `TryLock` and clone, `RunPreHooks` returns it
wrapped with `running pre workflow hooks`. -/
theorem C28_hooks_run_in_order_until_first_failure {σ : Type}
    (w : DefaultPreWorkflowHooksCommandRunner σ) (ctx : Context) :
    (∀ (hookCtx : PreWorkflowHookCommandContext) (repoDir : String)
      (pre : List PreWorkflowHook) (hook : PreWorkflowHook) (post : List PreWorkflowHook)
      (e : GoError) (s : σ),
      w.allSucceed ctx hookCtx repoDir pre s →
      (w.PreWorkflowHookRunner.Run ctx hookCtx hook.RunCommand repoDir
        (w.worldAfter ctx hookCtx repoDir pre s)).1.err = some e →
      (w.runHooks ctx hookCtx (pre ++ hook :: post) repoDir s).err = some e ∧
      (w.runHooks ctx hookCtx (pre ++ hook :: post) repoDir s).events =
        (pre ++ [hook]).map (fun h => PreHookEvent.runHook ctx hookCtx h.RunCommand repoDir) ∧
      (w.runHooks ctx hookCtx (pre ++ hook :: post) repoDir s).world =
        (w.PreWorkflowHookRunner.Run ctx hookCtx hook.RunCommand repoDir
          (w.worldAfter ctx hookCtx repoDir pre s)).2) ∧
    (∀ (hookCtx : PreWorkflowHookCommandContext) (repoDir : String)
      (hooks : List PreWorkflowHook) (s : σ),
      w.allSucceed ctx hookCtx repoDir hooks s →
      (w.runHooks ctx hookCtx hooks repoDir s).err = none ∧
      (w.runHooks ctx hookCtx hooks repoDir s).events =
        hooks.map (fun h => PreHookEvent.runHook ctx hookCtx h.RunCommand repoDir) ∧
      (w.runHooks ctx hookCtx hooks repoDir s).world =
        w.worldAfter ctx hookCtx repoDir hooks s) ∧
    (∀ (cmdCtx : CommandContext) (s : σ) (e : GoError),
      w.collectHooks cmdCtx.Pull.BaseRepo w.GlobalCfg.Repos ≠ [] →
      (w.WorkingDirLocker.TryLock cmdCtx.Pull.BaseRepo.FullName cmdCtx.Pull.Num
        w.DefaultWorkspace s).1.err = none →
      (w.WorkingDir.Clone cmdCtx.Log cmdCtx.HeadRepo cmdCtx.Pull w.DefaultWorkspace
        (w.WorkingDirLocker.TryLock cmdCtx.Pull.BaseRepo.FullName cmdCtx.Pull.Num
          w.DefaultWorkspace s).2).1.err = none →
      (w.runHooks ctx
        ⟨cmdCtx.Pull.BaseRepo, cmdCtx.HeadRepo, cmdCtx.Log, cmdCtx.Pull, cmdCtx.User⟩
        (w.collectHooks cmdCtx.Pull.BaseRepo w.GlobalCfg.Repos)
        (w.WorkingDir.Clone cmdCtx.Log cmdCtx.HeadRepo cmdCtx.Pull w.DefaultWorkspace
          (w.WorkingDirLocker.TryLock cmdCtx.Pull.BaseRepo.FullName cmdCtx.Pull.Num
            w.DefaultWorkspace s).2).1.repoDir
        (w.WorkingDir.Clone cmdCtx.Log cmdCtx.HeadRepo cmdCtx.Pull w.DefaultWorkspace
          (w.WorkingDirLocker.TryLock cmdCtx.Pull.BaseRepo.FullName cmdCtx.Pull.Num
            w.DefaultWorkspace s).2).2).err = some e →
      (w.RunPreHooks ctx cmdCtx s).err =
        some (GoError.wrap e "running pre workflow hooks")) := by
  refine ⟨?_, ?_, ?_⟩
  · intro hookCtx repoDir pre hook post e s hall herr
    rw [runHooks_first_failure w ctx hookCtx repoDir pre hook post e s hall herr]
    exact ⟨rfl, rfl, rfl⟩
  · intro hookCtx repoDir hooks s hall
    rw [runHooks_all_succeed w ctx hookCtx repoDir hooks s hall]
    exact ⟨rfl, rfl, rfl⟩
  · intro cmdCtx s e hhooks hlock hclone hrun
    have hlen : ¬ (w.collectHooks cmdCtx.Pull.BaseRepo w.GlobalCfg.Repos).length = 0 := by
      simpa using hhooks
    unfold DefaultPreWorkflowHooksCommandRunner.RunPreHooks
    simp only [hlen, if_false, hlock, hclone, hrun, errorsWrap]

/-- C28, at the three hooks `echo first`, `false`, `echo third`, of which the second fails:
two hooks are run, and `RunPreHooks` returns the error wrapped. -/
theorem C28_hooks_run_witness :
    preHooksRunner.allSucceed ⟨0⟩ preHooksHookContext "/repo" [⟨"echo first"⟩]
      NewDefaultWorkingDirLocker ∧
    (preHooksRunner.runHooks ⟨0⟩ preHooksHookContext
        ([⟨"echo first"⟩] ++ ⟨"false"⟩ :: [⟨"echo third"⟩]) "/repo"
        NewDefaultWorkingDirLocker).events =
      [PreHookEvent.runHook ⟨0⟩ preHooksHookContext "echo first" "/repo",
        PreHookEvent.runHook ⟨0⟩ preHooksHookContext "false" "/repo"] ∧
    (preHooksRunner.RunPreHooks ⟨0⟩ preHooksContext NewDefaultWorkingDirLocker).err =
      some (GoError.wrap (GoError.new "exit status 1") "running pre workflow hooks") :=
  ⟨⟨rfl, trivial⟩,
    ((C28_hooks_run_in_order_until_first_failure preHooksRunner ⟨0⟩).1 preHooksHookContext
      "/repo" [⟨"echo first"⟩] ⟨"false"⟩ [⟨"echo third"⟩] (GoError.new "exit status 1")
      NewDefaultWorkingDirLocker ⟨rfl, trivial⟩ rfl).2.1,
    by decide⟩

/-! ## Theorems: the gateway check-suite handler -/

/-- C23: `CheckSuiteHandler.Handle` hands a task to the scheduler exactly when the action
type of the event is the re-requested type and the branch of the event equals the default
branch of its repo; otherwise it returns nil, schedules nothing and leaves the world as it
was.  When it schedules, it schedules once, returns what the scheduler returns, and the task
calls `RootDeployer.Deploy` with the repo, the branch, the head SHA as revision, the sender
and the installation token of the event, and a manual trigger marked as a rerun. -/
theorem C23_check_suite_schedules_rerequested_default_branch {σ : Type} (G : GatewayDecls)
    (h : CheckSuiteHandler σ) (ctx : Context) (event : CheckSuite) (w : σ) :
    ((h.Handle G ctx event w).scheduled ≠ [] ↔
      (event.Action.GetType = G.ReRequestedActionType ∧
        event.Branch = event.Repo.DefaultBranch)) ∧
    (¬ (event.Action.GetType = G.ReRequestedActionType ∧
        event.Branch = event.Repo.DefaultBranch) →
      (h.Handle G ctx event w).err = none ∧ (h.Handle G ctx event w).scheduled = [] ∧
      (h.Handle G ctx event w).world = w) ∧
    ((event.Action.GetType = G.ReRequestedActionType ∧
        event.Branch = event.Repo.DefaultBranch) →
      (h.Handle G ctx event w).scheduled = [fun ctx' => h.handle G ctx' event] ∧
      (h.Handle G ctx event w).err =
        (h.Scheduler.Schedule ctx (fun ctx' => h.handle G ctx' event) w).1 ∧
      (h.Handle G ctx event w).world =
        (h.Scheduler.Schedule ctx (fun ctx' => h.handle G ctx' event) w).2) ∧
    (∀ (ctx' : Context) (w' : σ),
      h.handle G ctx' event w' =
        h.RootDeployer.Deploy ctx'
          ⟨event.Repo, event.Branch, event.HeadSha, event.Sender, event.InstallationToken,
            ⟨G.ManualTrigger, true⟩⟩ w') := by
  by_cases ht : event.Action.GetType = G.ReRequestedActionType
  · by_cases hb : event.Branch = event.Repo.DefaultBranch
    · have hrun : h.Handle G ctx event w =
          ⟨(h.Scheduler.Schedule ctx (fun ctx' => h.handle G ctx' event) w).1,
            (h.Scheduler.Schedule ctx (fun ctx' => h.handle G ctx' event) w).2,
            [fun ctx' => h.handle G ctx' event]⟩ := by
        unfold CheckSuiteHandler.Handle
        rw [if_neg (not_not.mpr ht), if_neg (not_not.mpr hb)]
      rw [hrun]
      refine ⟨⟨fun _ => ⟨ht, hb⟩, fun _ => by simp⟩, fun hn => absurd ⟨ht, hb⟩ hn,
        fun _ => ⟨rfl, rfl, rfl⟩, fun _ _ => rfl⟩
    · have hrun : h.Handle G ctx event w = ⟨none, w, []⟩ := by
        unfold CheckSuiteHandler.Handle
        rw [if_neg (not_not.mpr ht), if_pos hb]
      rw [hrun]
      refine ⟨⟨fun hne => absurd rfl hne, fun hc => absurd hc.2 hb⟩, fun _ => ⟨rfl, rfl, rfl⟩,
        fun hc => absurd hc.2 hb, fun _ _ => rfl⟩
  · have hrun : h.Handle G ctx event w = ⟨none, w, []⟩ := by
      unfold CheckSuiteHandler.Handle
      rw [if_pos ht]
    rw [hrun]
    refine ⟨⟨fun hne => absurd rfl hne, fun hc => absurd hc.1 ht⟩, fun _ => ⟨rfl, rfl, rfl⟩,
      fun hc => absurd hc.1 ht, fun _ _ => rfl⟩

/-- C23, at a re-requested check suite on the default branch `main` of `owner/repo`, with a
scheduler that runs the task at once and a deployer that records its options: one task is
scheduled and one deploy is recorded, and none is for another action type or another
branch. -/
theorem C23_check_suite_witness :
    (rerequestedSuite.Action.GetType = gatewayDecls.ReRequestedActionType ∧
      rerequestedSuite.Branch = rerequestedSuite.Repo.DefaultBranch) ∧
    (recordingCheckSuiteHandler.Handle gatewayDecls ⟨0⟩ rerequestedSuite []).scheduled =
      [fun ctx' => recordingCheckSuiteHandler.handle gatewayDecls ctx' rerequestedSuite] ∧
    (recordingCheckSuiteHandler.Handle gatewayDecls ⟨0⟩ rerequestedSuite []).world =
      [⟨ownerRepo, "main", "1a2b3c", ⟨"user"⟩, 42, ⟨"manual", true⟩⟩] ∧
    (recordingCheckSuiteHandler.Handle gatewayDecls ⟨0⟩
      ⟨⟨"completed"⟩, "1a2b3c", ownerRepo, ⟨"user"⟩, 42, "main"⟩ []).world = [] ∧
    (recordingCheckSuiteHandler.Handle gatewayDecls ⟨0⟩
      ⟨⟨"rerequested"⟩, "1a2b3c", ownerRepo, ⟨"user"⟩, 42, "feature"⟩ []).world = [] :=
  ⟨⟨by decide, by decide⟩,
    ((C23_check_suite_schedules_rerequested_default_branch gatewayDecls
      recordingCheckSuiteHandler ⟨0⟩ rerequestedSuite []).2.2.1 ⟨by decide, by decide⟩).1,
    by decide, by decide, by decide⟩

/-! ## Theorems: the gateway pull-request handler in platform mode -/

/-- C24: `handlePlatformMode` calls `SignalWithStartWorkflow` exactly once when the list of
roots is non-empty and the allocator returns `(true, nil)` for the legacy-deprecation feature
with the full name of the head repo; with an empty list of roots, an allocator error or a
`false` answer it signals nothing and returns nil.  The one call passes the roots and the
request built from the event, and is made in the world the allocator left; an error of the
signaling call is returned wrapped with `signaling workflow`, nil is returned when the call
succeeds, and the world afterwards is the one the signaling call left.  With an empty list of
roots the allocator is not called and the world is left as it was; with a non-empty list the
allocator is called exactly once, and when nothing is signaled the world afterwards is the
one the allocator left. -/
theorem C24_platform_mode_signals_once_when_allocated {R σ : Type} (G : GatewayDecls)
    (p : ModifiedPullHandler R σ) (ctx : Context) (event : PullRequestEvent) (roots : List R)
    (w : σ) :
    ((p.handlePlatformMode G ctx event roots w).signalCalls.length = 1 ↔
      (roots ≠ [] ∧
        (p.Allocator.ShouldAllocate G.LegacyDeprecation ⟨event.Pull.HeadRepo.FullName⟩ w).1 =
          (true, none))) ∧
    (¬ (roots ≠ [] ∧
        (p.Allocator.ShouldAllocate G.LegacyDeprecation ⟨event.Pull.HeadRepo.FullName⟩ w).1 =
          (true, none)) →
      (p.handlePlatformMode G ctx event roots w).signalCalls = [] ∧
      (p.handlePlatformMode G ctx event roots w).err = none) ∧
    ((roots ≠ [] ∧
        (p.Allocator.ShouldAllocate G.LegacyDeprecation ⟨event.Pull.HeadRepo.FullName⟩ w).1 =
          (true, none)) →
      (p.handlePlatformMode G ctx event roots w).signalCalls =
        [⟨ctx, roots, platformRequest event⟩] ∧
      (∀ e : GoError,
        (p.PRSignaler.SignalWithStartWorkflow ctx roots (platformRequest event)
          (p.Allocator.ShouldAllocate G.LegacyDeprecation ⟨event.Pull.HeadRepo.FullName⟩
            w).2).1.2 = some e →
        (p.handlePlatformMode G ctx event roots w).err =
          some (GoError.wrap e "signaling workflow")) ∧
      ((p.PRSignaler.SignalWithStartWorkflow ctx roots (platformRequest event)
          (p.Allocator.ShouldAllocate G.LegacyDeprecation ⟨event.Pull.HeadRepo.FullName⟩
            w).2).1.2 = none →
        (p.handlePlatformMode G ctx event roots w).err = none) ∧
      (p.handlePlatformMode G ctx event roots w).world =
        (p.PRSignaler.SignalWithStartWorkflow ctx roots (platformRequest event)
          (p.Allocator.ShouldAllocate G.LegacyDeprecation ⟨event.Pull.HeadRepo.FullName⟩
            w).2).2) ∧
    (roots = [] →
      (p.handlePlatformMode G ctx event roots w).allocatorCalls = [] ∧
      (p.handlePlatformMode G ctx event roots w).world = w) ∧
    (roots ≠ [] →
      (p.handlePlatformMode G ctx event roots w).allocatorCalls =
        [(G.LegacyDeprecation, ⟨event.Pull.HeadRepo.FullName⟩)]) ∧
    (roots ≠ [] →
      ¬ (p.Allocator.ShouldAllocate G.LegacyDeprecation ⟨event.Pull.HeadRepo.FullName⟩ w).1 =
          (true, none) →
      (p.handlePlatformMode G ctx event roots w).world =
        (p.Allocator.ShouldAllocate G.LegacyDeprecation ⟨event.Pull.HeadRepo.FullName⟩
          w).2) := by
  cases roots with
  | nil =>
    have hrun : p.handlePlatformMode G ctx event [] w = ⟨none, w, [], []⟩ := by
      unfold ModifiedPullHandler.handlePlatformMode
      simp
    rw [hrun]
    refine ⟨⟨fun hl => by simp at hl, fun hc => absurd rfl hc.1⟩, fun _ => ⟨rfl, rfl⟩,
      fun hc => absurd rfl hc.1, fun _ => ⟨rfl, rfl⟩, fun hr => absurd rfl hr,
      fun hr => absurd rfl hr⟩
  | cons r rs =>
    have hlen : ¬ (r :: rs).length = 0 := by simp
    generalize hal : p.Allocator.ShouldAllocate G.LegacyDeprecation
      ⟨event.Pull.HeadRepo.FullName⟩ w = allocated
    obtain ⟨⟨answer, aerr⟩, w1⟩ := allocated
    cases aerr with
    | some ae =>
      have hrun : p.handlePlatformMode G ctx event (r :: rs) w =
          ⟨none, w1, [(G.LegacyDeprecation, ⟨event.Pull.HeadRepo.FullName⟩)], []⟩ := by
        unfold ModifiedPullHandler.handlePlatformMode
        simp only [hlen, if_false, hal]
      rw [hrun]
      refine ⟨⟨fun hl => by simp at hl, fun hc => by simp at hc⟩, fun _ => ⟨rfl, rfl⟩,
        fun hc => by simp at hc, fun hr => by simp at hr, fun _ => rfl, fun _ _ => rfl⟩
    | none =>
      cases answer with
      | false =>
        have hrun : p.handlePlatformMode G ctx event (r :: rs) w =
            ⟨none, w1, [(G.LegacyDeprecation, ⟨event.Pull.HeadRepo.FullName⟩)], []⟩ := by
          unfold ModifiedPullHandler.handlePlatformMode
          simp only [hlen, if_false, hal, Bool.not_false, if_true]
        rw [hrun]
        refine ⟨⟨fun hl => by simp at hl, fun hc => by simp at hc⟩, fun _ => ⟨rfl, rfl⟩,
          fun hc => by simp at hc, fun hr => by simp at hr, fun _ => rfl, fun _ _ => rfl⟩
      | true =>
        have hrun : p.handlePlatformMode G ctx event (r :: rs) w =
            ⟨errorsWrap (p.PRSignaler.SignalWithStartWorkflow ctx (r :: rs)
                (platformRequest event) w1).1.2 "signaling workflow",
              (p.PRSignaler.SignalWithStartWorkflow ctx (r :: rs)
                (platformRequest event) w1).2,
              [(G.LegacyDeprecation, ⟨event.Pull.HeadRepo.FullName⟩)],
              [⟨ctx, r :: rs, platformRequest event⟩]⟩ := by
          unfold ModifiedPullHandler.handlePlatformMode
          simp only [hlen, if_false, hal, Bool.not_true, Bool.false_eq_true]
        rw [hrun]
        refine ⟨⟨fun _ => ⟨by simp, rfl⟩, fun _ => rfl⟩, fun hn => absurd ⟨by simp, rfl⟩ hn,
          fun _ => ⟨rfl, ?_, ?_, rfl⟩, fun hr => by simp at hr, fun _ => rfl,
          fun _ hn => absurd rfl hn⟩
        · intro e he
          simp only [he, errorsWrap]
        · intro he
          simp only [he, errorsWrap]

/-- C24, at pull request 1 of `owner/repo` with one root and an allocator that answers
`(true, nil)`: one signaling call, with the request built from the event, after one call of
the allocator, each of which advances the counter of calls; with the answer `false` only the
allocator is called. -/
theorem C24_platform_mode_witness :
    ((["root"] : List String) ≠ [] ∧
      ((samplePullHandler (true, none)).Allocator.ShouldAllocate
        gatewayDecls.LegacyDeprecation ⟨pullOneEvent.Pull.HeadRepo.FullName⟩ 0).1 =
        (true, none)) ∧
    ((samplePullHandler (true, none)).handlePlatformMode gatewayDecls ⟨0⟩ pullOneEvent
      ["root"] 0).signalCalls = [⟨⟨0⟩, ["root"], platformRequest pullOneEvent⟩] ∧
    ((samplePullHandler (true, none)).handlePlatformMode gatewayDecls ⟨0⟩ pullOneEvent
      ["root"] 0).world = 2 ∧
    ((samplePullHandler (true, none)).handlePlatformMode gatewayDecls ⟨0⟩ pullOneEvent
      ["root"] 0).allocatorCalls = [("legacy-deprecation", ⟨"owner/repo"⟩)] ∧
    ((samplePullHandler (false, none)).handlePlatformMode gatewayDecls ⟨0⟩ pullOneEvent
      ["root"] 0).world = 1 ∧
    ((samplePullHandler (true, none)).handlePlatformMode gatewayDecls ⟨0⟩ pullOneEvent
      [] 0).world = 0 :=
  ⟨⟨by decide, rfl⟩,
    ((C24_platform_mode_signals_once_when_allocated gatewayDecls (samplePullHandler (true, none))
      ⟨0⟩ pullOneEvent ["root"] 0).2.2.1 ⟨by decide, rfl⟩).1,
    by decide, by decide, by decide, by decide⟩

/-! ## Theorems: the apply-eligibility gate, continued -/

/-- Adding no earlier call changes nothing. -/
theorem after_nil (v : Validation) : v.after [] = v := by
  cases v
  rfl

/-- One turn of the loop of `ValidateProject`: a failing requirement ends the loop with its
message, a passing or unrecognised one is followed by the remaining requirements, and only an
undiverged requirement calls `HasDiverged`. -/
theorem validateFrom_cons {V : Type} (K : ApplyReqNames) (hK : K.Distinct)
    (a : AggregateApplyRequirements) (repoDir : String) (ctx : ProjectContext V)
    (req : String) (rest : List String) :
    a.validateFrom K repoDir ctx (req :: rest) =
      match requirementFailure K a repoDir ctx req with
      | some msg =>
        ⟨msg, none,
          if req = K.UnDivergedApplyRequirement then [⟨ctx.Log, repoDir, ctx.BaseRepo⟩] else []⟩
      | none =>
        (a.validateFrom K repoDir ctx rest).after
          (if req = K.UnDivergedApplyRequirement then [⟨ctx.Log, repoDir, ctx.BaseRepo⟩]
            else []) := by
  simp only [ApplyReqNames.Distinct, List.nodup_cons, List.mem_cons, List.mem_singleton,
    not_or, List.not_mem_nil, not_false_eq_true, List.nodup_nil, and_true] at hK
  obtain ⟨⟨_, _, h14, _⟩, ⟨_, h24, _⟩, ⟨h34, _⟩, h45⟩ := hK
  rw [AggregateApplyRequirements.validateFrom, requirementFailure]
  by_cases c1 : req = K.ApprovedApplyRequirement
  · have c4 : ¬ req = K.UnDivergedApplyRequirement := c1 ▸ h14
    rw [if_pos c1, if_pos c1, if_neg c4]
    cases hA : ctx.PullReqStatus.ApprovalStatus.IsApproved <;> simp [after_nil]
  · rw [if_neg c1, if_neg c1]
    by_cases c2 : req = K.PoliciesPassedApplyReq
    · have c4 : ¬ req = K.UnDivergedApplyRequirement := c2 ▸ h24
      rw [if_pos c2, if_pos c2, if_neg c4]
      by_cases hP : ctx.ProjectPlanStatus = ProjectPlanStatus.PassedPolicyCheckStatus <;>
        simp [hP, after_nil]
    · rw [if_neg c2, if_neg c2]
      by_cases c3 : req = K.MergeableApplyRequirement
      · have c4 : ¬ req = K.UnDivergedApplyRequirement := c3 ▸ h34
        rw [if_pos c3, if_pos c3, if_neg c4]
        cases hM : ctx.PullReqStatus.Mergeable <;> simp [after_nil]
      · rw [if_neg c3, if_neg c3]
        by_cases c4 : req = K.UnDivergedApplyRequirement
        · rw [if_pos c4, if_pos c4, if_pos c4]
          cases hD : a.WorkingDir.HasDiverged ctx.Log repoDir ctx.BaseRepo <;> simp
        · rw [if_neg c4, if_neg c4, if_neg c4]
          by_cases c5 : req = K.UnlockedApplyRequirement
          · rw [if_pos c5, if_pos c5]
            cases hS : ctx.PullReqStatus.SQLocked <;> simp [after_nil]
          · rw [if_neg c5, if_neg c5, after_nil]

/-- The loop of `ValidateProject` returns a nil error. -/
theorem validateFrom_err_nil {V : Type} (K : ApplyReqNames) (hK : K.Distinct)
    (a : AggregateApplyRequirements) (repoDir : String) (ctx : ProjectContext V)
    (reqs : List String) : (a.validateFrom K repoDir ctx reqs).err = none := by
  induction reqs with
  | nil => rfl
  | cons req rest ih =>
    rw [validateFrom_cons K hK]
    cases requirementFailure K a repoDir ctx req with
    | some msg => rfl
    | none => simpa [after_err] using ih

/-- The failure of the loop of `ValidateProject` is the message of the first failing
requirement, and the empty string when there is none. -/
theorem validateFrom_failure_first {V : Type} (K : ApplyReqNames) (hK : K.Distinct)
    (a : AggregateApplyRequirements) (repoDir : String) (ctx : ProjectContext V)
    (reqs : List String) :
    (a.validateFrom K repoDir ctx reqs).failure =
      (reqs.findSome? (requirementFailure K a repoDir ctx)).getD "" := by
  induction reqs with
  | nil => rfl
  | cons req rest ih =>
    rw [validateFrom_cons K hK, List.findSome?_cons]
    cases requirementFailure K a repoDir ctx req with
    | some msg => rfl
    | none => simpa [after_failure] using ih

/-- The loop of `ValidateProject` calls `HasDiverged` once for each undiverged requirement
among the requirements up to and including the first failing one. -/
theorem validateFrom_calls_evaluated {V : Type} (K : ApplyReqNames) (hK : K.Distinct)
    (a : AggregateApplyRequirements) (repoDir : String) (ctx : ProjectContext V)
    (reqs : List String) :
    (a.validateFrom K repoDir ctx reqs).hasDivergedCalls =
      List.replicate
        ((evaluatedRequirements K a repoDir ctx reqs).count K.UnDivergedApplyRequirement)
        ⟨ctx.Log, repoDir, ctx.BaseRepo⟩ := by
  induction reqs with
  | nil => rfl
  | cons req rest ih =>
    rw [validateFrom_cons K hK, evaluatedRequirements]
    cases requirementFailure K a repoDir ctx req with
    | some msg =>
      by_cases c4 : req = K.UnDivergedApplyRequirement
      · subst c4
        simp
      · simp [c4, List.count_cons]
    | none =>
      by_cases c4 : req = K.UnDivergedApplyRequirement
      · subst c4
        simp [after_calls, ih, List.replicate_succ]
      · simp [c4, after_calls, ih, List.count_cons]

/-- The loop of `ValidateProject` does the same on a list and on its requirements up to and
including the first failing one. -/
theorem validateFrom_evaluated {V : Type} (K : ApplyReqNames) (hK : K.Distinct)
    (a : AggregateApplyRequirements) (repoDir : String) (ctx : ProjectContext V)
    (reqs : List String) :
    a.validateFrom K repoDir ctx (evaluatedRequirements K a repoDir ctx reqs) =
      a.validateFrom K repoDir ctx reqs := by
  induction reqs with
  | nil => rfl
  | cons req rest ih =>
    rw [evaluatedRequirements]
    cases hf : requirementFailure K a repoDir ctx req with
    | some msg =>
      simp only []
      rw [validateFrom_cons K hK, validateFrom_cons K hK, hf]
    | none =>
      simp only []
      rw [validateFrom_cons K hK, validateFrom_cons K hK, hf, ih]

/-- The loop of `ValidateProject` does the same with and without the requirement strings that
are not one of the five names. -/
theorem validateFrom_recognised {V : Type} (K : ApplyReqNames) (hK : K.Distinct)
    (a : AggregateApplyRequirements) (repoDir : String) (ctx : ProjectContext V)
    (reqs : List String) :
    a.validateFrom K repoDir ctx (reqs.filter K.recognises) =
      a.validateFrom K repoDir ctx reqs := by
  induction reqs with
  | nil => rfl
  | cons req rest ih =>
    by_cases hr : K.recognises req = true
    · rw [List.filter_cons_of_pos hr, validateFrom_cons K hK, validateFrom_cons K hK, ih]
    · rw [List.filter_cons_of_neg hr, ih, validateFrom_cons K hK]
      simp only [ApplyReqNames.recognises, Bool.or_eq_true, beq_iff_eq, not_or] at hr
      obtain ⟨⟨⟨⟨c1, c2⟩, c3⟩, c4⟩, c5⟩ := hr
      simp [requirementFailure, c1, c2, c3, c4, c5, after_nil]

/-- C25: `ValidateProject` always returns a nil error, and its failure string is the message
of the first failing requirement in the order of `ctx.ApplyRequirements` (for each of the
five kinds the message of that kind), or the empty string when no requirement fails.  The
requirements after the first failing one are not evaluated: the result and the calls of
`HasDiverged` are those of the list cut after the first failing requirement, one call for
each undiverged requirement in it.  Requirement strings that are not one of the five names
are ignored: removing them changes nothing. -/
theorem C25_failure_is_first_failing_requirement {V : Type} (K : ApplyReqNames)
    (hK : K.Distinct) (a : AggregateApplyRequirements) (repoDir : String)
    (ctx : ProjectContext V) :
    (a.ValidateProject K repoDir ctx).err = none ∧
    (a.ValidateProject K repoDir ctx).failure =
      (ctx.ApplyRequirements.findSome? (requirementFailure K a repoDir ctx)).getD "" ∧
    a.ValidateProject K repoDir ctx =
      a.validateFrom K repoDir ctx
        (evaluatedRequirements K a repoDir ctx ctx.ApplyRequirements) ∧
    (a.ValidateProject K repoDir ctx).hasDivergedCalls =
      List.replicate
        ((evaluatedRequirements K a repoDir ctx ctx.ApplyRequirements).count
          K.UnDivergedApplyRequirement)
        ⟨ctx.Log, repoDir, ctx.BaseRepo⟩ ∧
    a.ValidateProject K repoDir ctx =
      a.validateFrom K repoDir ctx (ctx.ApplyRequirements.filter K.recognises) :=
  ⟨validateFrom_err_nil K hK a repoDir ctx _, validateFrom_failure_first K hK a repoDir ctx _,
    (validateFrom_evaluated K hK a repoDir ctx _).symm,
    validateFrom_calls_evaluated K hK a repoDir ctx _,
    (validateFrom_recognised K hK a repoDir ctx _).symm⟩

/-- C25, at a pull request that is neither approved nor mergeable and has diverged, with the
requirements `unknown`, `mergeable`, `approved`, `undiverged`: the failure is the message of
`mergeable`, and `HasDiverged` is not called. -/
theorem C25_failure_is_first_failing_witness :
    applyReqNames.Distinct ∧
    alwaysDiverged.ValidateProject applyReqNames "/repo"
        (blockedProject ["unknown", "mergeable", "approved", "undiverged"]) =
      ⟨"Pull request must be mergeable before running apply.", none, []⟩ ∧
    evaluatedRequirements applyReqNames alwaysDiverged "/repo"
        (blockedProject ["unknown", "mergeable", "approved", "undiverged"])
        ["unknown", "mergeable", "approved", "undiverged"] = ["unknown", "mergeable"] ∧
    (alwaysDiverged.ValidateProject applyReqNames "/repo"
        (blockedProject ["unknown", "mergeable", "approved", "undiverged"])).failure =
      ((blockedProject ["unknown", "mergeable", "approved", "undiverged"]).ApplyRequirements.findSome?
        (requirementFailure applyReqNames alwaysDiverged "/repo"
          (blockedProject ["unknown", "mergeable", "approved", "undiverged"]))).getD "" :=
  ⟨by decide, by decide, by decide,
    (C25_failure_is_first_failing_requirement applyReqNames (by decide) alwaysDiverged "/repo"
      (blockedProject ["unknown", "mergeable", "approved", "undiverged"])).2.1⟩

/-! ## Theorems: project results, continued -/

/-- C26: `ProjectResult.VcsStatus` returns `FailedVCSStatus` exactly when `Error` is non-nil
or `Failure` is non-empty and `SuccessVCSStatus` otherwise, never returns `PendingVCSStatus`,
and is the same for two results with the same `Error` and `Failure`, whatever their command
and success fields. -/
theorem C26_vcs_status_reads_error_and_failure (p : ProjectResult) :
    (p.VcsStatus = VCSStatus.FailedVCSStatus ↔ (p.Error ≠ none ∨ p.Failure ≠ "")) ∧
    (¬ (p.Error ≠ none ∨ p.Failure ≠ "") → p.VcsStatus = VCSStatus.SuccessVCSStatus) ∧
    p.VcsStatus ≠ VCSStatus.PendingVCSStatus ∧
    (∀ q : ProjectResult, q.Error = p.Error → q.Failure = p.Failure →
      q.VcsStatus = p.VcsStatus) := by
  refine ⟨?_, ?_, ?_, ?_⟩
  · unfold ProjectResult.VcsStatus
    by_cases he : p.Error = none <;> by_cases hf : p.Failure = "" <;> simp [he, hf]
  · unfold ProjectResult.VcsStatus
    by_cases he : p.Error = none <;> by_cases hf : p.Failure = "" <;> simp [he, hf]
  · unfold ProjectResult.VcsStatus
    by_cases he : p.Error = none <;> by_cases hf : p.Failure = "" <;> simp [he, hf]
  · intro q he hf
    unfold ProjectResult.VcsStatus
    rw [he, hf]

/-- C26, at a plan result with a failure and at the result of a version command, which has
neither an error nor a failure. -/
theorem C26_vcs_status_witness :
    (planResult none "failed").VcsStatus = VCSStatus.FailedVCSStatus ∧
    versionResult.VcsStatus = VCSStatus.SuccessVCSStatus ∧
    (planResult none "").VcsStatus = versionResult.VcsStatus :=
  ⟨(C26_vcs_status_reads_error_and_failure (planResult none "failed")).1.mpr
      (Or.inr (by decide)),
    by decide, by decide⟩

/-- C27: `ProjectResult.PlanStatus` returns a status exactly for the commands `Plan`,
`PolicyCheck` and `Apply`.  For each of the three the result is the errored status of that
command if `Error` is non-nil or `Failure` is non-empty, and its success status otherwise;
for every other command name the method panics. -/
theorem C27_plan_status_defined_for_three_commands (p : ProjectResult) :
    (p.PlanStatus ≠ none ↔
      (p.Command = CommandName.Plan ∨ p.Command = CommandName.PolicyCheck ∨
        p.Command = CommandName.Apply)) ∧
    (p.Command = CommandName.Plan →
      p.PlanStatus = some (if p.Error ≠ none ∨ p.Failure ≠ ""
        then ProjectPlanStatus.ErroredPlanStatus else ProjectPlanStatus.PlannedPlanStatus)) ∧
    (p.Command = CommandName.PolicyCheck →
      p.PlanStatus = some (if p.Error ≠ none ∨ p.Failure ≠ ""
        then ProjectPlanStatus.ErroredPolicyCheckStatus
        else ProjectPlanStatus.PassedPolicyCheckStatus)) ∧
    (p.Command = CommandName.Apply →
      p.PlanStatus = some (if p.Error ≠ none ∨ p.Failure ≠ ""
        then ProjectPlanStatus.ErroredApplyStatus else ProjectPlanStatus.AppliedPlanStatus)) ∧
    (∀ n, p.Command = CommandName.other n → p.PlanStatus = none) := by
  unfold ProjectResult.PlanStatus
  cases hc : p.Command <;> by_cases he : p.Error = none <;> by_cases hf : p.Failure = "" <;>
    simp [he, hf]

/-- C27, at a plan result with an error, at one without, and at the result of a version
command, for which the method panics. -/
theorem C27_plan_status_witness :
    (planResult (some (GoError.new "exit status 1")) "").PlanStatus =
      some ProjectPlanStatus.ErroredPlanStatus ∧
    (planResult none "").PlanStatus = some ProjectPlanStatus.PlannedPlanStatus ∧
    versionResult.PlanStatus = none :=
  ⟨((C27_plan_status_defined_for_three_commands
      (planResult (some (GoError.new "exit status 1")) "")).2.1 rfl).trans (by decide),
    by decide, by decide⟩

/-! ## Theorems: the push event converter -/

/-- C29: on a successful conversion `PushEvent.Convert` sets the action by a fixed
precedence: `DeletedAction` whenever the event is marked deleted, also when it is marked
created as well, otherwise `CreatedAction` when it is marked created, otherwise
`UpdatedAction`. -/
theorem C29_push_action_precedence {G T : Type} (p : PushEvent G T) (e : GithubPushEvent G)
    (push : Push T) (hok : p.Convert e = Except.ok push) :
    push.Action =
      (if e.GetDeleted = true then PushAction.DeletedAction
        else if e.GetCreated = true then PushAction.CreatedAction
        else PushAction.UpdatedAction) ∧
    (e.Deleted = some true → push.Action = PushAction.DeletedAction) := by
  have hact : push.Action =
      (if e.GetDeleted = true then PushAction.DeletedAction
        else if e.GetCreated = true then PushAction.CreatedAction
        else PushAction.UpdatedAction) := by
    unfold PushEvent.Convert at hok
    cases hrepo : p.RepoConverter e.Repo with
    | error err => simp [hrepo] at hok
    | ok repo =>
      simp only [hrepo] at hok
      split at hok
      · split at hok
        · cases hok
        · cases hok
          cases hd : e.GetDeleted <;> cases hcr : e.GetCreated <;> simp
      · cases hok
  refine ⟨hact, fun hd => ?_⟩
  rw [hact]
  simp [GithubPushEvent.GetDeleted, hd]

/-- C29, at a push event on `refs/heads/main` that is marked both created and deleted: the
conversion succeeds with the action `DeletedAction`. -/
theorem C29_push_action_witness :
    samplePushConverter.Convert createdAndDeletedPush =
      Except.ok ⟨⟨"owner/repo", "main"⟩, "1a2b3c", PushAction.DeletedAction, ⟨"user"⟩,
        ⟨"heads", "main"⟩, 42⟩ ∧
    (⟨⟨"owner/repo", "main"⟩, "1a2b3c", PushAction.DeletedAction, ⟨"user"⟩,
        ⟨"heads", "main"⟩, 42⟩ : Push String).Action = PushAction.DeletedAction :=
  ⟨rfl,
    (C29_push_action_precedence samplePushConverter createdAndDeletedPush
      ⟨⟨"owner/repo", "main"⟩, "1a2b3c", PushAction.DeletedAction, ⟨"user"⟩,
        ⟨"heads", "main"⟩, 42⟩ rfl).2 rfl⟩

end Atlantis
